import Mathlib

/-! Sample-rate conversion pipeline: a shallow embedding of rate.c.

The C doubles (`sample_t`, `raw_coef_t`, `factor`, ...) are rationals: the sample and
coefficient arithmetic is exact, and where the source turns a double expression into an
integer count (`max_num_out` of `cubic_spline`, `samples_out` of `rate_flush`) every
operation is rounded to binary64 by `round_double`.  C `int` and the 64-bit `at.all` /
`step.all` words are unbounded integers, and `size_t` counters are naturals reduced
modulo `2 ^ 64`.  A conversion from double to an integer type truncates toward zero; the
conversion to `int` of `max_num_out` checks the range of `int`, the others are taken to
be in range.  Loops run on fuel; a loop whose fuel is exhausted while its guard still
holds yields `none`.  The `assert`s of the source are stated as separate predicates, they
are not part of the state transformers: a transformer gives the run in which its
assertions hold.

Pointers are replaced by values: the shared block that every stage points to is passed
next to the pipeline, and a function that writes through a pointer returns the updated
object.  The FFT scratch cache (`fft_cache_t`) only memoises tables inside
`lsx_safe_rdft`; it carries no sample data and is left out of the state.
-/

namespace Rate

/-! ## Scalars -/

/-- The C type sample_t (a double), in exact arithmetic. -/
abbrev sample_t := ℚ

/-- The C type raw_coef_t (a double), in exact arithmetic. -/
abbrev raw_coef_t := ℚ

/-- Conversion of a double to a C integer type: the fractional part is discarded. -/
def trunc (q : ℚ) : Int := if 0 ≤ q then ⌊q⌋ else ⌈q⌉

/-- The position of the leading binary digit of n (0 for n < 2), on the fuel given. -/
def bit_length : Nat → Nat → Nat
  | 0, _ => 0
  | fuel + 1, n => if 2 ≤ n then bit_length fuel (n / 2) + 1 else 0

/-- The exponent e of the binade of a rational x other than 0: 2^e <= |x| < 2^(e+1). -/
def binade (x : ℚ) : Int :=
  let e0 : Int := (bit_length x.num.natAbs x.num.natAbs : Int) - (bit_length x.den x.den : Int)
  if (2 : ℚ) ^ e0 ≤ |x| then e0 else e0 - 1

/-- The rounding of the exact result of an operation on doubles to a double (IEEE 754
binary64, round to nearest, ties to even): a significand of 53 bits, or a multiple of
2^-1074 below the normal range.  Results beyond the largest finite double are not
rounded to infinity. -/
def round_double (x : ℚ) : ℚ :=
  if x = 0 then 0
  else
    let ulp : ℚ := (2 : ℚ) ^ (max (binade x) (-1022) - 52)
    let q : ℚ := |x| / ulp
    let f : Int := ⌊q⌋
    let m : Int :=
      if q - f < 1 / 2 then f
      else if q - f > 1 / 2 then f + 1
      else if f % 2 = 0 then f else f + 1
    (if x < 0 then -1 else 1) * m * ulp

/-- Conversion of a double to int: the fractional part is discarded.  For a value outside
the range of int the conversion is undefined in C; the value taken here is -2^31, which
the conversion instruction of x86-64 delivers. -/
def double_to_int (x : ℚ) : Int :=
  if -2147483649 < x ∧ x < 2147483648 then trunc x else -2147483648

/-- The constant MULT32 = 65536. * 65536. -/
def MULT32 : ℚ := 65536 * 65536

/-- Number of values of a size_t (64-bit). -/
def SIZE_MOD : Nat := 2 ^ 64

/-- The cast (int) applied to a size_t: low 32 bits, two's complement. -/
def to_int (n : Nat) : Int := ((n + 2 ^ 31) % 2 ^ 32 : Nat) - 2 ^ 31

/-- The field parts.integer of a 32.32 word whose 64-bit value is all. -/
def integer (all : Int) : Int := all / 4294967296

/-- The field parts.fraction of a 32.32 word whose 64-bit value is all. -/
def fraction (all : Int) : Int := all % 4294967296

/-! ## FIFO -/

/-- Modelled from the spec: the FIFO of fifo.h, which is not part of the source at hand
(the spec assumes the primitives create, occupancy, write, reserve, read, read_ptr,
trim_by and trim_to).  A FIFO is the list of its buffered items, oldest first. -/
abbrev fifo_t := List sample_t

/-- Modelled from the spec: fifo_create gives an empty FIFO. -/
def fifo_create : fifo_t := []

/-- Modelled from the spec: fifo_occupancy is the number of buffered items. -/
def fifo_occupancy (f : fifo_t) : Int := f.length

/-- Modelled from the spec: fifo_reserve appends n slots (zero here) at the write end;
the caller then stores through the returned pointer, see fifo_store. -/
def fifo_reserve (f : fifo_t) (n : Int) : fifo_t := f ++ List.replicate n.toNat 0

/-- Modelled from the spec: stores data[k] in slot base + k of the buffer (a store
through the pointer that fifo_reserve returned); a slot outside the buffer is not
part of the FIFO and the store to it is dropped. -/
def fifo_store (f : fifo_t) (base : Nat) (data : List sample_t) : fifo_t :=
  (List.range data.length).foldl (fun acc k => acc.set (base + k) (data.getD k 0)) f

/-- Modelled from the spec: the store output[k] = v through the pointer that fifo_reserve
returned, k counted from the start of the buffer.  A slot among the buffered items is
overwritten; a slot past the write end lies in the buffer behind the FIFO and is shown as
appended (such a store happens only when the reservation was too small, which the
assertion of the kernel excludes). -/
def fifo_store_at (f : fifo_t) (k : Nat) (v : sample_t) : fifo_t :=
  if k < f.length then f.set k v else f ++ List.replicate (k - f.length) 0 ++ [v]

/-- Modelled from the spec: fifo_write appends the n items of data. -/
def fifo_write (f : fifo_t) (n : Int) (data : List sample_t) : fifo_t :=
  f ++ data.take n.toNat

/-- Modelled from the spec: fifo_read removes the n oldest items; when fewer than n
are buffered the read fails and the FIFO is unchanged. -/
def fifo_read (f : fifo_t) (n : Int) : fifo_t :=
  if n ≤ fifo_occupancy f then f.drop n.toNat else f

/-- Modelled from the spec: the item at offset j from fifo_read_ptr (zero outside the
buffered items). -/
def fifo_read_ptr (f : fifo_t) (j : Int) : sample_t :=
  if 0 ≤ j then f.getD j.toNat 0 else 0

/-- Modelled from the spec: fifo_trim_by removes n items from the write end. -/
def fifo_trim_by (f : fifo_t) (n : Int) : fifo_t := f.take (fifo_occupancy f - n).toNat

/-- Modelled from the spec: fifo_trim_to cuts the FIFO down to n items. -/
def fifo_trim_to (f : fifo_t) (n : Int) : fifo_t := f.take n.toNat

/-! ## Data model -/

/-- The half-band filter record dft_filter_t (declared in a header outside the source
at hand; the fields are the ones rate.c uses). -/
structure dft_filter_t where
  dft_length : Int
  num_taps : Int
  post_peak : Int
  coefs : List sample_t
deriving DecidableEq

/-- The struct rate_shared_t: data shared between channels and filters.  The pointer
poly_fir_coefs is none when NULL. -/
structure rate_shared_t where
  poly_fir_coefs : Option (List sample_t)
  half_band : Fin 2 → dft_filter_t

/-- The values a stage_fn_t pointer takes: NULL, the three kernels of rate.c, and the
kernels that rate_filters.h defines (the two named ones and those of the poly_firs
table, numbered). -/
inductive stage_fn_t where
  | null
  | cubic_spline
  | half_sample
  | double_sample
  | half_sample_low
  | half_sample_25
  | poly_fir (k : Nat)
deriving DecidableEq

/-- The struct stage_t.  The unions at and step are kept as their 64-bit member all. -/
structure stage_t where
  fifo : fifo_t
  pre : Int
  pre_post : Int
  preload : Int
  which : Fin 2
  fn : stage_fn_t
  at_all : Int
  step_all : Int
  divisor : Int
  out_in_ratio : ℚ
deriving DecidableEq

/-- A stage as calloc leaves it. -/
def stage_zero : stage_t :=
  { fifo := [], pre := 0, pre_post := 0, preload := 0, which := 0, fn := stage_fn_t.null,
    at_all := 0, step_all := 0, divisor := 0, out_in_ratio := 0 }

/-- The struct rate_t.  The array stages is indexed from -1. -/
structure rate_t where
  factor : ℚ
  samples_in : Nat
  samples_out : Nat
  level : Int
  input_stage_num : Int
  output_stage_num : Int
  upsample : Bool
  stages : Int → stage_t

/-- A zero-initialised rate_t. -/
def rate_zero : rate_t :=
  { factor := 0, samples_in := 0, samples_out := 0, level := 0, input_stage_num := 0,
    output_stage_num := 0, upsample := false, stages := fun _ => stage_zero }

/-- A zero-initialised rate_shared_t. -/
def shared_zero : rate_shared_t :=
  { poly_fir_coefs := none, half_band := fun _ => ⟨0, 0, 0, []⟩ }

/-- One entry of poly_fir_t.interp (rate_filters.h). -/
structure poly_fir1_t where
  phase_bits : Int
  fn : stage_fn_t

/-- One entry of the table poly_firs (rate_filters.h). -/
structure poly_fir_t where
  num_coefs : Int
  pass : ℚ
  stop : ℚ
  att : ℚ
  interp : Int → poly_fir1_t

/-- What rate.c takes from outside: the tables and constants of rate_filters.h and the
filter-design header, the collaborators lsx_design_lpf, lsx_fir_to_phase,
lsx_set_dft_length and lsx_safe_rdft, and the kernels defined in rate_filters.h. -/
structure Env where
  poly_firs : Int → poly_fir_t
  half_fir_coefs_low : List sample_t
  half_fir_coefs_25 : List sample_t
  LSX_TO_3dB : ℚ
  LSX_MAX_TBW0 : ℚ
  LSX_MAX_TBW0A : ℚ
  /-- Arguments Fp, Fs, Fn, allow_aliasing, att, num_taps, k; gives the taps and the
  updated num_taps. -/
  lsx_design_lpf : ℚ → ℚ → ℚ → Bool → ℚ → Int → Int → List raw_coef_t × Int
  /-- Arguments h, num_taps, post_peak, phase; gives the updated h, num_taps and
  post_peak. -/
  lsx_fir_to_phase : List sample_t → Int → Int → ℚ → List sample_t × Int × Int
  lsx_set_dft_length : Int → Int
  /-- Arguments n, type (1 forward, -1 inverse) and the buffer. -/
  lsx_safe_rdft : Int → Int → List sample_t → List sample_t
  /-- The kernels of rate_filters.h, by function pointer. -/
  extern_kernel : stage_fn_t → rate_shared_t → stage_t → fifo_t → Option (stage_t × fifo_t)

/-! ## Stage kernels -/

/-- The macro stage_occupancy. -/
def stage_occupancy (s : stage_t) : Int := max 0 (fifo_occupancy s.fifo - s.pre_post)

/-- The macro stage_read_p, indexed: stage_read_p(s)[j]. -/
def stage_read_p (s : stage_t) (j : Int) : sample_t := fifo_read_ptr s.fifo (s.pre + j)

/-- The sample that one pass of the loop body of cubic_spline stores, for the phase
word at_all. -/
def cubic_spline_sample (p : stage_t) (at_all : Int) : sample_t :=
  let s := fun k : Int => stage_read_p p (integer at_all + k)
  let x : sample_t := fraction at_all * (1 / MULT32)
  let b := (1 / 2) * (s 1 + s (-1)) - s 0
  let a := (1 / 6) * (s 2 - s 1 + s (-1) - s 0 - 4 * b)
  let c := s 1 - s 0 - a - b
  ((a * x + b) * x + c) * x + s 0

/-- The for loop of cubic_spline; base is the slot of output[0] in the output FIFO.
The state is (i, at.all, output FIFO). -/
def cubic_spline_loop (p : stage_t) (num_in : Int) (base : Nat) :
    Nat → Int → Int → fifo_t → Option (Int × Int × fifo_t)
  | 0, i, at_all, output =>
    if integer at_all < num_in then none else some (i, at_all, output)
  | fuel + 1, i, at_all, output =>
    if integer at_all < num_in then
      cubic_spline_loop p num_in base fuel (i + 1) (at_all + p.step_all)
        (fifo_store_at output (base + i.toNat) (cubic_spline_sample p at_all))
    else some (i, at_all, output)

/-- The value of max_num_out in cubic_spline, 1 + num_in * p->out_in_ratio: the product
and the sum are operations on doubles and the sum is converted to int.  The field
out_in_ratio, which rate_init_step keeps as the exact quotient, is read as the double
that the code stores, the rounded quotient. -/
def cubic_spline_max_num_out (p : stage_t) : Int :=
  double_to_int
    (round_double (1 + round_double (stage_occupancy p * round_double p.out_in_ratio)))

/-- The kernel cubic_spline: the updated stage and output FIFO.  With step.all > 0 the
loop takes at most num_in * 2^32 - at.all passes, which is the fuel.  The assertion
assert(max_num_out - i >= 0) is not part of the transformer, it is the predicate
cubic_spline_assert: the transformer gives what the stores and fifo_trim_by leave, the
output FIFO with the i samples written appended to it, which is the result of every run
in which the assertion holds. -/
def cubic_spline (p : stage_t) (output_fifo : fifo_t) : Option (stage_t × fifo_t) :=
  let num_in := stage_occupancy p
  let max_num_out := cubic_spline_max_num_out p
  let output := fifo_reserve output_fifo max_num_out
  match cubic_spline_loop p num_in output_fifo.length
      (num_in * 4294967296 - p.at_all).toNat 0 p.at_all output with
  | none => none
  | some (i, at_all, output) =>
    some ({ p with fifo := fifo_read p.fifo (integer at_all), at_all := fraction at_all },
          fifo_trim_by output (max_num_out - i))

/-- The spectrum product shared by half_sample and double_sample: output[0] and
output[1] are scaled, the other bins are multiplied as complex pairs. -/
def spectrum_multiply (coefs : List sample_t) (dft_length : Int) (output : List sample_t) :
    List sample_t :=
  let output := output.set 0 (output.getD 0 0 * coefs.getD 0 0)
  let output := output.set 1 (output.getD 1 0 * coefs.getD 1 0)
  (List.range ((dft_length - 1) / 2).toNat).foldl (fun out m =>
    let i := 2 + 2 * m
    let tmp := out.getD i 0
    let out1 := out.set i (coefs.getD i 0 * tmp - coefs.getD (i + 1) 0 * out.getD (i + 1) 0)
    out1.set (i + 1) (coefs.getD (i + 1) 0 * tmp + coefs.getD i 0 * out1.getD (i + 1) 0))
    output

/-- The block that one pass of the while loop of half_sample computes in the reserved
dft_length slots. -/
def half_sample_block (env : Env) (f : dft_filter_t) (input : fifo_t) : List sample_t :=
  let overlap := f.num_taps - 1
  let output := (List.range f.dft_length.toNat).map (fun k => input.getD k 0)
  let output := env.lsx_safe_rdft f.dft_length 1 output
  let output := spectrum_multiply f.coefs f.dft_length output
  let output := env.lsx_safe_rdft f.dft_length (-1) output
  (List.range ((f.dft_length - overlap - 1) / 2).toNat).foldl
    (fun out m => out.set (1 + m) (out.getD (2 + 2 * m) 0)) output

/-- The while loop of half_sample.  The state is (num_in, input FIFO, output FIFO).
The source trims the reservation before it fills the block; the stores are the same. -/
def half_sample_loop (env : Env) (f : dft_filter_t) :
    Nat → Int → fifo_t → fifo_t → Option (fifo_t × fifo_t)
  | 0, num_in, fifo, output_fifo =>
    if num_in ≥ f.dft_length then none else some (fifo, output_fifo)
  | fuel + 1, num_in, fifo, output_fifo =>
    if num_in ≥ f.dft_length then
      let overlap := f.num_taps - 1
      let output := fifo_store (fifo_reserve output_fifo f.dft_length) output_fifo.length
        (half_sample_block env f fifo)
      half_sample_loop env f fuel (num_in - (f.dft_length - overlap))
        (fifo_read fifo (f.dft_length - overlap))
        (fifo_trim_by output ((f.dft_length + overlap) >>> (1 : Nat)))
    else some (fifo, output_fifo)

/-- The kernel half_sample.  Every pass lowers num_in by dft_length - overlap, so with
dft_length > overlap at most num_in - dft_length + 1 passes run, which is the fuel. -/
def half_sample (env : Env) (shared : rate_shared_t) (p : stage_t) (output_fifo : fifo_t) :
    Option (stage_t × fifo_t) :=
  let num_in := max 0 (fifo_occupancy p.fifo)
  let f := shared.half_band p.which
  match half_sample_loop env f (num_in - f.dft_length + 1).toNat num_in p.fifo output_fifo with
  | none => none
  | some (fifo, output) => some ({ p with fifo := fifo }, output)

/-- The block that one pass of the while loop of double_sample computes in the
reserved dft_length slots. -/
def double_sample_block (env : Env) (f : dft_filter_t) (input : fifo_t) : List sample_t :=
  let output := List.replicate f.dft_length.toNat (0 : sample_t)
  let output := (List.range ((f.dft_length + 1) / 2).toNat).foldl
    (fun out j => (out.set (2 * j) (input.getD j 0)).set (2 * j + 1) 0) output
  let output := env.lsx_safe_rdft f.dft_length 1 output
  let output := spectrum_multiply f.coefs f.dft_length output
  env.lsx_safe_rdft f.dft_length (-1) output

/-- The while loop of double_sample.  The state is (num_in, input FIFO, output FIFO). -/
def double_sample_loop (env : Env) (f : dft_filter_t) :
    Nat → Int → fifo_t → fifo_t → Option (fifo_t × fifo_t)
  | 0, num_in, fifo, output_fifo =>
    if num_in > f.dft_length >>> (1 : Nat) then none else some (fifo, output_fifo)
  | fuel + 1, num_in, fifo, output_fifo =>
    if num_in > f.dft_length >>> (1 : Nat) then
      let overlap := f.num_taps - 1
      let output := fifo_store (fifo_reserve output_fifo f.dft_length) output_fifo.length
        (double_sample_block env f fifo)
      double_sample_loop env f fuel (num_in - ((f.dft_length - overlap) >>> (1 : Nat)))
        (fifo_read fifo ((f.dft_length - overlap) >>> (1 : Nat)))
        (fifo_trim_by output overlap)
    else some (fifo, output_fifo)

/-- The kernel double_sample (it always uses half_band[1]). -/
def double_sample (env : Env) (shared : rate_shared_t) (p : stage_t) (output_fifo : fifo_t) :
    Option (stage_t × fifo_t) :=
  let num_in := max 0 (fifo_occupancy p.fifo)
  let f := shared.half_band 1
  match double_sample_loop env f (num_in - (f.dft_length >>> (1 : Nat))).toNat num_in p.fifo
      output_fifo with
  | none => none
  | some (fifo, output) => some ({ p with fifo := fifo }, output)

/-! ## Filter factory -/

/-- The macro coef: the index of an entry of the polyphase table. -/
def coef (interp_order fir_len phase_num coef_interp_num fir_coef_num : Int) : Int :=
  fir_len * (interp_order + 1) * phase_num + (interp_order + 1) * fir_coef_num
    + (interp_order - coef_interp_num)

/-- A store result[k] = v into a C array (dropped when k is outside the array). -/
def array_set (a : List sample_t) (k : Int) (v : sample_t) : List sample_t :=
  if 0 ≤ k then a.set k.toNat v else a

/-- The variables that the loops of prepare_coefs carry. -/
structure prepare_state where
  result : List sample_t
  fm1 : ℚ
  f1 : ℚ
  f2 : ℚ

/-- The body of the inner loop of prepare_coefs, for the indices i and j. -/
def prepare_coefs_body (coefs : List raw_coef_t) (num_coefs num_phases interp_order
    multiplier : Int) (i j : Int) (st : prepare_state) : prepare_state :=
  let f0 := st.fm1
  let f1 := st.f1
  let f2 := st.f2
  let pos := i * num_phases + j - 1
  let fm1 : ℚ := (if pos > 0 then coefs.getD (pos - 1).toNat 0 else 0) * multiplier
  let c : ℚ :=
    if interp_order = 2 then (1 / 2) * (f2 + f0) - f1
    else if interp_order = 3 then (1 / 2) * (f1 + fm1) - f0
    else 0
  let d : ℚ :=
    if interp_order = 3 then (1 / 6) * (f2 - f1 + fm1 - f0 - 4 * c) else 0
  let b : ℚ :=
    if interp_order = 1 then f1 - f0
    else if interp_order = 2 then f1 - ((1 / 2) * (f2 + f0) - f1) - f0
    else if interp_order = 3 then f1 - f0 - d - c
    else 0
  let coef_coef := fun x : Int => coef interp_order num_coefs j x (num_coefs - 1 - i)
  let r := array_set st.result (coef_coef 0) f0
  let r := if interp_order > 0 then array_set r (coef_coef 1) b else r
  let r := if interp_order > 1 then array_set r (coef_coef 2) c else r
  let r := if interp_order > 2 then array_set r (coef_coef 3) d else r
  { result := r, fm1 := fm1, f1 := f0, f2 := f1 }

/-- The function prepare_coefs: i runs from num_coefs - 1 down to 0 and, inside, j from
num_phases - 1 down to 0.  The malloc-ed table starts as zeros. -/
def prepare_coefs (coefs : List raw_coef_t) (num_coefs num_phases interp_order
    multiplier : Int) : List sample_t :=
  let length := num_coefs * num_phases
  let st0 : prepare_state :=
    { result := List.replicate (length * (interp_order + 1)).toNat 0,
      fm1 := coefs.getD 0 0, f1 := 0, f2 := 0 }
  ((List.range num_coefs.toNat).reverse.foldl (fun st i =>
    (List.range num_phases.toNat).reverse.foldl (fun st j =>
      prepare_coefs_body coefs num_coefs num_phases interp_order multiplier i j st) st)
    st0).result

/-- The loop of half_band_filter_init that places the taps in the zeroed coefficient
buffer; tap gives the value of tap i before scaling. -/
def place_taps (tap : Int → sample_t) (num_taps dft_length multiplier : Int) :
    List sample_t :=
  (List.range num_taps.toNat).foldl (fun coefs (i : Nat) =>
    array_set coefs (Int.land (i + dft_length - num_taps + 1) (dft_length - 1))
      (tap i / dft_length * 2 * multiplier))
    (List.replicate dft_length.toNat 0)

/-- The function half_band_filter_init; h is none for a NULL prototype. -/
def half_band_filter_init (env : Env) (p : rate_shared_t) (which : Fin 2) (num_taps : Int)
    (h : Option (List sample_t)) (Fp att : ℚ) (multiplier : Int) (phase : ℚ)
    (allow_aliasing : Bool) : rate_shared_t :=
  let f := p.half_band which
  if f.num_taps ≠ 0 then p
  else
    match h with
    | some h =>
      let dft_length := env.lsx_set_dft_length num_taps
      let coefs := place_taps (fun i => h.getD (Int.natAbs (Int.tdiv num_taps 2 - i)) 0)
        num_taps dft_length multiplier
      let f : dft_filter_t :=
        { dft_length := dft_length, num_taps := num_taps, post_peak := Int.tdiv num_taps 2,
          coefs := env.lsx_safe_rdft dft_length 1 coefs }
      { p with half_band := Function.update p.half_band which f }
    | none =>
      let designed := env.lsx_design_lpf Fp 1 2 allow_aliasing att num_taps 0
      let phased : List sample_t × Int × Int :=
        if phase ≠ 50 then env.lsx_fir_to_phase designed.1 designed.2 f.post_peak phase
        else (designed.1, designed.2, Int.tdiv designed.2 2)
      let h2 := phased.1
      let num_taps := phased.2.1
      let dft_length := env.lsx_set_dft_length num_taps
      let coefs := place_taps (fun i => h2.getD i.toNat 0) num_taps dft_length multiplier
      let f : dft_filter_t :=
        { dft_length := dft_length, num_taps := num_taps, post_peak := phased.2.2,
          coefs := env.lsx_safe_rdft dft_length 1 coefs }
      { p with half_band := Function.update p.half_band which f }

/-- The assertion assert(num_taps & 1) of half_band_filter_init, on the slot it filled. -/
def half_band_assert (p : rate_shared_t) (which : Fin 2) : Prop :=
  Int.land (p.half_band which).num_taps 1 ≠ 0

/-! ## Ratio planner and pipeline construction -/

/-- The enum constant Default of quality_t. -/
def Default : Int := -1
/-- The enum constant Quick of quality_t. -/
def Quick : Int := 0
/-- The enum constant Low of quality_t. -/
def Low : Int := 1
/-- The enum constant Medium of quality_t. -/
def Medium : Int := 2
/-- The enum constant High of quality_t. -/
def High : Int := 3
/-- The enum constant Very of quality_t. -/
def Very : Int := 4

/-- A sox_bool used as an int. -/
def b2i (b : Bool) : Int := if b then 1 else 0

/-- The macro range_limit. -/
def range_limit (x lower upper : Int) : Int := min (max x lower) upper

/-- The constant max_divisor of rate_init. -/
def max_divisor : Int := 2048

/-- The constant epsilon of rate_init. -/
def epsilon : ℚ := 4 / MULT32

/-- The loop for (i = factor, p->level = 0; i >>= 1; ++p->level) of rate_init, from the
state (i, level). -/
def level_loop : Nat → Int → Int → Int
  | 0, _, level => level
  | fuel + 1, i, level =>
    if i >>> (1 : Nat) ≠ 0 then level_loop fuel (i >>> (1 : Nat)) (level + 1) else level

/-- The variables that the rational search of rate_init changes. -/
structure search_state where
  factor : ℚ
  divisor : Int
  upsample : Bool
deriving DecidableEq

/-- The test of the rational search for the candidate i. -/
def search_accepts (factor : ℚ) (i : Int) : Prop :=
  |((trunc (factor * i + 1 / 2) : Int) : ℚ) - factor * i|
    < (trunc (factor * i + 1 / 2) : Int) * epsilon * (1 - ((1 / 2) / max_divisor) * i)

instance (factor : ℚ) (i : Int) : Decidable (search_accepts factor i) := by
  unfold search_accepts; infer_instance

/-- The body of the rational search for the candidate i. -/
def search_body (i : Int) (st : search_state) : search_state :=
  let try_d : ℚ := st.factor * i
  let try_ : Int := trunc (try_d + 1 / 2)
  if search_accepts st.factor i then
    if try_ = i then { factor := 1, divisor := 2, upsample := false }
    else { factor := try_, divisor := i, upsample := st.upsample }
  else st

/-- The loop for (i = 2; i <= max_divisor && divisor == 1; ++i) of rate_init. -/
def search_loop : Nat → Int → search_state → search_state
  | 0, _, st => st
  | fuel + 1, i, st =>
    if i ≤ max_divisor ∧ st.divisor = 1 then search_loop fuel (i + 1) (search_body i st)
    else st

/-- What the block if (quality != Quick) of rate_init computes. -/
structure plan_t where
  upsample : Bool
  level : Int
  factor : ℚ
  divisor : Int
deriving DecidableEq

/-- The value p->upsample = p->factor < 1 that rate_init sets before its shift loop. -/
def plan_upsample (factor : ℚ) : Bool := decide (factor < 1)

/-- The level that the shift loop of rate_init leaves in p->level, for p->factor. -/
def plan_level (factor : ℚ) : Int :=
  level_loop ((trunc factor).toNat + 1) (trunc factor) 0

/-- The value of factor after factor /= 1 << (p->level + !p->upsample) in rate_init: the
residual factor that enters the rational search. -/
def plan_residual (factor : ℚ) : ℚ :=
  factor / (((1 : Nat) <<< (plan_level factor + b2i (!plan_upsample factor)).toNat : Nat) : ℚ)

/-- The block if (quality != Quick) of rate_init: direction, level, residual factor and
rational search.  The argument is p->factor (equal to the argument factor there). -/
def rate_init_plan (factor : ℚ) : plan_t :=
  let st := search_loop 2047 2
    { factor := plan_residual factor, divisor := 1, upsample := plan_upsample factor }
  { upsample := st.upsample, level := plan_level factor, factor := st.factor,
    divisor := st.divisor }

/-- Replaces stage i of the pipeline by g applied to it. -/
def set_stage (p : rate_t) (i : Int) (g : stage_t → stage_t) : rate_t :=
  { p with stages := Function.update p.stages i (g (p.stages i)) }

/-- An entry of the local table filters of rate_init. -/
structure filter_t where
  len : Int
  h : Option (List sample_t)
  bw : ℚ
  a : ℚ

/-- The local table filters of rate_init. -/
def filters (env : Env) (k : Int) : filter_t :=
  if k = 0 then
    { len := 2 * env.half_fir_coefs_low.length - 1, h := some env.half_fir_coefs_low,
      bw := 0, a := 0 }
  else if k = 1 then { len := 0, h := none, bw := 931 / 1000, a := 110 }
  else if k = 2 then { len := 0, h := none, bw := 931 / 1000, a := 125 }
  else { len := 0, h := none, bw := 931 / 1000, a := 170 }

/-- The locals and objects that rate_init threads through its blocks. -/
structure init_state where
  p : rate_t
  shared : rate_shared_t
  factor : ℚ
  divisor : Int
  mult : Int

/-- Lines 258-274 of rate_init: the zeroed stage array, the step of the last stage, its
out_in_ratio, mult and the first values of the stage indices.  The quotient out_in_ratio
is kept exact here and rounded to a double where cubic_spline reads it for a count; the
operands MULT32 * divisor and step.all (a value converted from a double) are exact as
doubles. -/
def rate_init_step (p : rate_t) (shared : rate_shared_t) (factor : ℚ) (divisor : Int) :
    init_state :=
  let p := { p with stages := fun _ => stage_zero }
  let p := set_stage p p.level (fun s => { s with step_all := trunc (factor * MULT32 + 1 / 2) })
  let p := set_stage p p.level (fun s =>
    { s with out_in_ratio := MULT32 * divisor / (s.step_all : ℚ) })
  { p := { p with input_stage_num := -b2i p.upsample, output_stage_num := p.level },
    shared := shared, factor := factor, divisor := divisor, mult := 1 + b2i p.upsample }

/-- The two assertions on the step of the last stage in rate_init. -/
def step_assert (quality : Int) (divisor : Int) (step_all : Int) : Prop :=
  if divisor ≠ 1 then fraction step_all = 0
  else if quality ≠ Quick then integer step_all = 0
  else True

/-- The branch if (quality == Quick) of rate_init. -/
def rate_init_quick (st : init_state) : init_state :=
  let p := st.p
  let p := { p with output_stage_num := p.output_stage_num + 1 }
  let p := set_stage p p.level (fun s => { s with fn := stage_fn_t.cubic_spline })
  let p := set_stage p p.level (fun s => { s with pre_post := max 3 (integer s.step_all) })
  let p := set_stage p p.level (fun s => { s with pre := 1, preload := 1 })
  { st with p := p }

/-- The branch else if (last_stage.out_in_ratio != 2 || (p->upsample && quality == Low))
of rate_init: the polyphase FIR stage. -/
def rate_init_poly (env : Env) (st : init_state) (quality interp_order : Int) : init_state :=
  let p := st.p
  let divisor := st.divisor
  let n := 4 * b2i p.upsample + range_limit quality Medium Very - Medium
  let interp_order := if interp_order < 0 then b2i (decide (quality > High)) else interp_order
  let interp_order := if divisor = 1 then 1 + interp_order else 0
  let p := set_stage p p.level (fun s => { s with divisor := divisor })
  let p := { p with output_stage_num := p.output_stage_num + 2 }
  let low_up : Bool := p.upsample && decide (quality = Low)
  let mult := if low_up then 1 else st.mult
  let p := if low_up then
      { p with input_stage_num := p.input_stage_num + 1,
               output_stage_num := p.output_stage_num - 1 }
    else p
  let n := if low_up then n - 1 else n
  let f := env.poly_firs n
  let f1 := f.interp interp_order
  let shared :=
    match st.shared.poly_fir_coefs with
    | some _ => st.shared
    | none =>
      let phases : Int := if divisor = 1 then ((1 : Nat) <<< f1.phase_bits.toNat : Nat) else divisor
      let coefs := (env.lsx_design_lpf f.pass f.stop 1 false f.att 0 phases).1
      { st.shared with
        poly_fir_coefs := some (prepare_coefs coefs f.num_coefs phases interp_order mult) }
  let p := set_stage p p.level (fun s => { s with fn := f1.fn })
  let p := set_stage p p.level (fun s => { s with pre_post := f.num_coefs - 1 })
  let p := set_stage p p.level (fun s => { s with pre := 0 })
  let p := set_stage p p.level (fun s => { s with preload := s.pre_post >>> (1 : Nat) })
  { st with p := p, shared := shared, mult := 1 }

/-- The block if (quality > Low) of rate_init: the DFT half-band filters and the
pre- and post-stage. -/
def rate_init_dft (env : Env) (st : init_state) (quality : Int) (phase bandwidth : ℚ)
    (allow_aliasing : Bool) : init_state :=
  let p := st.p
  let f := filters env (quality - Low)
  let att : ℚ := if allow_aliasing then (34 / 33) * f.a else f.a
  let bw : ℚ := if bandwidth ≠ 0 then 1 - (1 - bandwidth / 100) / env.LSX_TO_3dB else f.bw
  let min_ : ℚ := 1 - (if allow_aliasing then env.LSX_MAX_TBW0A else env.LSX_MAX_TBW0) / 100
  let shared := half_band_filter_init env st.shared (if p.upsample then 1 else 0) f.len f.h
    bw att st.mult phase allow_aliasing
  let ps : rate_t × rate_shared_t :=
    if p.upsample then
      let p := set_stage p (-1) (fun s => { s with fn := stage_fn_t.double_sample })
      let p := set_stage p (-1) (fun s =>
        { s with preload := (shared.half_band 1).post_peak >>> (1 : Nat) })
      if (1 - p.factor) / (1 - bw) > 2 then
        (p, half_band_filter_init env shared 0 0 none (max p.factor min_) att 1 phase
          allow_aliasing)
      else
        (p, { shared with half_band := Function.update shared.half_band 0 (shared.half_band 1) })
    else if p.level > 0 ∧ p.output_stage_num > p.level then
      let pass : ℚ := bw * st.divisor / st.factor / 2
      if (1 - pass) / (1 - bw) > 2 then
        (p, half_band_filter_init env shared 1 0 none (max pass min_) att 1 phase
          allow_aliasing)
      else (p, shared)
    else (p, shared)
  let p := ps.1
  let shared := ps.2
  let p := set_stage p (p.level + 1) (fun s => { s with fn := stage_fn_t.half_sample })
  let p := set_stage p (p.level + 1) (fun s =>
    { s with preload := (shared.half_band 0).post_peak })
  { st with p := p, shared := shared }

/-- The branch else if (quality == Low && !p->upsample) of rate_init. -/
def rate_init_low (env : Env) (st : init_state) : init_state :=
  let p := st.p
  let p := set_stage p (p.level + 1) (fun s => { s with fn := stage_fn_t.half_sample_low })
  let p := set_stage p (p.level + 1) (fun s =>
    { s with pre_post := 2 * ((env.half_fir_coefs_low.length : Int) - 1) })
  let p := set_stage p (p.level + 1) (fun s =>
    { s with pre := s.pre_post >>> (1 : Nat), preload := s.pre_post >>> (1 : Nat) })
  { st with p := p }

/-- The block if (p->level > 0) of rate_init: the stage at level - 1. -/
def rate_init_level (st : init_state) : init_state :=
  let p := st.p
  if p.level > 0 then
    if (st.shared.half_band 1).num_taps ≠ 0 then
      let p := set_stage p (p.level - 1) (fun s => { s with fn := stage_fn_t.half_sample })
      let p := set_stage p (p.level - 1) (fun s =>
        { s with preload := (st.shared.half_band 1).post_peak })
      let p := set_stage p (p.level - 1) (fun s => { s with which := 1 })
      { st with p := p }
    else { st with p := set_stage p (p.level - 1) (fun _ => p.stages (p.level + 1)) }
  else st

/-- The final loop of rate_init over the stages input_stage_num .. output_stage_num,
from the index i. -/
def rate_init_fifos (env : Env) : Nat → Int → rate_t → rate_t
  | 0, _, p => p
  | fuel + 1, i, p =>
    if i ≤ p.output_stage_num then
      let p := if i ≥ 0 ∧ i < p.level - 1 then
          let p := set_stage p i (fun s => { s with fn := stage_fn_t.half_sample_25 })
          let p := set_stage p i (fun s =>
            { s with pre_post := 2 * ((env.half_fir_coefs_25.length : Int) - 1) })
          set_stage p i (fun s => { s with pre := s.pre_post >>> (1 : Nat), preload := s.pre_post >>> (1 : Nat) })
        else p
      let p := set_stage p i (fun s => { s with fifo := fifo_create })
      let p := set_stage p i (fun s => { s with fifo := fifo_reserve s.fifo s.preload })
      rate_init_fifos env fuel (i + 1) p
    else p

/-- The clamp if (quality < Quick || quality > Very) quality = High of rate_init. -/
def clamp_quality (quality : Int) : Int :=
  if quality < Quick ∨ quality > Very then High else quality

/-- Lines 239-257 of rate_init: what the planner decides for the clamped quality; with
Quick the fields upsample and level of p are left as they are and divisor stays 1. -/
def rate_init_planned (p : rate_t) (factor : ℚ) (quality : Int) : plan_t :=
  if quality ≠ Quick then rate_init_plan factor
  else { upsample := p.upsample, level := p.level, factor := factor, divisor := 1 }

/-- Lines 275-308 of rate_init: the choice of the kernel of the last stage. -/
def rate_init_last (env : Env) (st : init_state) (quality interp_order : Int) : init_state :=
  if quality = Quick then rate_init_quick st
  else if (st.p.stages st.p.level).out_in_ratio ≠ 2 ∨ (st.p.upsample = true ∧ quality = Low) then
    rate_init_poly env st quality interp_order
  else st

/-- Lines 309-340 of rate_init: the half-band stages around the last stage. -/
def rate_init_half (env : Env) (st : init_state) (quality : Int) (phase bandwidth : ℚ)
    (allow_aliasing : Bool) : init_state :=
  if quality > Low then rate_init_dft env st quality phase bandwidth allow_aliasing
  else if quality = Low ∧ st.p.upsample = false then rate_init_low env st
  else st

/-- Lines 239-274 of rate_init: the state when it reaches the choice of the kernel of
the last stage (quality is the argument, not yet clamped). -/
def rate_init_entry (p : rate_t) (shared : rate_shared_t) (factor : ℚ) (quality : Int) :
    init_state :=
  rate_init_step
    { p with factor := factor,
             upsample := (rate_init_planned p factor (clamp_quality quality)).upsample,
             level := (rate_init_planned p factor (clamp_quality quality)).level }
    shared (rate_init_planned p factor (clamp_quality quality)).factor
    (rate_init_planned p factor (clamp_quality quality)).divisor

/-- The state of rate_init before its final loop. -/
def rate_init_stages (env : Env) (p : rate_t) (shared : rate_shared_t) (factor : ℚ)
    (quality : Int) (interp_order : Int) (phase bandwidth : ℚ) (allow_aliasing : Bool) :
    init_state :=
  rate_init_level
    (rate_init_half env
      (rate_init_last env (rate_init_entry p shared factor quality)
        (clamp_quality quality) interp_order)
      (clamp_quality quality) phase bandwidth allow_aliasing)

/-- The function rate_init.  It gives the pipeline and the shared block. -/
def rate_init (env : Env) (p : rate_t) (shared : rate_shared_t) (factor : ℚ) (quality : Int)
    (interp_order : Int) (phase bandwidth : ℚ) (allow_aliasing : Bool) :
    rate_t × rate_shared_t :=
  let st := rate_init_stages env p shared factor quality interp_order phase bandwidth
    allow_aliasing
  (rate_init_fifos env (st.p.output_stage_num - st.p.input_stage_num + 1).toNat
     st.p.input_stage_num st.p,
   st.shared)

/-! ## Streaming evaluator -/

/-- The call stage->fn(stage, output) through the function pointer fn. -/
def run_stage (env : Env) (shared : rate_shared_t) (fn : stage_fn_t) (stage : stage_t)
    (output_fifo : fifo_t) : Option (stage_t × fifo_t) :=
  match fn with
  | stage_fn_t.null => none
  | stage_fn_t.cubic_spline => cubic_spline stage output_fifo
  | stage_fn_t.half_sample => half_sample env shared stage output_fifo
  | stage_fn_t.double_sample => double_sample env shared stage output_fifo
  | fn => env.extern_kernel fn shared stage output_fifo

/-- The loop of rate_process from the stage index i. -/
def rate_process_loop (env : Env) (shared : rate_shared_t) : Nat → Int → rate_t → Option rate_t
  | 0, _, p => some p
  | fuel + 1, i, p =>
    if i < p.output_stage_num then
      match run_stage env shared (p.stages i).fn (p.stages i) (p.stages (i + 1)).fifo with
      | none => none
      | some (stage, output) =>
        let next : stage_t := { p.stages (i + 1) with fifo := output }
        rate_process_loop env shared fuel (i + 1)
          { p with stages := Function.update (Function.update p.stages i stage) (i + 1) next }
    else some p

/-- The function rate_process; none when a kernel does not return. -/
def rate_process (env : Env) (shared : rate_shared_t) (p : rate_t) : Option rate_t :=
  rate_process_loop env shared (p.output_stage_num - p.input_stage_num).toNat
    p.input_stage_num p

/-- The function rate_input; n is the length of samples. -/
def rate_input (p : rate_t) (samples : List sample_t) : rate_t :=
  let p := { p with samples_in := (p.samples_in + samples.length) % SIZE_MOD }
  set_stage p p.input_stage_num (fun s =>
    { s with fifo := fifo_write s.fifo samples.length samples })

/-- The function rate_output: the pipeline, the samples read and the updated *n. -/
def rate_output (p : rate_t) (n : Nat) : rate_t × List sample_t × Nat :=
  let fifo := (p.stages p.output_stage_num).fifo
  let n := min n (fifo_occupancy fifo).toNat
  let p := { p with samples_out := (p.samples_out + n) % SIZE_MOD }
  (set_stage p p.output_stage_num (fun s => { s with fifo := fifo_read s.fifo n }),
   fifo.take n, n)

/-- The value of the local samples_out of rate_flush, p->samples_in / p->factor + .5: the
size_t samples_in is converted to double, the quotient and the sum are operations on
doubles, and the sum is converted to size_t. -/
def flush_target (p : rate_t) : Nat :=
  (trunc (round_double (round_double (round_double p.samples_in / p.factor) + 1 / 2))).toNat
    % SIZE_MOD

/-- The value of the local remaining of rate_flush. -/
def flush_remaining (p : rate_t) : Nat :=
  (((flush_target p : Int) - p.samples_out) % (SIZE_MOD : Int)).toNat

/-- The while loop of rate_flush. -/
def rate_flush_loop (env : Env) (shared : rate_shared_t) (remaining : Nat) :
    Nat → rate_t → Option rate_t
  | 0, p =>
    if (fifo_occupancy (p.stages p.output_stage_num).fifo).toNat < remaining then none
    else some p
  | fuel + 1, p =>
    if (fifo_occupancy (p.stages p.output_stage_num).fifo).toNat < remaining then
      match rate_process env shared (rate_input p (List.replicate 1024 0)) with
      | none => none
      | some p => rate_flush_loop env shared remaining fuel p
    else some p

/-- The function rate_flush, with fuel for its while loop. -/
def rate_flush (env : Env) (shared : rate_shared_t) (fuel : Nat) (p : rate_t) :
    Option rate_t :=
  let remaining := flush_remaining p
  if to_int remaining > 0 then
    match rate_flush_loop env shared remaining fuel p with
    | none => none
    | some p =>
      let p := set_stage p p.output_stage_num (fun s =>
        { s with fifo := fifo_trim_to s.fifo (to_int remaining) })
      some { p with samples_in := 0 }
  else some p

/-! ## Predicates used in the statements -/

/-- The level, stage indices and direction of q are those of p. -/
def same_plan (p q : rate_t) : Prop :=
  q.level = p.level ∧ q.input_stage_num = p.input_stage_num
    ∧ q.output_stage_num = p.output_stage_num ∧ q.upsample = p.upsample

/-! ## A concrete environment -/

/-- A small environment for concrete runs: three-tap designs, a DFT size that is the next
power of two, an identity transform and no external kernels. -/
def env_small : Env :=
  { poly_firs := fun _ =>
      { num_coefs := 2, pass := 0, stop := 0, att := 0,
        interp := fun k => { phase_bits := 1, fn := stage_fn_t.poly_fir k.toNat } },
    half_fir_coefs_low := [1 / 2, 1 / 4],
    half_fir_coefs_25 := [1 / 2, 1 / 4],
    LSX_TO_3dB := 1,
    LSX_MAX_TBW0 := 36,
    LSX_MAX_TBW0A := 33,
    lsx_design_lpf := fun _ _ _ _ _ _ _ => ([1 / 4, 1 / 2, 1 / 4], 3),
    lsx_fir_to_phase := fun h n post _ => (h, n, post),
    lsx_set_dft_length := fun n => ((1 : Nat) <<< (Nat.log2 (2 * n.toNat - 1)) : Nat),
    lsx_safe_rdft := fun _ _ buf => buf,
    extern_kernel := fun _ _ _ _ => none }

/-! ## Definitions used in the statements and proofs -/

/-- What the rational search leaves for the residual r: either no candidate was taken and
candidate 2 was refused, or the factor is a positive integer and the divisor is not 1. -/
def search_good (r : ℚ) (st : search_state) : Prop :=
  (st.divisor = 1 ∧ st.factor = r ∧ ¬ search_accepts r 2)
    ∨ (st.divisor ≠ 1 ∧ ∃ n : Int, 1 ≤ n ∧ st.factor = n)

/-- The target of rate_flush in the words of the spec: round(samples_in / factor), that
is floor(samples_in / factor + 1/2). -/
def flush_round (p : rate_t) : Int := ⌊(p.samples_in : ℚ) / p.factor + 1 / 2⌋

/-- The conditions on a cubic_spline stage under which its loop is analysed: the Quick
bracket pre = 1 and pre_post >= max(3, step.integer), a positive step, the out_in_ratio
that rate_init stores for divisor 1, and a phase that is not negative. -/
def quick_stage (p : stage_t) : Prop :=
  p.pre = 1 ∧ 3 ≤ p.pre_post ∧ integer p.step_all ≤ p.pre_post ∧ 0 < p.step_all
    ∧ p.out_in_ratio = MULT32 * ((1 : Int) : ℚ) / (p.step_all : ℚ) ∧ 0 ≤ p.at_all

/-- The loop of cubic_spline, started at the phase a with the bound N, makes exactly n
passes: its guard holds at the first n phases a + k * step and fails at a + n * step. -/
def spline_passes (step N a : Int) (n : Nat) : Prop :=
  (∀ k : Nat, k < n → integer (a + k * step) < N) ∧ ¬ integer (a + n * step) < N

/-- The sample that cubic_spline computes with pre = 1 at the phase a when the FIFO of
its stage holds the items G. -/
def spline_at (G : fifo_t) (a : Int) : sample_t :=
  cubic_spline_sample { stage_zero with fifo := G, pre := 1 } a

/-- Closed form of a Quick pipeline (one cubic_spline stage 0 feeding the output stage 1,
step st, bracket pre_post = pp) that has been fed the samples xs in total, in any number
of rate_input / rate_process rounds, with nothing read yet: the spline has made n passes
over the preloaded zero followed by xs. -/
structure quick_inv (st pp : Int) (q : rate_t) (xs : List sample_t) (n : Nat) : Prop where
  input : q.input_stage_num = 0
  output : q.output_stage_num = 1
  fn : (q.stages 0).fn = stage_fn_t.cubic_spline
  pre : (q.stages 0).pre = 1
  pre_post : (q.stages 0).pre_post = pp
  step : (q.stages 0).step_all = st
  ratio : (q.stages 0).out_in_ratio = MULT32 * ((1 : Int) : ℚ) / (st : ℚ)
  passes : spline_passes st (max 0 ((xs.length : Int) + 1 - pp)) 0 n
  fifo : (q.stages 0).fifo = (0 :: xs).drop (integer (n * st)).toNat
  at_all : (q.stages 0).at_all = fraction (n * st)
  out : (q.stages 1).fifo = (List.range n).map (fun k : Nat => spline_at (0 :: xs) (k * st))

/-- The rounds rate_input + rate_process, one per chunk, from the pipeline p; none when a
kernel does not return. -/
def rate_stream (env : Env) (shared : rate_shared_t) : rate_t → List (List sample_t) →
    Option rate_t
  | p, [] => some p
  | p, c :: cs =>
    match rate_process env shared (rate_input p c) with
    | none => none
    | some q => rate_stream env shared q cs

/-- The pipeline of the identity plan (factor 1, quality High) after the input of four
samples. -/
def identity_fed : rate_t :=
  rate_input (rate_init env_small rate_zero shared_zero 1 High (-1) 50 0 false).1 [1, 2, 3, 4]

/-- The pipeline identity_fed after the output of its four samples. -/
def identity_drained : rate_t := (rate_output identity_fed 4).1

/-- A shared block whose slot 0 already holds a three-tap filter. -/
def shared_set : rate_shared_t :=
  { poly_fir_coefs := none,
    half_band := fun k => if k = 0 then ⟨4, 3, 1, [1, 2, 1, 0]⟩ else ⟨0, 0, 0, []⟩ }

/-- A Quick pipeline for factor 2^-31 after the input of one sample. -/
def quick_tiny_fed : rate_t :=
  rate_input (rate_init env_small rate_zero shared_zero (1 / 2147483648) Quick (-1) 50 0 false).1
    [1]

/-- A Quick pipeline for factor 2 after the input of the ramp 0..15 and one rate_process
(rate_zero stands for a run that does not return, which does not happen here). -/
def quick_ramp_processed : rate_t :=
  (rate_process env_small shared_zero
    (rate_input (rate_init env_small rate_zero shared_zero 2 Quick (-1) 50 0 false).1
      [0, 1, 2, 3, 4, 5, 6, 7, 8, 9, 10, 11, 12, 13, 14, 15])).getD rate_zero

/-- A Quick pipeline for the double factor 3602879701896397 / 2^49 (6.4 rounded to a
double) after the input of 16 samples and one rate_process (rate_zero stands for a run
that does not return, which does not happen here). -/
def quick_round_processed : rate_t :=
  (rate_process env_small shared_zero
    (rate_input (rate_init env_small rate_zero shared_zero
        (3602879701896397 / 562949953421312) Quick (-1) 50 0 false).1
      [1, 1, 1, 1, 1, 1, 1, 1, 1, 1, 1, 1, 1, 1, 1, 1])).getD rate_zero

/-- The cubic of cubic_spline as a function of its four taps and of x: the lines
b = .5*(s[1]+s[-1])-*s, a = (1/6.)*(s[2]-s[1]+s[-1]-*s-4*b), c = s[1]-*s-a-b and
output[i] = ((a*x + b)*x + c)*x + *s. -/
def cubic_spline_poly (sm1 s0 s1 s2 x : sample_t) : sample_t :=
  let b := (1 / 2) * (s1 + sm1) - s0
  let a := (1 / 6) * (s2 - s1 + sm1 - s0 - 4 * b)
  let c := s1 - s0 - a - b
  ((a * x + b) * x + c) * x + s0

/-- The assertion assert(max_num_out - i >= 0) of cubic_spline, on the value of i that
its loop leaves; it counts as failed when the loop does not return. -/
def cubic_spline_assert (p : stage_t) (output_fifo : fifo_t) : Prop :=
  match cubic_spline_loop p (stage_occupancy p) output_fifo.length
      (stage_occupancy p * 4294967296 - p.at_all).toNat 0 p.at_all
      (fifo_reserve output_fifo (cubic_spline_max_num_out p)) with
  | none => False
  | some (i, _, _) => cubic_spline_max_num_out p - i ≥ 0

/-- The offsets from fifo_read_ptr of the four taps s[-1], s[0], s[1], s[2] that the body
of cubic_spline reads at the phase at_all. -/
def cubic_spline_taps (p : stage_t) (at_all : Int) : List Int :=
  [p.pre + (integer at_all + (-1)), p.pre + (integer at_all + 0),
   p.pre + (integer at_all + 1), p.pre + (integer at_all + 2)]

/-- The number of slots of the stage array that rate_init allocates:
lsx_calloc((size_t)p->level + 4, ...) + 1, so that the slots are the indices
-1 .. level + 2. -/
def stages_slots (p : rate_t) : Int := p.level + 4

/-- A cubic_spline stage whose FIFO holds the ramp 0..7, with the phase 1 + 1/2. -/
def spline_stage_ramp : stage_t :=
  { stage_zero with
    fifo := [0, 1, 2, 3, 4, 5, 6, 7], pre := 1, pre_post := 3, preload := 1,
    fn := stage_fn_t.cubic_spline, at_all := 6442450944, step_all := 4294967296,
    out_in_ratio := 1 }

/-- A cubic_spline stage with four buffered samples after the preloaded zero, step 3/4
and a phase of one half. -/
def spline_stage_small : stage_t :=
  { stage_zero with
    fifo := [0, 1, 5, 2, 7, 1, 8, 3], pre := 1, pre_post := 3, preload := 1,
    fn := stage_fn_t.cubic_spline, at_all := 2147483648, step_all := 3221225472,
    out_in_ratio := MULT32 * ((1 : Int) : ℚ) / ((3221225472 : Int) : ℚ) }

/-- The number of passes of the while loop of half_sample for the occupancy occ: the
largest number of whole blocks when every block needs dft_length buffered samples and
takes dft_length - overlap of them. -/
def half_sample_blocks (f : dft_filter_t) (occ : Int) : Nat :=
  if occ < f.dft_length then 0
  else ((occ - f.dft_length) / (f.dft_length - (f.num_taps - 1)) + 1).toNat

/-- A shared block whose two half-band slots hold a three-tap filter with DFT size 4. -/
def shared_taps3 : rate_shared_t :=
  { poly_fir_coefs := none, half_band := fun _ => ⟨4, 3, 1, [1, 2, 1, 0]⟩ }

/-- A stage with ten buffered samples that uses half-band slot 0. -/
def stage_ten : stage_t :=
  { stage_zero with fifo := [1, 2, 3, 4, 5, 6, 7, 8, 9, 10], fn := stage_fn_t.half_sample }

/-- The number of passes of the while loop of double_sample for the occupancy occ: every
block needs more than dft_length / 2 buffered samples and takes
(dft_length - overlap) / 2 of them. -/
def double_sample_blocks (f : dft_filter_t) (occ : Int) : Nat :=
  if occ ≤ f.dft_length / 2 then 0
  else ((occ - f.dft_length / 2 - 1) / ((f.dft_length - (f.num_taps - 1)) / 2) + 1).toNat

/-- A stage with seven buffered samples in front of double_sample. -/
def stage_seven : stage_t :=
  { stage_zero with fifo := [1, 2, 3, 4, 5, 6, 7], fn := stage_fn_t.double_sample }

/-- The prototype h = [1/2, 1/4] of a three-tap half-band filter, centre tap first:
tap i of the filter is h[|1 - i|]. -/
def proto_three : List sample_t := [1 / 2, 1 / 4]

/-- The position of tap i in the words of the description:
(i + dft_length - num_taps + 1) mod dft_length. -/
def tap_position (num_taps dft_length i : Int) : Int :=
  (i + dft_length - num_taps + 1) % dft_length

/-- The value the description gives to tap i of an explicit prototype h:
h[|num_taps/2 - i|] * 2 * multiplier / dft_length. -/
def mirrored_tap (h : List sample_t) (num_taps dft_length multiplier i : Int) : sample_t :=
  h.getD (Int.natAbs (num_taps / 2 - i)) 0 * 2 * multiplier / dft_length

/-- The value of the variable f0 of prepare_coefs in the iteration with
i * num_phases + j = t: the initial fm1 = coefs[0] in the first iteration (the last
position), afterwards the fm1 that the iteration before computed from pos = t, and 0
(the initial f1 and f2) beyond the last position. -/
def prepare_f0 (coefs : List raw_coef_t) (num_coefs num_phases multiplier : Int)
    (t : Int) : ℚ :=
  if num_coefs * num_phases ≤ t then 0
  else if t = num_coefs * num_phases - 1 then coefs.getD 0 0
  else (if t > 0 then coefs.getD (t - 1).toNat 0 else 0) * multiplier

/-- The coefficient coef_coef(x) that the body of prepare_coefs stores, as a function of
the stencil fm1, f0, f1, f2. -/
def prepare_entry (interp_order : Int) (fm1 f0 f1 f2 : ℚ) (x : Int) : ℚ :=
  let c : ℚ :=
    if interp_order = 2 then (1 / 2) * (f2 + f0) - f1
    else if interp_order = 3 then (1 / 2) * (f1 + fm1) - f0
    else 0
  let d : ℚ :=
    if interp_order = 3 then (1 / 6) * (f2 - f1 + fm1 - f0 - 4 * c) else 0
  let b : ℚ :=
    if interp_order = 1 then f1 - f0
    else if interp_order = 2 then f1 - ((1 / 2) * (f2 + f0) - f1) - f0
    else if interp_order = 3 then f1 - f0 - d - c
    else 0
  if x = 0 then f0 else if x = 1 then b else if x = 2 then c else d

/-- Modelled from the spec: the polynomial in the fractional phase x of the table entry
(phase j, fir_coef k), whose interp_order + 1 stored coefficients are those of
x^0 .. x^interp_order (the polyphase kernels that evaluate it are not in src/). -/
def table_poly (table : List sample_t) (interp_order num_coefs j k : Int) (x : ℚ) : ℚ :=
  ((List.range (interp_order + 1).toNat).map (fun m : Nat =>
    table.getD (coef interp_order num_coefs j m k).toNat 0 * x ^ m)).sum

/-- The loop invariant of prepare_coefs before the iteration at position t - 1: the
rolling variables hold the values of f0 around t, and every entry of a position >= t
holds the coefficient computed from its stencil. -/
def prepare_inv (coefs : List raw_coef_t) (num_coefs num_phases interp_order
    multiplier : Int) (t : Int) (st : prepare_state) : Prop :=
  (st.result.length : Int) = num_coefs * num_phases * (interp_order + 1)
  ∧ st.fm1 = prepare_f0 coefs num_coefs num_phases multiplier (t - 1)
  ∧ st.f1 = prepare_f0 coefs num_coefs num_phases multiplier t
  ∧ st.f2 = prepare_f0 coefs num_coefs num_phases multiplier (t + 1)
  ∧ ∀ i j x : Int, 0 ≤ i → i < num_coefs → 0 ≤ j → j < num_phases →
      t ≤ i * num_phases + j → 0 ≤ x → x ≤ interp_order →
      st.result.getD (coef interp_order num_coefs j x (num_coefs - 1 - i)).toNat 0
        = prepare_entry interp_order
            (prepare_f0 coefs num_coefs num_phases multiplier (i * num_phases + j - 1))
            (prepare_f0 coefs num_coefs num_phases multiplier (i * num_phases + j))
            (prepare_f0 coefs num_coefs num_phases multiplier (i * num_phases + j + 1))
            (prepare_f0 coefs num_coefs num_phases multiplier (i * num_phases + j + 2)) x

/-- A prototype of three taps, for a table of num_coefs = 2 taps and num_phases = 2. -/
def proto_121 : List raw_coef_t := [1, 2, 1]

/-- A half-band slot that a kernel can run with: it has been initialised (num_taps is
not 0) and its DFT size exceeds num_taps, so that dft_length - overlap is at least 2 and
both the advance dft_length - overlap of half_sample and the advance
(dft_length - overlap) >> 1 of double_sample are at least one sample. -/
def slot_ready (f : dft_filter_t) : Prop :=
  f.num_taps ≠ 0 ∧ f.num_taps < f.dft_length

/-- A stage that rate_process can invoke: its function pointer fn is assigned, and a
half_sample or double_sample kernel finds the half-band slot it selects (which for
half_sample, slot 1 for double_sample) ready. -/
def stage_runnable (shared : rate_shared_t) (s : stage_t) : Prop :=
  s.fn ≠ stage_fn_t.null
  ∧ (s.fn = stage_fn_t.half_sample → slot_ready (shared.half_band s.which))
  ∧ (s.fn = stage_fn_t.double_sample → slot_ready (shared.half_band 1))

/-- Modelled from the spec: what rate_init relies on from the parts outside src/: the
filter designer and the phase conversion return a filter with num_taps not 0 (the code
asserts it odd), the DFT size chosen for num_taps taps is larger than num_taps, and the
kernels of the table poly_firs are polyphase FIR kernels. -/
def env_sound (env : Env) : Prop :=
  (∀ (Fp Fc Fn : ℚ) (aa : Bool) (att : ℚ) (n k : Int),
      (env.lsx_design_lpf Fp Fc Fn aa att n k).2 ≠ 0)
  ∧ (∀ (h : List sample_t) (n pp : Int) (phase : ℚ), n ≠ 0 →
      (env.lsx_fir_to_phase h n pp phase).2.1 ≠ 0)
  ∧ (∀ n : Int, n < env.lsx_set_dft_length n)
  ∧ (∀ n k : Int, ∃ m : Nat, ((env.poly_firs n).interp k).fn = stage_fn_t.poly_fir m)

/-- Every initialised slot of the shared block has a DFT size above its overlap. -/
def slots_sound (shared : rate_shared_t) : Prop :=
  ∀ w : Fin 2, (shared.half_band w).num_taps ≠ 0 → slot_ready (shared.half_band w)

/-- A concrete environment like env_small whose DFT size, 2 * max(num_taps, 0) + 2, is
larger than num_taps for every num_taps. -/
def env_wide : Env :=
  { env_small with lsx_set_dft_length := fun n => 2 * max n 0 + 2 }

/-- The cubic_spline stage of a Quick pipeline for step = 4164008105 (the factor
4164008105 / 2^32) whose FIFO holds the preloaded zero and 7470748 input samples. -/
def spline_stage_long : stage_t :=
  { stage_zero with
    fifo := List.replicate 7470749 0, pre := 1, preload := 1, pre_post := 3,
    fn := stage_fn_t.cubic_spline, step_all := 4164008105,
    out_in_ratio := MULT32 * ((1 : Int) : ℚ) / ((4164008105 : Int) : ℚ) }

/-- The cubic_spline stage of a Quick pipeline for step = 2 (the factor 2^-31) whose FIFO
holds the preloaded zero and three input samples. -/
def spline_stage_tiny : stage_t :=
  { stage_zero with
    fifo := [0, 1, 1, 1], pre := 1, preload := 1, pre_post := 3,
    fn := stage_fn_t.cubic_spline, step_all := 2,
    out_in_ratio := MULT32 * ((1 : Int) : ℚ) / ((2 : Int) : ℚ) }

/-- The Quick pipeline that rate_init builds for the factor 4164008105 / 2^32. -/
def quick_long : rate_t :=
  (rate_init env_small rate_zero shared_zero (4164008105 / 4294967296) Quick (-1) 50 0
    false).1

/-- The pipeline quick_long after one rate_input of 7470748 samples. -/
def quick_long_fed : rate_t := rate_input quick_long (List.replicate 7470748 0)

/-- The pipeline quick_long after one rate_input of the first half, 3735374 samples. -/
def quick_long_half : rate_t := rate_input quick_long (List.replicate 3735374 0)

/-! ## Theorems -/

@[simp] theorem set_stage_level (p : rate_t) (i : Int) (g : stage_t → stage_t) :
    (set_stage p i g).level = p.level := rfl
@[simp] theorem set_stage_upsample (p : rate_t) (i : Int) (g : stage_t → stage_t) :
    (set_stage p i g).upsample = p.upsample := rfl
@[simp] theorem set_stage_input_stage_num (p : rate_t) (i : Int) (g : stage_t → stage_t) :
    (set_stage p i g).input_stage_num = p.input_stage_num := rfl
@[simp] theorem set_stage_output_stage_num (p : rate_t) (i : Int) (g : stage_t → stage_t) :
    (set_stage p i g).output_stage_num = p.output_stage_num := rfl
@[simp] theorem set_stage_factor (p : rate_t) (i : Int) (g : stage_t → stage_t) :
    (set_stage p i g).factor = p.factor := rfl
@[simp] theorem set_stage_samples_in (p : rate_t) (i : Int) (g : stage_t → stage_t) :
    (set_stage p i g).samples_in = p.samples_in := rfl
@[simp] theorem set_stage_samples_out (p : rate_t) (i : Int) (g : stage_t → stage_t) :
    (set_stage p i g).samples_out = p.samples_out := rfl

theorem same_plan_refl (p : rate_t) : same_plan p p := ⟨rfl, rfl, rfl, rfl⟩

theorem same_plan_trans {p q r : rate_t} (h1 : same_plan p q) (h2 : same_plan q r) :
    same_plan p r :=
  ⟨h2.1.trans h1.1, h2.2.1.trans h1.2.1, h2.2.2.1.trans h1.2.2.1, h2.2.2.2.trans h1.2.2.2⟩

theorem same_plan_set_stage (p : rate_t) (i : Int) (g : stage_t → stage_t) :
    same_plan p (set_stage p i g) := ⟨rfl, rfl, rfl, rfl⟩

theorem same_plan_of_eq {p q : rate_t} (h1 : q.level = p.level)
    (h2 : q.input_stage_num = p.input_stage_num) (h3 : q.output_stage_num = p.output_stage_num)
    (h4 : q.upsample = p.upsample) : same_plan p q := ⟨h1, h2, h3, h4⟩

theorem rate_init_fifos_same_plan (env : Env) : ∀ (fuel : Nat) (i : Int) (p : rate_t),
    same_plan p (rate_init_fifos env fuel i p) := by
  intro fuel
  induction fuel with
  | zero => intro i p; exact same_plan_refl p
  | succ fuel ih =>
    intro i p
    rw [rate_init_fifos]
    dsimp only
    split_ifs with h1 h2
    · refine same_plan_trans ?_ (ih (i + 1) _)
      apply same_plan_of_eq <;> simp only [set_stage_level, set_stage_input_stage_num,
        set_stage_output_stage_num, set_stage_upsample]
    · refine same_plan_trans ?_ (ih (i + 1) _)
      apply same_plan_of_eq <;> simp only [set_stage_level, set_stage_input_stage_num,
        set_stage_output_stage_num, set_stage_upsample]
    · exact same_plan_refl p

theorem level_loop_nonneg : ∀ (fuel : Nat) (i level : Int), 0 ≤ level →
    0 ≤ level_loop fuel i level := by
  intro fuel
  induction fuel with
  | zero => intro i level h; simpa [level_loop] using h
  | succ fuel ih =>
    intro i level h
    unfold level_loop
    split_ifs
    · exact ih _ _ (by omega)
    · exact h

theorem b2i_cases (b : Bool) : b2i b = 0 ∨ b2i b = 1 := by
  cases b <;> simp [b2i]

theorem rate_init_level_same_plan (st : init_state) : same_plan st.p (rate_init_level st).p := by
  rw [rate_init_level]
  dsimp only
  split_ifs
  · apply same_plan_of_eq <;> simp only [set_stage_level, set_stage_input_stage_num,
        set_stage_output_stage_num, set_stage_upsample]
  · apply same_plan_of_eq <;> simp only [set_stage_level, set_stage_input_stage_num,
        set_stage_output_stage_num, set_stage_upsample]
  · exact same_plan_refl _

theorem rate_init_low_same_plan (env : Env) (st : init_state) :
    same_plan st.p (rate_init_low env st).p := by
  rw [rate_init_low]
  apply same_plan_of_eq <;> simp only [set_stage_level, set_stage_input_stage_num,
        set_stage_output_stage_num, set_stage_upsample]

theorem rate_init_dft_same_plan (env : Env) (st : init_state) (quality : Int)
    (phase bandwidth : ℚ) (allow_aliasing : Bool) :
    same_plan st.p (rate_init_dft env st quality phase bandwidth allow_aliasing).p := by
  rw [rate_init_dft]
  dsimp only
  split_ifs <;>
  · apply same_plan_of_eq <;> simp only [set_stage_level, set_stage_input_stage_num,
        set_stage_output_stage_num, set_stage_upsample]

theorem rate_init_step_p (p : rate_t) (shared : rate_shared_t) (factor : ℚ) (divisor : Int) :
    (rate_init_step p shared factor divisor).p.level = p.level
    ∧ (rate_init_step p shared factor divisor).p.upsample = p.upsample
    ∧ (rate_init_step p shared factor divisor).p.input_stage_num = -b2i p.upsample
    ∧ (rate_init_step p shared factor divisor).p.output_stage_num = p.level := by
  simp [rate_init_step]

theorem rate_init_quick_p (st : init_state) :
    (rate_init_quick st).p.level = st.p.level
    ∧ (rate_init_quick st).p.upsample = st.p.upsample
    ∧ (rate_init_quick st).p.input_stage_num = st.p.input_stage_num
    ∧ (rate_init_quick st).p.output_stage_num = st.p.output_stage_num + 1 := by
  simp [rate_init_quick]

theorem rate_init_poly_p (env : Env) (st : init_state) (quality interp_order : Int) :
    (rate_init_poly env st quality interp_order).p.level = st.p.level
    ∧ (rate_init_poly env st quality interp_order).p.upsample = st.p.upsample
    ∧ (rate_init_poly env st quality interp_order).p.input_stage_num
        = st.p.input_stage_num + (if st.p.upsample = true ∧ quality = Low then 1 else 0)
    ∧ (rate_init_poly env st quality interp_order).p.output_stage_num
        = st.p.output_stage_num + (if st.p.upsample = true ∧ quality = Low then 1 else 2) := by
  rw [rate_init_poly]
  dsimp only
  by_cases h : st.p.upsample = true ∧ quality = Low
  · simp [h]; ring
  · have h2 : (st.p.upsample && decide (quality = Low)) = false := by
      simpa using h
    simp [h, h2]

theorem rate_init_last_p (env : Env) (st : init_state) (quality interp_order : Int) :
    (rate_init_last env st quality interp_order).p.level = st.p.level
    ∧ (rate_init_last env st quality interp_order).p.upsample = st.p.upsample
    ∧ st.p.input_stage_num ≤ (rate_init_last env st quality interp_order).p.input_stage_num
    ∧ (rate_init_last env st quality interp_order).p.input_stage_num
        ≤ st.p.input_stage_num + b2i st.p.upsample
    ∧ st.p.output_stage_num ≤ (rate_init_last env st quality interp_order).p.output_stage_num
    ∧ (rate_init_last env st quality interp_order).p.output_stage_num
        ≤ st.p.output_stage_num + 2 := by
  rw [rate_init_last]
  have hb := b2i_cases st.p.upsample
  split_ifs with h1 h2
  · obtain ⟨a, b, c, d⟩ := rate_init_quick_p st
    rw [a, b, c, d]
    refine ⟨rfl, rfl, le_refl _, ?_, ?_, ?_⟩ <;> omega
  · obtain ⟨a, b, c, d⟩ := rate_init_poly_p env st quality interp_order
    rw [a, b, c, d]
    refine ⟨rfl, rfl, ?_, ?_, ?_, ?_⟩
    · split_ifs <;> omega
    · split_ifs with h
      · simp [b2i, h.1]
      · omega
    · split_ifs <;> omega
    · split_ifs <;> omega
  · refine ⟨rfl, rfl, le_refl _, ?_, le_refl _, ?_⟩ <;> omega

theorem rate_init_half_same_plan (env : Env) (st : init_state) (quality : Int)
    (phase bandwidth : ℚ) (allow_aliasing : Bool) :
    same_plan st.p (rate_init_half env st quality phase bandwidth allow_aliasing).p := by
  rw [rate_init_half]
  split_ifs
  · exact rate_init_dft_same_plan env st quality phase bandwidth allow_aliasing
  · exact rate_init_low_same_plan env st
  · exact same_plan_refl _

theorem rate_init_same_plan (env : Env) (p : rate_t) (shared : rate_shared_t) (factor : ℚ)
    (quality interp_order : Int) (phase bandwidth : ℚ) (allow_aliasing : Bool) :
    same_plan
      (rate_init_last env (rate_init_entry p shared factor quality)
        (clamp_quality quality) interp_order).p
      (rate_init env p shared factor quality interp_order phase bandwidth allow_aliasing).1 := by
  rw [rate_init]
  dsimp only
  refine same_plan_trans ?_ (rate_init_fifos_same_plan env _ _ _)
  rw [rate_init_stages]
  exact same_plan_trans (rate_init_half_same_plan env _ _ _ _ _) (rate_init_level_same_plan _)

theorem rate_init_planned_level_nonneg (p : rate_t) (factor : ℚ) (quality : Int)
    (hp : 0 ≤ p.level) : 0 ≤ (rate_init_planned p factor quality).level := by
  rw [rate_init_planned]
  split_ifs
  · exact level_loop_nonneg _ _ _ (le_refl 0)
  · exact hp

theorem rate_init_entry_p (p : rate_t) (shared : rate_shared_t) (factor : ℚ) (quality : Int) :
    (rate_init_entry p shared factor quality).p.level
        = (rate_init_planned p factor (clamp_quality quality)).level
    ∧ (rate_init_entry p shared factor quality).p.upsample
        = (rate_init_planned p factor (clamp_quality quality)).upsample
    ∧ (rate_init_entry p shared factor quality).p.input_stage_num
        = -b2i (rate_init_planned p factor (clamp_quality quality)).upsample
    ∧ (rate_init_entry p shared factor quality).p.output_stage_num
        = (rate_init_planned p factor (clamp_quality quality)).level := by
  rw [rate_init_entry]
  exact rate_init_step_p _ _ _ _

theorem rate_init_indices (env : Env) (p : rate_t) (shared : rate_shared_t) (factor : ℚ)
    (quality interp_order : Int) (phase bandwidth : ℚ) (allow_aliasing : Bool)
    (hp : 0 ≤ p.level) :
    (rate_init env p shared factor quality interp_order phase bandwidth
        allow_aliasing).1.input_stage_num ≤ 0
    ∧ 0 ≤ (rate_init env p shared factor quality interp_order phase bandwidth
        allow_aliasing).1.level
    ∧ (rate_init env p shared factor quality interp_order phase bandwidth
        allow_aliasing).1.level
      ≤ (rate_init env p shared factor quality interp_order phase bandwidth
        allow_aliasing).1.output_stage_num := by
  obtain ⟨h1, h2, h3, h4⟩ := rate_init_same_plan env p shared factor quality interp_order
    phase bandwidth allow_aliasing
  rw [h1, h2, h3]
  obtain ⟨a, b, c, d, e, f⟩ := rate_init_last_p env (rate_init_entry p shared factor quality)
    (clamp_quality quality) interp_order
  obtain ⟨s1, s2, s3, s4⟩ := rate_init_entry_p p shared factor quality
  have hl := rate_init_planned_level_nonneg p factor (clamp_quality quality) hp
  have hb := b2i_cases (rate_init_planned p factor (clamp_quality quality)).upsample
  rw [s2, s3] at d
  rw [s4] at e
  rw [a, s1]
  refine ⟨by omega, hl, e⟩

theorem rate_input_same_plan (p : rate_t) (samples : List sample_t) :
    same_plan p (rate_input p samples) := by
  rw [rate_input]
  exact same_plan_of_eq rfl rfl rfl rfl

theorem rate_output_same_plan (p : rate_t) (n : Nat) : same_plan p (rate_output p n).1 := by
  rw [rate_output]
  exact same_plan_of_eq rfl rfl rfl rfl

theorem rate_process_loop_same_plan (env : Env) (shared : rate_shared_t) :
    ∀ (fuel : Nat) (i : Int) (p q : rate_t),
      rate_process_loop env shared fuel i p = some q → same_plan p q := by
  intro fuel
  induction fuel with
  | zero =>
    intro i p q h
    rw [rate_process_loop] at h
    cases h
    exact same_plan_refl p
  | succ fuel ih =>
    intro i p q h
    rw [rate_process_loop] at h
    split_ifs at h with hi
    · cases hrun : run_stage env shared (p.stages i).fn (p.stages i) (p.stages (i + 1)).fifo with
      | none => rw [hrun] at h; cases h
      | some r =>
        obtain ⟨stage, output⟩ := r
        rw [hrun] at h
        dsimp only at h
        have hrec := ih _ _ _ h
        exact same_plan_trans (same_plan_of_eq rfl rfl rfl rfl) hrec
    · cases h
      exact same_plan_refl p

theorem rate_process_same_plan (env : Env) (shared : rate_shared_t) (p q : rate_t)
    (h : rate_process env shared p = some q) : same_plan p q :=
  rate_process_loop_same_plan env shared _ _ p q h

theorem rate_flush_loop_same_plan (env : Env) (shared : rate_shared_t) (remaining : Nat) :
    ∀ (fuel : Nat) (p q : rate_t),
      rate_flush_loop env shared remaining fuel p = some q → same_plan p q := by
  intro fuel
  induction fuel with
  | zero =>
    intro p q h
    rw [rate_flush_loop] at h
    split_ifs at h
    cases h
    exact same_plan_refl p
  | succ fuel ih =>
    intro p q h
    rw [rate_flush_loop] at h
    split_ifs at h with hocc
    · cases hproc : rate_process env shared (rate_input p (List.replicate 1024 0)) with
      | none => rw [hproc] at h; cases h
      | some r =>
        rw [hproc] at h
        dsimp only at h
        exact same_plan_trans
          (same_plan_trans (rate_input_same_plan p _) (rate_process_same_plan env shared _ _ hproc))
          (ih _ _ h)
    · cases h
      exact same_plan_refl p

theorem rate_flush_same_plan (env : Env) (shared : rate_shared_t) (fuel : Nat) (p q : rate_t)
    (h : rate_flush env shared fuel p = some q) : same_plan p q := by
  rw [rate_flush] at h
  dsimp only at h
  split_ifs at h with hpos
  · cases hloop : rate_flush_loop env shared (flush_remaining p) fuel p with
    | none => rw [hloop] at h; cases h
    | some r =>
      rw [hloop] at h
      dsimp only at h
      cases h
      have hrec := rate_flush_loop_same_plan env shared _ _ _ _ hloop
      exact same_plan_trans hrec (same_plan_of_eq rfl rfl rfl rfl)
  · cases h
    exact same_plan_refl p

theorem trunc_of_nonneg {q : ℚ} (h : 0 ≤ q) : trunc q = ⌊q⌋ := by
  rw [trunc, if_pos h]

theorem level_loop_spec : ∀ (fuel : Nat) (i level : Int), 1 ≤ i → i.toNat ≤ fuel →
    ∃ k : Nat, level_loop fuel i level = level + k ∧ (2 : Int) ^ k ≤ i ∧ i < 2 ^ (k + 1) := by
  intro fuel
  induction fuel with
  | zero => intro i level hi hf; omega
  | succ fuel ih =>
    intro i level hi hf
    have hshift : i >>> (1 : Nat) = i / 2 := by
      have := Int.shiftRight_eq_div_pow i 1
      simpa using this
    unfold level_loop
    rw [hshift]
    by_cases h0 : i / 2 = 0
    · simp only [h0, ne_eq, not_true_eq_false, if_false]
      refine ⟨0, by simp, by simpa using hi, ?_⟩
      omega
    · simp only [ne_eq, h0, not_false_eq_true, if_true]
      obtain ⟨k, hk, hlo, hhi⟩ := ih (i / 2) (level + 1) (by omega) (by omega)
      refine ⟨k + 1, by rw [hk]; push_cast; ring, ?_, ?_⟩
      · rw [pow_succ]; omega
      · rw [pow_succ]; omega

theorem plan_level_spec (factor : ℚ) (h1 : 1 ≤ factor) :
    ∃ k : Nat, plan_level factor = k ∧ (2 : ℚ) ^ k ≤ factor ∧ factor < 2 ^ (k + 1) := by
  have h0 : (0 : ℚ) ≤ factor := by linarith
  have hfl : (1 : Int) ≤ ⌊factor⌋ := by
    rw [Int.le_floor]; simpa using h1
  obtain ⟨k, hk, hlo, hhi⟩ := level_loop_spec ((trunc factor).toNat + 1) (trunc factor) 0
    (by rw [trunc_of_nonneg h0]; exact hfl) (by omega)
  rw [trunc_of_nonneg h0] at hlo hhi
  refine ⟨k, by rw [plan_level, hk]; simp, ?_, ?_⟩
  · have : ((2 ^ k : Int) : ℚ) ≤ factor := Int.le_floor.mp hlo
    simpa using this
  · have h2 : ⌊factor⌋ + 1 ≤ 2 ^ (k + 1) := hhi
    have h3 : factor < ((⌊factor⌋ + 1 : Int) : ℚ) := by
      push_cast; exact Int.lt_floor_add_one factor
    have h4 : ((⌊factor⌋ + 1 : Int) : ℚ) ≤ ((2 ^ (k + 1) : Int) : ℚ) := by exact_mod_cast h2
    have h5 : ((2 ^ (k + 1) : Int) : ℚ) = 2 ^ (k + 1) := by push_cast; ring
    linarith

theorem plan_residual_ge_one (factor : ℚ) (h1 : 1 ≤ factor) (k : Nat)
    (hk : plan_level factor = k) : plan_residual factor = factor / 2 ^ (k + 1) := by
  have hup : plan_upsample factor = false := by
    simp [plan_upsample, h1]
  rw [plan_residual, hup, hk]
  simp only [Bool.not_false, b2i, if_true]
  have : ((k : Int) + 1).toNat = k + 1 := by omega
  rw [this, Nat.one_shiftLeft]
  push_cast
  ring

theorem plan_level_lt_one (factor : ℚ) (h0 : 0 < factor) (h1 : factor < 1) :
    plan_level factor = 0 := by
  have hfl : ⌊factor⌋ = 0 := by
    rw [Int.floor_eq_iff]; constructor <;> simp <;> linarith
  rw [plan_level, trunc_of_nonneg (le_of_lt h0), hfl]
  decide

theorem plan_residual_lt_one (factor : ℚ) (h0 : 0 < factor) (h1 : factor < 1) :
    plan_residual factor = factor := by
  have hup : plan_upsample factor = true := by
    simp [plan_upsample, h1]
  rw [plan_residual, hup, plan_level_lt_one factor h0 h1]
  simp [b2i]

theorem rate_init_level_eq (env : Env) (p : rate_t) (shared : rate_shared_t) (factor : ℚ)
    (quality interp_order : Int) (phase bandwidth : ℚ) (allow_aliasing : Bool)
    (hq : clamp_quality quality ≠ Quick) :
    (rate_init env p shared factor quality interp_order phase bandwidth allow_aliasing).1.level
      = plan_level factor := by
  obtain ⟨h1, -, -, -⟩ := rate_init_same_plan env p shared factor quality interp_order
    phase bandwidth allow_aliasing
  obtain ⟨a, -⟩ := rate_init_last_p env (rate_init_entry p shared factor quality)
    (clamp_quality quality) interp_order
  obtain ⟨s1, -⟩ := rate_init_entry_p p shared factor quality
  rw [h1, a, s1, rate_init_planned, if_pos hq]
  rfl

@[simp] theorem set_stage_stages_same (p : rate_t) (i : Int) (g : stage_t → stage_t) :
    (set_stage p i g).stages i = g (p.stages i) := by
  simp [set_stage]

theorem set_stage_stages_ne (p : rate_t) (i j : Int) (g : stage_t → stage_t) (h : j ≠ i) :
    (set_stage p i g).stages j = p.stages j := by
  simp [set_stage, Function.update_noteq h]

theorem rate_init_dft_stages (env : Env) (st : init_state) (quality : Int)
    (phase bandwidth : ℚ) (allow_aliasing : Bool) (j : Int) (h1 : j ≠ -1)
    (h2 : j ≠ st.p.level + 1) :
    (rate_init_dft env st quality phase bandwidth allow_aliasing).p.stages j = st.p.stages j := by
  rw [rate_init_dft]
  dsimp only
  split_ifs <;>
  simp only [set_stage_level, set_stage_stages_ne _ _ _ _ h2, set_stage_stages_ne _ _ _ _ h1]

theorem rate_init_low_stages (env : Env) (st : init_state) (j : Int)
    (h2 : j ≠ st.p.level + 1) :
    (rate_init_low env st).p.stages j = st.p.stages j := by
  rw [rate_init_low]
  simp only [set_stage_level, set_stage_stages_ne _ _ _ _ h2]

theorem rate_init_half_stages (env : Env) (st : init_state) (quality : Int)
    (phase bandwidth : ℚ) (allow_aliasing : Bool) (j : Int) (h1 : j ≠ -1)
    (h2 : j ≠ st.p.level + 1) :
    (rate_init_half env st quality phase bandwidth allow_aliasing).p.stages j
      = st.p.stages j := by
  rw [rate_init_half]
  split_ifs
  · exact rate_init_dft_stages env st quality phase bandwidth allow_aliasing j h1 h2
  · exact rate_init_low_stages env st j h2
  · rfl

theorem rate_init_level_of_le (st : init_state) (h : st.p.level ≤ 0) :
    rate_init_level st = st := by
  rw [rate_init_level]
  dsimp only
  rw [if_neg (by omega)]

theorem rate_init_fifos_stages (env : Env) : ∀ (fuel : Nat) (i : Int) (p : rate_t) (j : Int),
    p.level ≤ 1 →
    (rate_init_fifos env fuel i p).stages j
      = if i ≤ j ∧ j < i + fuel ∧ j ≤ p.output_stage_num then
          { p.stages j with fifo := fifo_reserve fifo_create (p.stages j).preload }
        else p.stages j := by
  intro fuel
  induction fuel with
  | zero =>
    intro i p j _
    rw [rate_init_fifos, if_neg]
    push_cast
    omega
  | succ fuel ih =>
    intro i p j hl
    rw [rate_init_fifos]
    dsimp only
    by_cases hi : i ≤ p.output_stage_num
    · rw [if_pos hi, if_neg (by omega), ih _ _ _ (by simpa using hl)]
      simp only [set_stage_output_stage_num]
      by_cases hj : j = i
      · subst hj
        rw [if_neg (by omega), if_pos (by push_cast; omega)]
        simp
      · simp only [set_stage_stages_ne _ _ _ _ hj]
        by_cases hc : i + 1 ≤ j ∧ j < i + 1 + ↑fuel ∧ j ≤ p.output_stage_num
        · rw [if_pos hc, if_pos (by push_cast; omega)]
        · rw [if_neg hc, if_neg (by push_cast; omega)]
    · rw [if_neg hi, if_neg (by omega)]

theorem rate_init_stage_level_zero (env : Env) (p : rate_t) (shared : rate_shared_t)
    (factor : ℚ) (quality interp_order : Int) (phase bandwidth : ℚ) (allow_aliasing : Bool)
    (hl : (rate_init_last env (rate_init_entry p shared factor quality)
        (clamp_quality quality) interp_order).p.level = 0) :
    (rate_init env p shared factor quality interp_order phase bandwidth allow_aliasing).1.stages 0
      = { (rate_init_last env (rate_init_entry p shared factor quality)
            (clamp_quality quality) interp_order).p.stages 0 with
          fifo := fifo_reserve fifo_create
            ((rate_init_last env (rate_init_entry p shared factor quality)
              (clamp_quality quality) interp_order).p.stages 0).preload } := by
  obtain ⟨a, b, c, d, e, f⟩ := rate_init_last_p env (rate_init_entry p shared factor quality)
    (clamp_quality quality) interp_order
  obtain ⟨s1, s2, s3, s4⟩ := rate_init_entry_p p shared factor quality
  have hb := b2i_cases (rate_init_planned p factor (clamp_quality quality)).upsample
  obtain ⟨h1, h2, h3, h4⟩ := rate_init_half_same_plan env
    (rate_init_last env (rate_init_entry p shared factor quality) (clamp_quality quality)
      interp_order) (clamp_quality quality) phase bandwidth allow_aliasing
  have hst : rate_init_stages env p shared factor quality interp_order phase bandwidth
      allow_aliasing
      = rate_init_half env
          (rate_init_last env (rate_init_entry p shared factor quality) (clamp_quality quality)
            interp_order) (clamp_quality quality) phase bandwidth allow_aliasing := by
    rw [rate_init_stages, rate_init_level_of_le]
    rw [h1, hl]
  rw [rate_init]
  dsimp only
  rw [hst, rate_init_fifos_stages env _ _ _ _ (by rw [h1, hl]; norm_num), h2, h3]
  rw [rate_init_half_stages env _ _ _ _ _ 0 (by norm_num) (by rw [hl]; norm_num)]
  rw [a, s1] at hl
  rw [s2, s3] at d
  rw [s3] at c
  rw [s4, hl] at e
  rw [if_pos]
  omega

theorem rate_init_plan_one : rate_init_plan 1 = ⟨false, 0, 1, 2⟩ := by decide!

theorem rate_init_entry_one (p : rate_t) (shared : rate_shared_t) (quality : Int)
    (hq : clamp_quality quality ≠ Quick) :
    (rate_init_entry p shared 1 quality).p.level = 0
    ∧ (rate_init_entry p shared 1 quality).p.upsample = false
    ∧ (rate_init_entry p shared 1 quality).p.input_stage_num = 0
    ∧ (rate_init_entry p shared 1 quality).p.output_stage_num = 0
    ∧ (rate_init_entry p shared 1 quality).p.stages 0
        = { stage_zero with step_all := 4294967296, out_in_ratio := 2 } := by
  have hplan : rate_init_planned p 1 (clamp_quality quality) = ⟨false, 0, 1, 2⟩ := by
    rw [rate_init_planned, if_pos hq, rate_init_plan_one]
  have h1 : trunc (1 * MULT32 + 1 / 2) = 4294967296 := by decide!
  have h2 : MULT32 * ((2 : Int) : ℚ) / ((4294967296 : Int) : ℚ) = 2 := by decide!
  rw [rate_init_entry, hplan, rate_init_step]
  refine ⟨rfl, rfl, by simp [b2i], rfl, ?_⟩
  simp only [set_stage, Function.update_same, h1, h2]

theorem rate_init_last_one (env : Env) (p : rate_t) (shared : rate_shared_t)
    (quality interp_order : Int) (hq : clamp_quality quality ≠ Quick) :
    rate_init_last env (rate_init_entry p shared 1 quality) (clamp_quality quality) interp_order
      = rate_init_entry p shared 1 quality := by
  obtain ⟨h1, h2, -, -, h5⟩ := rate_init_entry_one p shared quality hq
  rw [rate_init_last, if_neg hq, h1, h5, h2, if_neg]
  simp

theorem rate_init_one (env : Env) (p : rate_t) (shared : rate_shared_t)
    (quality interp_order : Int) (phase bandwidth : ℚ) (allow_aliasing : Bool)
    (hq : clamp_quality quality ≠ Quick) :
    (rate_init env p shared 1 quality interp_order phase bandwidth
        allow_aliasing).1.input_stage_num = 0
    ∧ (rate_init env p shared 1 quality interp_order phase bandwidth
        allow_aliasing).1.output_stage_num = 0
    ∧ (rate_init env p shared 1 quality interp_order phase bandwidth
        allow_aliasing).1.stages 0
        = { stage_zero with step_all := 4294967296, out_in_ratio := 2 } := by
  obtain ⟨h1, h2, h3, h4, h5⟩ := rate_init_entry_one p shared quality hq
  obtain ⟨a, b, c, d⟩ := rate_init_same_plan env p shared 1 quality interp_order phase
    bandwidth allow_aliasing
  have hlast := rate_init_last_one env p shared quality interp_order hq
  refine ⟨by rw [b, hlast, h3], by rw [c, hlast, h4], ?_⟩
  rw [rate_init_stage_level_zero env p shared 1 quality interp_order phase bandwidth
    allow_aliasing (by rw [hlast, h1]), hlast, h5]
  rfl

theorem rate_process_no_stage (env : Env) (shared : rate_shared_t) (p : rate_t)
    (h : p.output_stage_num = p.input_stage_num) : rate_process env shared p = some p := by
  rw [rate_process, h]
  simp [rate_process_loop]

theorem rate_input_fifo (p : rate_t) (samples : List sample_t) :
    ((rate_input p samples).stages p.input_stage_num).fifo
      = (p.stages p.input_stage_num).fifo ++ samples := by
  simp [rate_input, fifo_write]

theorem rate_output_samples (p : rate_t) (n : Nat) :
    (rate_output p n).2.1 = (p.stages p.output_stage_num).fifo.take n
    ∧ (rate_output p n).2.2 = min n (p.stages p.output_stage_num).fifo.length
    ∧ ((rate_output p n).1.stages p.output_stage_num).fifo
        = (p.stages p.output_stage_num).fifo.drop n := by
  have hocc : (fifo_occupancy (p.stages p.output_stage_num).fifo).toNat
      = (p.stages p.output_stage_num).fifo.length := by simp [fifo_occupancy]
  refine ⟨?_, ?_, ?_⟩
  · rw [rate_output]
    dsimp only
    rw [hocc, List.take_eq_take]
    simp
  · rw [rate_output]
    dsimp only
    rw [hocc]
  · rw [rate_output]
    dsimp only
    rw [hocc]
    simp only [set_stage_stages_same, fifo_read, fifo_occupancy]
    rw [if_pos (by push_cast; omega)]
    by_cases hn : n ≤ (p.stages p.output_stage_num).fifo.length
    · simp [Nat.min_eq_left hn]
    · have : (p.stages p.output_stage_num).fifo.length ≤ n := by omega
      simp [Nat.min_eq_right this, List.drop_eq_nil_of_le this]

theorem rate_init_poly_last_stage (env : Env) (st : init_state) (quality interp_order : Int) :
    ((rate_init_poly env st quality interp_order).p.stages st.p.level).divisor = st.divisor
    ∧ ((rate_init_poly env st quality interp_order).p.stages st.p.level).step_all
        = (st.p.stages st.p.level).step_all
    ∧ ((rate_init_poly env st quality interp_order).p.stages st.p.level).out_in_ratio
        = (st.p.stages st.p.level).out_in_ratio := by
  rw [rate_init_poly]
  dsimp only
  by_cases h : (st.p.upsample && decide (quality = Low)) = true
  · simp [h, set_stage]
  · simp [h, set_stage]

theorem rate_init_plan_441_480 : rate_init_plan (44100 / 48000) = ⟨true, 0, 147, 160⟩ := by
  decide!

theorem rate_init_entry_441_480 (p : rate_t) (shared : rate_shared_t) (quality : Int)
    (hq : clamp_quality quality ≠ Quick) :
    (rate_init_entry p shared (44100 / 48000) quality).p.level = 0
    ∧ (rate_init_entry p shared (44100 / 48000) quality).divisor = 160
    ∧ (rate_init_entry p shared (44100 / 48000) quality).factor = 147
    ∧ ((rate_init_entry p shared (44100 / 48000) quality).p.stages 0).step_all
        = 147 * 4294967296
    ∧ ((rate_init_entry p shared (44100 / 48000) quality).p.stages 0).out_in_ratio
        = 48000 / 44100 := by
  have hplan : rate_init_planned p (44100 / 48000) (clamp_quality quality)
      = ⟨true, 0, 147, 160⟩ := by
    rw [rate_init_planned, if_pos hq, rate_init_plan_441_480]
  have h1 : trunc (147 * MULT32 + 1 / 2) = 147 * 4294967296 := by decide!
  have h2 : MULT32 * ((160 : Int) : ℚ) / ((147 * 4294967296 : Int) : ℚ) = 48000 / 44100 := by
    decide!
  rw [rate_init_entry, hplan, rate_init_step]
  refine ⟨rfl, rfl, rfl, ?_, ?_⟩
  · simp only [set_stage, Function.update_same, h1]
  · simp only [set_stage, Function.update_same, h1, h2]

theorem rate_init_441_480 (env : Env) (p : rate_t) (shared : rate_shared_t)
    (quality interp_order : Int) (phase bandwidth : ℚ) (allow_aliasing : Bool)
    (hq : clamp_quality quality ≠ Quick) :
    (rate_init env p shared (44100 / 48000) quality interp_order phase bandwidth
        allow_aliasing).1.level = 0
    ∧ ((rate_init env p shared (44100 / 48000) quality interp_order phase bandwidth
        allow_aliasing).1.stages 0).divisor = 160
    ∧ ((rate_init env p shared (44100 / 48000) quality interp_order phase bandwidth
        allow_aliasing).1.stages 0).step_all = 147 * 4294967296
    ∧ ((rate_init env p shared (44100 / 48000) quality interp_order phase bandwidth
        allow_aliasing).1.stages 0).out_in_ratio = 48000 / 44100 := by
  obtain ⟨h1, h2, h3, h4, h5⟩ := rate_init_entry_441_480 p shared quality hq
  have hlast : rate_init_last env (rate_init_entry p shared (44100 / 48000) quality)
      (clamp_quality quality) interp_order
      = rate_init_poly env (rate_init_entry p shared (44100 / 48000) quality)
          (clamp_quality quality) interp_order := by
    rw [rate_init_last, if_neg hq, h1, h5, if_pos]
    left
    norm_num
  obtain ⟨a, b, c⟩ := rate_init_poly_last_stage env
    (rate_init_entry p shared (44100 / 48000) quality) (clamp_quality quality) interp_order
  obtain ⟨l1, -⟩ := rate_init_poly_p env
    (rate_init_entry p shared (44100 / 48000) quality) (clamp_quality quality) interp_order
  rw [h1] at a b c
  rw [h1] at l1
  rw [rate_init_level_eq env p shared _ quality interp_order phase bandwidth allow_aliasing hq,
    rate_init_stage_level_zero env p shared _ quality interp_order phase bandwidth
      allow_aliasing (by rw [hlast, l1]), hlast]
  refine ⟨by decide!, ?_, ?_, ?_⟩
  · rw [← h2]; exact a
  · rw [← h4]; exact b
  · rw [← h5]; exact c

theorem trunc_int_add_half (n : Int) (h : 0 ≤ n) : trunc ((n : ℚ) * MULT32 + 1 / 2)
    = n * 4294967296 := by
  have h0 : (0 : ℚ) ≤ (n : ℚ) * MULT32 + 1 / 2 := by
    have : (0 : ℚ) ≤ (n : ℚ) := by exact_mod_cast h
    have : (0 : ℚ) ≤ (n : ℚ) * MULT32 := mul_nonneg this (by norm_num [MULT32])
    linarith
  rw [trunc_of_nonneg h0, Int.floor_eq_iff]
  constructor
  · push_cast; norm_num [MULT32]
  · push_cast; norm_num [MULT32]

theorem search_accepts_pos (r : ℚ) (i : Int) (hi : i ≤ max_divisor)
    (h : search_accepts r i) : 1 ≤ trunc (r * i + 1 / 2) := by
  by_contra hcon
  have hle : trunc (r * i + 1 / 2) ≤ 0 := by omega
  rw [search_accepts] at h
  have hq : ((trunc (r * i + 1 / 2) : Int) : ℚ) ≤ 0 := by exact_mod_cast hle
  have hi' : (i : ℚ) ≤ 2048 := by
    have : (i : ℚ) ≤ ((max_divisor : Int) : ℚ) := by exact_mod_cast hi
    simpa [max_divisor] using this
  have hpos : (0 : ℚ) < epsilon * (1 - ((1 / 2) / ((max_divisor : Int) : ℚ)) * i) := by
    apply mul_pos
    · norm_num [epsilon, MULT32]
    · have : ((max_divisor : Int) : ℚ) = 2048 := by simp [max_divisor]
      rw [this]
      linarith
  have habs := abs_nonneg (((trunc (r * i + 1 / 2) : Int) : ℚ) - r * i)
  have : ((trunc (r * i + 1 / 2) : Int) : ℚ) * epsilon
      * (1 - ((1 / 2) / ((max_divisor : Int) : ℚ)) * i) ≤ 0 := by
    rw [mul_assoc]
    exact mul_nonpos_of_nonpos_of_nonneg hq (le_of_lt hpos)
  linarith

theorem search_body_good (r : ℚ) (i : Int) (st : search_state) (h2 : 2 ≤ i)
    (hi : i ≤ max_divisor) (hd : st.divisor = 1) (hg : search_good r st) :
    search_good r (search_body i st) := by
  rcases hg with ⟨-, hf, hna⟩ | ⟨hne, -⟩
  · rw [search_body]
    by_cases hacc : search_accepts st.factor i
    · rw [if_pos hacc]
      right
      split_ifs with heq
      · exact ⟨by norm_num, 1, le_refl 1, by norm_num⟩
      · exact ⟨by dsimp only; omega, _, search_accepts_pos st.factor i hi hacc, rfl⟩
    · rw [if_neg hacc]
      exact Or.inl ⟨hd, hf, hna⟩
  · exact absurd hd hne

theorem search_loop_good (r : ℚ) : ∀ (fuel : Nat) (i : Int) (st : search_state), 2 ≤ i →
    search_good r st → search_good r (search_loop fuel i st) := by
  intro fuel
  induction fuel with
  | zero => intro i st _ hg; exact hg
  | succ fuel ih =>
    intro i st h2 hg
    rw [search_loop]
    split_ifs with hc
    · exact ih (i + 1) _ (by omega) (search_body_good r i st h2 hc.1 hc.2 hg)
    · exact hg

theorem search_loop_start_good (r : ℚ) (up : Bool) :
    search_good r (search_loop 2047 2 { factor := r, divisor := 1, upsample := up }) := by
  rw [search_loop, if_pos ⟨by decide, rfl⟩]
  apply search_loop_good r 2046 3 _ (by norm_num)
  rw [search_body]
  by_cases hacc : search_accepts r 2
  · rw [if_pos hacc]
    right
    split_ifs with heq
    · exact ⟨by norm_num, 1, le_refl 1, by norm_num⟩
    · exact ⟨by norm_num, _, search_accepts_pos r 2 (by decide) hacc, rfl⟩
  · rw [if_neg hacc]
    exact Or.inl ⟨rfl, rfl, hacc⟩

theorem search_accepts_two (r : ℚ) (h1 : r < 1) (h2 : MULT32 ≤ r * MULT32 + 1 / 2) :
    search_accepts r 2 := by
  have hr : 1 - 1 / 8589934592 ≤ r := by
    norm_num [MULT32] at h2
    linarith
  have h0 : (0 : ℚ) ≤ r * ((2 : Int) : ℚ) + 1 / 2 := by push_cast; linarith
  have htr : trunc (r * ((2 : Int) : ℚ) + 1 / 2) = 2 := by
    rw [trunc_of_nonneg h0, Int.floor_eq_iff]
    push_cast
    constructor <;> linarith
  rw [search_accepts, htr]
  have habs : |(((2 : Int) : ℚ)) - r * ((2 : Int) : ℚ)| = 2 - 2 * r := by
    rw [abs_of_nonneg] <;> push_cast <;> linarith
  rw [habs]
  norm_num [epsilon, MULT32, max_divisor]
  linarith

theorem plan_residual_bounds (factor : ℚ) (h0 : 0 < factor) :
    0 < plan_residual factor ∧ plan_residual factor < 1 := by
  by_cases h1 : factor < 1
  · rw [plan_residual_lt_one factor h0 h1]
    exact ⟨h0, h1⟩
  · have h1' : 1 ≤ factor := not_lt.mp h1
    obtain ⟨k, hk, hlo, hhi⟩ := plan_level_spec factor h1'
    rw [plan_residual_ge_one factor h1' k hk]
    have hpos : (0 : ℚ) < 2 ^ (k + 1) := by positivity
    exact ⟨div_pos h0 hpos, (div_lt_one hpos).mpr hhi⟩

theorem plan_step_assert (factor : ℚ) (h0 : 0 < factor) :
    ((rate_init_plan factor).divisor = 1 →
      0 ≤ trunc ((rate_init_plan factor).factor * MULT32 + 1 / 2)
      ∧ trunc ((rate_init_plan factor).factor * MULT32 + 1 / 2) < 4294967296)
    ∧ ((rate_init_plan factor).divisor ≠ 1 →
      ∃ n : Int, 1 ≤ n ∧ trunc ((rate_init_plan factor).factor * MULT32 + 1 / 2)
        = n * 4294967296) := by
  obtain ⟨hr0, hr1⟩ := plan_residual_bounds factor h0
  have hg := search_loop_start_good (plan_residual factor) (plan_upsample factor)
  rw [rate_init_plan]
  dsimp only
  rcases hg with ⟨hd, hf, hna⟩ | ⟨hne, n, hn, hf⟩
  · refine ⟨fun _ => ?_, fun h => absurd hd h⟩
    rw [hf]
    have hlt : plan_residual factor * MULT32 + 1 / 2 < MULT32 := by
      by_contra hcon
      exact hna (search_accepts_two _ hr1 (not_lt.mp hcon))
    have hnn : (0 : ℚ) ≤ plan_residual factor * MULT32 + 1 / 2 := by
      have : (0 : ℚ) < plan_residual factor * MULT32 := mul_pos hr0 (by norm_num [MULT32])
      linarith
    rw [trunc_of_nonneg hnn]
    constructor
    · exact Int.floor_nonneg.mpr hnn
    · rw [Int.floor_lt]
      norm_num [MULT32] at hlt ⊢
      linarith
  · refine ⟨fun h => absurd h hne, fun _ => ⟨n, hn, ?_⟩⟩
    rw [hf]
    exact trunc_int_add_half n (by omega)

theorem rate_process_loop_samples_out (env : Env) (shared : rate_shared_t) :
    ∀ (fuel : Nat) (i : Int) (p q : rate_t),
      rate_process_loop env shared fuel i p = some q → q.samples_out = p.samples_out := by
  intro fuel
  induction fuel with
  | zero =>
    intro i p q h
    rw [rate_process_loop] at h
    cases h
    rfl
  | succ fuel ih =>
    intro i p q h
    rw [rate_process_loop] at h
    split_ifs at h with hi
    · cases hrun : run_stage env shared (p.stages i).fn (p.stages i) (p.stages (i + 1)).fifo with
      | none => rw [hrun] at h; cases h
      | some r =>
        obtain ⟨stage, output⟩ := r
        rw [hrun] at h
        dsimp only at h
        have hrec := ih _ _ _ h
        rw [hrec]
    · cases h
      rfl

theorem rate_flush_loop_exit (env : Env) (shared : rate_shared_t) (remaining : Nat) :
    ∀ (fuel : Nat) (p q : rate_t),
      rate_flush_loop env shared remaining fuel p = some q →
      q.samples_out = p.samples_out
      ∧ remaining ≤ (q.stages q.output_stage_num).fifo.length := by
  intro fuel
  induction fuel with
  | zero =>
    intro p q h
    rw [rate_flush_loop] at h
    split_ifs at h with hocc
    cases h
    refine ⟨rfl, ?_⟩
    simp only [fifo_occupancy, Int.toNat_ofNat] at hocc
    omega
  | succ fuel ih =>
    intro p q h
    rw [rate_flush_loop] at h
    split_ifs at h with hocc
    · cases hproc : rate_process env shared (rate_input p (List.replicate 1024 0)) with
      | none => rw [hproc] at h; cases h
      | some r =>
        rw [hproc] at h
        dsimp only at h
        obtain ⟨h1, h2⟩ := ih _ _ h
        refine ⟨?_, h2⟩
        rw [h1, rate_process_loop_samples_out env shared _ _ _ _ hproc, rate_input]
        simp only [set_stage_samples_out]
    · cases h
      refine ⟨rfl, ?_⟩
      simp only [fifo_occupancy, Int.toNat_ofNat] at hocc
      omega

theorem flush_target_lt (p : rate_t) : flush_target p < 18446744073709551616 := by
  rw [flush_target]
  have : SIZE_MOD = 18446744073709551616 := by norm_num [SIZE_MOD]
  rw [this]
  omega

theorem flush_remaining_eq (p : rate_t) (hgt : p.samples_out < flush_target p) :
    (flush_remaining p : Int) = (flush_target p : Int) - p.samples_out := by
  have hlt := flush_target_lt p
  rw [flush_remaining]
  have : SIZE_MOD = 18446744073709551616 := by norm_num [SIZE_MOD]
  rw [this]
  omega

/-- When the three operations of samples_in / factor + .5 are exact in doubles, the
target of rate_flush is floor(samples_in / factor + 1/2). -/
theorem flush_target_exact (p : rate_t)
    (h1 : round_double (p.samples_in : ℚ) = p.samples_in)
    (h2 : round_double ((p.samples_in : ℚ) / p.factor) = (p.samples_in : ℚ) / p.factor)
    (h3 : round_double ((p.samples_in : ℚ) / p.factor + 1 / 2)
      = (p.samples_in : ℚ) / p.factor + 1 / 2)
    (h0 : 0 ≤ flush_round p) (hsize : flush_round p < 18446744073709551616) :
    (flush_target p : Int) = flush_round p := by
  have harg : (0 : ℚ) ≤ (p.samples_in : ℚ) / p.factor + 1 / 2 := by
    by_contra hneg
    have : flush_round p < 0 := by
      rw [flush_round, Int.floor_lt]
      push_cast
      linarith
    omega
  rw [flush_target, h1, h2, h3, trunc_of_nonneg harg]
  change (((flush_round p).toNat % SIZE_MOD : Nat) : Int) = flush_round p
  have : SIZE_MOD = 18446744073709551616 := by norm_num [SIZE_MOD]
  rw [this]
  omega

theorem to_int_small (n : Nat) (h : n < 2147483648) : to_int n = n := by
  rw [to_int]
  norm_num
  omega

theorem list_set_append_replicate (pre outs : List sample_t) (k : Nat) (v : sample_t) :
    (pre ++ outs ++ List.replicate (k + 1) 0).set (pre.length + outs.length) v
      = pre ++ (outs ++ [v]) ++ List.replicate k 0 := by
  have h : pre.length + outs.length = (pre ++ outs).length := by simp
  rw [h, List.set_append_right _ _ (le_refl _)]
  simp [List.replicate_succ]

theorem fifo_store_at_next (pre outs : List sample_t) (r : Nat) (v : sample_t) :
    fifo_store_at (pre ++ outs ++ List.replicate r 0) (pre.length + outs.length) v
      = pre ++ (outs ++ [v]) ++ List.replicate (r - 1) 0 := by
  rw [fifo_store_at]
  cases r with
  | zero =>
    have h : ¬ pre.length + outs.length < (pre ++ outs ++ List.replicate 0 0).length := by
      simp
    rw [if_neg h]
    simp
  | succ k =>
    have h : pre.length + outs.length < (pre ++ outs ++ List.replicate (k + 1) 0).length := by
      simp
    rw [if_pos h, list_set_append_replicate]
    simp

theorem cubic_spline_loop_run (p : stage_t) (N : Int) (pre : List sample_t) (m : Nat) :
    ∀ (n fuel : Nat) (a : Int) (outs : List sample_t),
      (∀ k : Nat, k < n → integer (a + k * p.step_all) < N) →
      ¬ (integer (a + n * p.step_all) < N) →
      n ≤ fuel →
      cubic_spline_loop p N pre.length fuel outs.length a
          (pre ++ outs ++ List.replicate (m - outs.length) 0)
        = some (((outs.length + n : Nat) : Int), a + n * p.step_all,
            pre ++ (outs ++ (List.range n).map
              (fun k : Nat => cubic_spline_sample p (a + k * p.step_all)))
              ++ List.replicate (m - outs.length - n) 0) := by
  intro n
  induction n with
  | zero =>
    intro fuel a outs _ hexit _
    have hexit' : ¬ integer a < N := by simpa using hexit
    cases fuel with
    | zero => rw [cubic_spline_loop, if_neg hexit']; simp
    | succ fuel => rw [cubic_spline_loop, if_neg hexit']; simp
  | succ n ih =>
    intro fuel a outs hrun hexit hfuel
    have h0 : integer a < N := by simpa using hrun 0 (Nat.succ_pos n)
    cases fuel with
    | zero => omega
    | succ fuel =>
      rw [cubic_spline_loop, if_pos h0]
      have hset : fifo_store_at (pre ++ outs ++ List.replicate (m - outs.length) 0)
          (pre.length + (outs.length : Int).toNat) (cubic_spline_sample p a)
          = pre ++ (outs ++ [cubic_spline_sample p a])
              ++ List.replicate (m - (outs ++ [cubic_spline_sample p a]).length) 0 := by
        rw [Int.toNat_ofNat, fifo_store_at_next]
        simp
        rfl
      have hlen : ((outs.length : Int) + 1) = ((outs ++ [cubic_spline_sample p a]).length : Int) := by
        simp
      rw [hset, hlen, ih fuel (a + p.step_all) (outs ++ [cubic_spline_sample p a])]
      · have hr : List.range (n + 1) = 0 :: (List.range n).map Nat.succ := by
          rw [List.range_succ_eq_map]
        have hmap : (List.range (n + 1)).map
              (fun k : Nat => cubic_spline_sample p (a + k * p.step_all))
            = cubic_spline_sample p a :: (List.range n).map
              (fun k : Nat => cubic_spline_sample p (a + p.step_all + k * p.step_all)) := by
          rw [hr, List.map_cons, List.map_map]
          congr 1
          · simp
          · apply List.map_congr_left
            intro k _
            simp only [Function.comp, Nat.succ_eq_add_one]
            congr 1
            push_cast
            ring
        rw [hmap]
        simp only [List.length_append, List.length_singleton, List.append_assoc,
          List.singleton_append]
        refine congrArg some ?_
        refine Prod.ext (by push_cast; ring) (Prod.ext (by simp; ring) ?_)
        simp only
        have e3 : m - (outs.length + 1) - n = m - outs.length - (n + 1) := by omega
        rw [e3]
      · intro k hk
        have := hrun (k + 1) (by omega)
        have e : a + p.step_all + k * p.step_all = a + ((k + 1 : Nat) : Int) * p.step_all := by
          push_cast; ring
        rw [e]; exact this
      · have e : a + p.step_all + n * p.step_all = a + ((n + 1 : Nat) : Int) * p.step_all := by
          push_cast; ring
        rw [e]; exact hexit
      · omega

theorem integer_lt_iff (x N : Int) : integer x < N ↔ x < N * 4294967296 := by
  rw [integer]
  constructor <;> intro h <;> omega

theorem spline_passes_exists (step N a : Int) (hs : 0 < step) (ha : 0 ≤ a) :
    ∃ n : Nat, spline_passes step N a n := by
  have hex : ∃ k : Nat, ¬ integer (a + k * step) < N := by
    refine ⟨(N * 4294967296).toNat, ?_⟩
    rw [integer_lt_iff]
    have h1 : N * 4294967296 ≤ ((N * 4294967296).toNat : Int) := Int.self_le_toNat _
    have h2 : (((N * 4294967296).toNat : Int)) ≤ ((N * 4294967296).toNat : Int) * step := by
      have : (0 : Int) ≤ ((N * 4294967296).toNat : Int) := Int.ofNat_nonneg _
      nlinarith
    omega
  classical
  refine ⟨Nat.find hex, ?_, Nat.find_spec hex⟩
  intro k hk
  have := Nat.find_min hex hk
  exact not_not.mp this

theorem spline_passes_unique (step N a : Int) (n n' : Nat)
    (h : spline_passes step N a n) (h' : spline_passes step N a n') : n = n' := by
  rcases Nat.lt_trichotomy n n' with hlt | heq | hgt
  · exact absurd (h'.1 n hlt) h.2
  · exact heq
  · exact absurd (h.1 n' hgt) h'.2

theorem spline_passes_last (step N a : Int) (n : Nat) (h : spline_passes step N a n)
    (hn : 0 < n) : a + ((n : Int) - 1) * step < N * 4294967296 := by
  have := h.1 (n - 1) (by omega)
  rw [integer_lt_iff] at this
  have e : ((n - 1 : Nat) : Int) = (n : Int) - 1 := by omega
  rw [e] at this
  exact this

theorem spline_passes_le_fuel (step N a : Int) (n : Nat) (h : spline_passes step N a n)
    (hs : 0 < step) : n ≤ (N * 4294967296 - a).toNat := by
  rcases Nat.eq_zero_or_pos n with h0 | hpos
  · omega
  · have hl := spline_passes_last step N a n h hpos
    have : ((n : Int) - 1) ≤ ((n : Int) - 1) * step := by
      have : (0 : Int) ≤ (n : Int) - 1 := by omega
      nlinarith
    omega

theorem spline_passes_of_bounds (step N a : Int) (n : Nat) (hs : 0 < step)
    (h1 : a + ((n : Int) - 1) * step < N * 4294967296)
    (h2 : N * 4294967296 ≤ a + n * step) : spline_passes step N a n := by
  constructor
  · intro k hk
    rw [integer_lt_iff]
    have hk1 : (k : Int) ≤ (n : Int) - 1 := by omega
    have : (k : Int) * step ≤ ((n : Int) - 1) * step :=
      mul_le_mul_of_nonneg_right hk1 (le_of_lt hs)
    omega
  · rw [integer_lt_iff]
    omega

theorem cubic_spline_eq (p : stage_t) (output_fifo : fifo_t) (n : Nat) (hq : quick_stage p)
    (h : spline_passes p.step_all (stage_occupancy p) p.at_all n) :
    cubic_spline p output_fifo
      = some ({ p with fifo := fifo_read p.fifo (integer (p.at_all + n * p.step_all)),
                       at_all := fraction (p.at_all + n * p.step_all) },
              output_fifo ++ (List.range n).map
                (fun k : Nat => cubic_spline_sample p (p.at_all + k * p.step_all))) := by
  have hfuel := spline_passes_le_fuel _ _ _ n h hq.2.2.2.1
  have hrun := cubic_spline_loop_run p (stage_occupancy p) output_fifo
    (cubic_spline_max_num_out p).toNat n
    (stage_occupancy p * 4294967296 - p.at_all).toNat p.at_all [] h.1 h.2 hfuel
  simp only [List.length_nil, List.append_nil, Nat.sub_zero, List.nil_append, Nat.zero_add,
    Nat.cast_zero] at hrun
  rw [cubic_spline]
  rw [fifo_reserve, hrun]
  dsimp only
  congr 2
  unfold fifo_trim_by fifo_occupancy
  simp only [List.length_append, List.length_map, List.length_range, List.length_replicate]
  have e2 : output_fifo.length + n
      = (output_fifo ++ (List.range n).map
          (fun k : Nat => cubic_spline_sample p (p.at_all + k * p.step_all))).length := by
    simp
  by_cases hmax : (n : Int) ≤ cubic_spline_max_num_out p
  · have e : ((↑(output_fifo.length + n + ((cubic_spline_max_num_out p).toNat - n)) : Int)
        - (cubic_spline_max_num_out p - ↑n)).toNat = output_fifo.length + n := by
      omega
    rw [e, e2, List.take_left]
  · have e0 : (cubic_spline_max_num_out p).toNat - n = 0 := by omega
    rw [e0, List.replicate_zero, List.append_nil]
    apply List.take_of_length_le
    simp only [List.length_append, List.length_map, List.length_range]
    omega

theorem cubic_spline_sample_congr (p p' : stage_t) (a b : Int) (hpre : p.pre = 1)
    (hpre' : p'.pre = 1) (hfrac : fraction a = fraction b)
    (hread : ∀ t : Int, 0 ≤ t → t ≤ 3 →
      fifo_read_ptr p.fifo (integer a + t) = fifo_read_ptr p'.fifo (integer b + t)) :
    cubic_spline_sample p a = cubic_spline_sample p' b := by
  have e : ∀ k : Int, -1 ≤ k → k ≤ 2 →
      stage_read_p p (integer a + k) = stage_read_p p' (integer b + k) := by
    intro k h1 h2
    rw [stage_read_p, stage_read_p, hpre, hpre']
    have := hread (1 + k) (by omega) (by omega)
    have e1 : 1 + (integer a + k) = integer a + (1 + k) := by ring
    have e2 : 1 + (integer b + k) = integer b + (1 + k) := by ring
    rw [e1, e2]; exact this
  have e0 := e 0 (by norm_num) (by norm_num)
  have e1 := e 1 (by norm_num) (by norm_num)
  have e2 := e 2 (by norm_num) (by norm_num)
  have em := e (-1) (by norm_num) (by norm_num)
  simp only [add_zero] at e0
  rw [cubic_spline_sample, cubic_spline_sample]
  simp only [add_zero, e0, e1, e2, em, hfrac]

theorem fifo_read_ptr_append (G ys : fifo_t) (j : Int) (h : j < G.length) :
    fifo_read_ptr (G ++ ys) j = fifo_read_ptr G j := by
  rw [fifo_read_ptr, fifo_read_ptr]
  split_ifs with h0
  · rw [List.getD_append _ _ _ _ (by omega)]
  · rfl

theorem fifo_read_ptr_drop (G : fifo_t) (c : Nat) (j : Int) (h : 0 ≤ j) :
    fifo_read_ptr (G.drop c) j = fifo_read_ptr G (c + j) := by
  rw [fifo_read_ptr, fifo_read_ptr, if_pos h, if_pos (by omega)]
  have e : ((c : Int) + j).toNat = c + j.toNat := by omega
  rw [e, List.getD_eq_getElem?_getD, List.getD_eq_getElem?_getD, List.getElem?_drop]

theorem spline_passes_consumed (step pp L : Int) (n : Nat) (hs : 0 < step) (_hpp : 0 ≤ pp)
    (hip : integer step ≤ pp) (hL : 0 ≤ L)
    (h : spline_passes step (max 0 (L - pp)) 0 n) :
    0 ≤ integer (n * step) ∧ integer (n * step) ≤ L := by
  have hnn : (0 : Int) ≤ n * step := by positivity
  rw [integer] at hip ⊢
  refine ⟨by omega, ?_⟩
  rcases Nat.eq_zero_or_pos n with h0 | hpos
  · subst h0; simp; exact hL
  · have hl := spline_passes_last _ _ _ n h hpos
    have hA : (0 : Int) ≤ ((n : Int) - 1) * step := by
      have : (0 : Int) ≤ (n : Int) - 1 := by omega
      positivity
    have e : (n : Int) * step = ((n : Int) - 1) * step + step := by ring
    rw [e]
    rcases max_cases 0 (L - pp) with ⟨hm, -⟩ | ⟨hm, -⟩
    · rw [hm] at hl; omega
    · rw [hm] at hl; omega

theorem spline_passes_append (st pp L L2 : Int) (n n2 : Nat) (hs : 0 < st)
    (h1 : spline_passes st (max 0 (L - pp)) 0 n)
    (h2 : spline_passes st (max 0 (L2 - integer (n * st) - pp)) (fraction (n * st)) n2)
    (hL : L ≤ L2) :
    spline_passes st (max 0 (L2 - pp)) 0 (n + n2) := by
  have hX : (0 : Int) ≤ n * st := by positivity
  constructor
  · intro k hk
    rw [lt_max_iff]
    by_cases hkn : k < n
    · have := h1.1 k hkn
      rw [lt_max_iff] at this
      omega
    · have := h2.1 (k - n) (by omega)
      rw [lt_max_iff] at this
      have hY : (0 : Int) ≤ ((k - n : Nat) : Int) * st := by positivity
      have e : (0 : Int) + (k : Int) * st = n * st + ((k - n : Nat) : Int) * st := by
        have e2 : ((k - n : Nat) : Int) = (k : Int) - n := by omega
        rw [e2]; ring
      rw [e]
      unfold integer fraction at *
      omega
  · have := h2.2
    rw [lt_max_iff] at this ⊢
    have hY : (0 : Int) ≤ (n2 : Int) * st := by positivity
    have e : (0 : Int) + ((n + n2 : Nat) : Int) * st = n * st + (n2 : Int) * st := by
      push_cast; ring
    rw [e]
    unfold integer fraction at *
    omega

theorem rate_process_quick (env : Env) (shared : rate_shared_t) (q : rate_t) (s : stage_t)
    (o : fifo_t) (hi : q.input_stage_num = 0) (ho : q.output_stage_num = 1)
    (hfn : (q.stages 0).fn = stage_fn_t.cubic_spline)
    (hrun : cubic_spline (q.stages 0) (q.stages 1).fifo = some (s, o)) :
    rate_process env shared q
      = some { q with
          stages := Function.update (Function.update q.stages 0 s) 1 (
            { q.stages 1 with fifo := o } : stage_t) } := by
  rw [rate_process, hi, ho]
  have e : ((1 : Int) - 0).toNat = 1 := by decide
  rw [e, rate_process_loop, if_pos (by rw [ho]; norm_num), hfn]
  simp only [run_stage, zero_add, hrun, rate_process_loop, hi, ho]

theorem rate_input_stage_zero (q : rate_t) (ys : List sample_t) (hi : q.input_stage_num = 0) :
    (rate_input q ys).stages 0 = { q.stages 0 with fifo := (q.stages 0).fifo ++ ys }
    ∧ (rate_input q ys).stages 1 = q.stages 1
    ∧ (rate_input q ys).input_stage_num = 0
    ∧ (rate_input q ys).output_stage_num = q.output_stage_num := by
  refine ⟨?_, ?_, ?_, ?_⟩
  · rw [rate_input]
    dsimp only
    rw [hi, set_stage_stages_same]
    simp [fifo_write]
  · rw [rate_input]
    dsimp only
    rw [hi, set_stage_stages_ne _ _ _ _ (by norm_num)]
  · rw [(rate_input_same_plan q ys).2.1, hi]
  · rw [(rate_input_same_plan q ys).2.2.1]

theorem spline_out_append (st : Int) (G ys : fifo_t) (p1 : stage_t) (pp : Int) (n n2 : Nat)
    (hs : 0 < st) (hpp : 3 ≤ pp) (hpre : p1.pre = 1)
    (hc : integer (n * st) ≤ G.length)
    (hfifo : p1.fifo = G.drop (integer (n * st)).toNat ++ ys)
    (h1 : spline_passes st (max 0 ((G.length : Int) - pp)) 0 n) :
    (List.range n).map (fun k : Nat => spline_at G (k * st))
        ++ (List.range n2).map
            (fun k : Nat => cubic_spline_sample p1 (fraction (n * st) + k * st))
      = (List.range (n + n2)).map (fun k : Nat => spline_at (G ++ ys) (k * st)) := by
  have hX : (0 : Int) ≤ n * st := by positivity
  rw [List.range_add, List.map_append, List.map_map]
  congr 1
  · apply List.map_congr_left
    intro k hk
    rw [List.mem_range] at hk
    have hlt := h1.1 k hk
    rw [lt_max_iff] at hlt
    have hY : (0 : Int) ≤ (k : Int) * st := by positivity
    rw [spline_at, spline_at]
    apply cubic_spline_sample_congr _ _ _ _ rfl rfl rfl
    intro t ht0 ht3
    simp only
    rw [fifo_read_ptr_append]
    simp only [zero_add] at hlt
    unfold integer at *
    omega
  · apply List.map_congr_left
    intro k _
    have hY : (0 : Int) ≤ (k : Int) * st := by positivity
    simp only [Function.comp]
    rw [spline_at]
    apply cubic_spline_sample_congr _ _ _ _ hpre rfl
    · have e : ((n + k : Nat) : Int) * st = n * st + k * st := by push_cast; ring
      rw [e]
      unfold fraction
      omega
    · intro t ht0 ht3
      simp only
      have hdrop : G.drop (integer (n * st)).toNat ++ ys
          = (G ++ ys).drop (integer (n * st)).toNat := by
        rw [List.drop_append_of_le_length]
        unfold integer at *
        omega
      rw [hfifo, hdrop, fifo_read_ptr_drop _ _ _ (by unfold integer fraction; omega)]
      congr 1
      have e : ((n + k : Nat) : Int) * st = n * st + k * st := by push_cast; ring
      rw [e]
      unfold integer fraction at *
      omega

theorem quick_inv_step (env : Env) (shared : rate_shared_t) (st pp : Int) (q : rate_t)
    (xs ys : List sample_t) (n : Nat) (hs : 0 < st) (hpp : 3 ≤ pp) (hip : integer st ≤ pp)
    (hinv : quick_inv st pp q xs n) :
    ∃ (q' : rate_t) (n' : Nat), rate_process env shared (rate_input q ys) = some q'
      ∧ quick_inv st pp q' (xs ++ ys) n' := by
  obtain ⟨hc0, hc⟩ := spline_passes_consumed st pp ((xs.length : Int) + 1) n hs (by omega) hip
    (by omega) hinv.passes
  obtain ⟨hs0, hs1, hi0, ho0⟩ := rate_input_stage_zero q ys hinv.input
  have hX : (0 : Int) ≤ n * st := by positivity
  have hfrac0 : 0 ≤ fraction (n * st) := by unfold fraction; omega
  -- the stage that enters cubic_spline
  have hfifo1 : ((rate_input q ys).stages 0).fifo
      = (0 :: xs).drop (integer (n * st)).toNat ++ ys := by
    rw [hs0]; simp only; rw [hinv.fifo]
  have hpre1 : ((rate_input q ys).stages 0).pre = 1 := by rw [hs0]; exact hinv.pre
  have hpp1 : ((rate_input q ys).stages 0).pre_post = pp := by rw [hs0]; exact hinv.pre_post
  have hst1 : ((rate_input q ys).stages 0).step_all = st := by rw [hs0]; exact hinv.step
  have hat1 : ((rate_input q ys).stages 0).at_all = fraction (n * st) := by
    rw [hs0]; exact hinv.at_all
  have hfn1 : ((rate_input q ys).stages 0).fn = stage_fn_t.cubic_spline := by
    rw [hs0]; exact hinv.fn
  have hratio1 : ((rate_input q ys).stages 0).out_in_ratio
      = MULT32 * ((1 : Int) : ℚ) / (st : ℚ) := by rw [hs0]; exact hinv.ratio
  have hquick : quick_stage ((rate_input q ys).stages 0) := by
    refine ⟨hpre1, by rw [hpp1]; exact hpp, by rw [hst1, hpp1]; exact hip, by rw [hst1]; exact hs,
      by rw [hratio1, hst1], by rw [hat1]; exact hfrac0⟩
  have hlen1 : (((rate_input q ys).stages 0).fifo.length : Int)
      = (xs.length : Int) + ys.length + 1 - integer (n * st) := by
    rw [hfifo1]
    simp only [List.length_append, List.length_drop, List.length_cons]
    omega
  have hocc : stage_occupancy ((rate_input q ys).stages 0)
      = max 0 ((xs.length : Int) + ys.length + 1 - integer (n * st) - pp) := by
    rw [stage_occupancy, fifo_occupancy, hlen1, hpp1]
  obtain ⟨n2, hn2⟩ := spline_passes_exists ((rate_input q ys).stages 0).step_all
    (stage_occupancy ((rate_input q ys).stages 0)) ((rate_input q ys).stages 0).at_all
    (by rw [hst1]; exact hs) (by rw [hat1]; exact hfrac0)
  have hrun := cubic_spline_eq ((rate_input q ys).stages 0) ((rate_input q ys).stages 1).fifo
    n2 hquick hn2
  have hproc := rate_process_quick env shared (rate_input q ys) _ _ hi0
    (by rw [ho0]; exact hinv.output) hfn1 hrun
  rw [hst1, hat1, hocc] at hn2
  have htot : spline_passes st (max 0 (((xs ++ ys).length : Int) + 1 - pp)) 0 (n + n2) := by
    have := spline_passes_append st pp ((xs.length : Int) + 1)
      ((xs.length : Int) + ys.length + 1) n n2 hs hinv.passes hn2 (by omega)
    simpa [List.length_append, add_assoc, add_comm, add_left_comm] using this
  obtain ⟨-, hc2⟩ := spline_passes_consumed st pp (((xs ++ ys).length : Int) + 1) (n + n2) hs
    (by omega) hip (by omega) htot
  have hY : (0 : Int) ≤ (n2 : Int) * st := by positivity
  have esum : ((n + n2 : Nat) : Int) * st = n * st + n2 * st := by push_cast; ring
  refine ⟨_, n + n2, hproc, ?_⟩
  constructor
  · exact hi0
  · rw [← hinv.output]; exact ho0
  · simp only [Function.update_noteq (show (0 : Int) ≠ 1 by norm_num), Function.update_same]
    exact hfn1
  · simp only [Function.update_noteq (show (0 : Int) ≠ 1 by norm_num), Function.update_same]
    exact hpre1
  · simp only [Function.update_noteq (show (0 : Int) ≠ 1 by norm_num), Function.update_same]
    exact hpp1
  · simp only [Function.update_noteq (show (0 : Int) ≠ 1 by norm_num), Function.update_same]
    exact hst1
  · simp only [Function.update_noteq (show (0 : Int) ≠ 1 by norm_num), Function.update_same]
    exact hratio1
  · exact htot
  · simp only [Function.update_noteq (show (0 : Int) ≠ 1 by norm_num), Function.update_same]
    rw [hat1, hst1, fifo_read, fifo_occupancy, hlen1]
    rw [esum] at hc2 ⊢
    simp only [List.length_append] at hc2
    have hle : integer (fraction (n * st) + n2 * st)
        ≤ (xs.length : Int) + ys.length + 1 - integer (n * st) := by
      unfold integer fraction at *
      push_cast at hc2
      omega
    rw [if_pos hle, hfifo1]
    have hdrop : (0 :: xs).drop (integer (n * st)).toNat ++ ys
        = (0 :: xs ++ ys).drop (integer (n * st)).toNat := by
      rw [List.drop_append_of_le_length]
      simp only [List.length_cons]
      omega
    rw [hdrop, List.drop_drop]
    have e : (integer (n * st)).toNat + (integer (fraction (n * st) + n2 * st)).toNat
        = (integer (n * st + n2 * st)).toNat := by
      unfold integer fraction at *
      omega
    rw [add_comm] at e
    simp only [List.cons_append]
    first
      | rw [e]
      | (rw [add_comm] at e; rw [e])
  · simp only [Function.update_noteq (show (0 : Int) ≠ 1 by norm_num), Function.update_same]
    rw [hat1, hst1, esum]
    unfold fraction
    omega
  · simp only [Function.update_same]
    rw [hs1, hinv.out, hat1, hst1]
    have := spline_out_append st (0 :: xs) ys ((rate_input q ys).stages 0) pp n n2 hs hpp hpre1
      (by simp only [List.length_cons]; push_cast; omega) hfifo1
      (by simpa using hinv.passes)
    simpa using this

theorem rate_init_quick_stages (env : Env) (shared : rate_shared_t) (factor : ℚ)
    (interp_order : Int) (phase bandwidth : ℚ) (allow_aliasing : Bool) :
    (rate_init env rate_zero shared factor Quick interp_order phase bandwidth
        allow_aliasing).1.input_stage_num = 0
    ∧ (rate_init env rate_zero shared factor Quick interp_order phase bandwidth
        allow_aliasing).1.output_stage_num = 1
    ∧ (rate_init env rate_zero shared factor Quick interp_order phase bandwidth
        allow_aliasing).1.stages 0
        = { stage_zero with
            fifo := [0], pre := 1, preload := 1,
            pre_post := max 3 (integer (trunc (factor * MULT32 + 1 / 2))),
            fn := stage_fn_t.cubic_spline,
            step_all := trunc (factor * MULT32 + 1 / 2),
            out_in_ratio := MULT32 * ((1 : Int) : ℚ)
              / ((trunc (factor * MULT32 + 1 / 2) : Int) : ℚ) }
    ∧ ((rate_init env rate_zero shared factor Quick interp_order phase bandwidth
        allow_aliasing).1.stages 1).fifo = [] := by
  have hcl : clamp_quality Quick = Quick := by decide
  have hplan : rate_init_planned rate_zero factor Quick
      = { upsample := false, level := 0, factor := factor, divisor := 1 } := by
    rw [rate_init_planned, if_neg (by simp)]
    rfl
  have hentry : rate_init_entry rate_zero shared factor Quick
      = rate_init_step { rate_zero with factor := factor } shared factor 1 := by
    rw [rate_init_entry, hcl, hplan]
    rfl
  have hlast : rate_init_last env (rate_init_entry rate_zero shared factor Quick) Quick
      interp_order = rate_init_quick (rate_init_entry rate_zero shared factor Quick) := by
    rw [rate_init_last, if_pos rfl]
  have hhalf : ∀ st : init_state, rate_init_half env st Quick phase bandwidth allow_aliasing
      = st := by
    intro st
    rw [rate_init_half, if_neg (by decide), if_neg (by simp; intro h; exact absurd h (by decide))]
  have hlev0 : (rate_init_quick (rate_init_entry rate_zero shared factor Quick)).p.level = 0 := by
    rw [(rate_init_quick_p _).1, hentry, (rate_init_step_p _ _ _ _).1]
    rfl
  have hstages : rate_init_stages env rate_zero shared factor Quick interp_order phase
      bandwidth allow_aliasing
      = rate_init_quick (rate_init_entry rate_zero shared factor Quick) := by
    rw [rate_init_stages, hcl, hlast, hhalf, rate_init_level_of_le _ (by rw [hlev0])]
  have hin : (rate_init_quick (rate_init_entry rate_zero shared factor Quick)).p.input_stage_num
      = 0 := by
    rw [(rate_init_quick_p _).2.2.1, hentry, (rate_init_step_p _ _ _ _).2.2.1]
    simp [b2i, rate_zero]
  have hout : (rate_init_quick (rate_init_entry rate_zero shared factor Quick)).p.output_stage_num
      = 1 := by
    rw [(rate_init_quick_p _).2.2.2, hentry, (rate_init_step_p _ _ _ _).2.2.2]
    rfl
  have hst0 : (rate_init_quick (rate_init_entry rate_zero shared factor Quick)).p.stages 0
      = { stage_zero with
            pre := 1, preload := 1,
            pre_post := max 3 (integer (trunc (factor * MULT32 + 1 / 2))),
            fn := stage_fn_t.cubic_spline,
            step_all := trunc (factor * MULT32 + 1 / 2),
            out_in_ratio := MULT32 * ((1 : Int) : ℚ)
              / ((trunc (factor * MULT32 + 1 / 2) : Int) : ℚ) } := by
    rw [hentry]
    simp [rate_init_quick, rate_init_step, set_stage, rate_zero]
  have hst1 : (rate_init_quick (rate_init_entry rate_zero shared factor Quick)).p.stages 1
      = stage_zero := by
    rw [hentry]
    simp [rate_init_quick, rate_init_step, set_stage, rate_zero]
  rw [rate_init]
  dsimp only
  rw [hstages]
  refine ⟨?_, ?_, ?_, ?_⟩
  · rw [(rate_init_fifos_same_plan env _ _ _).2.1, hin]
  · rw [(rate_init_fifos_same_plan env _ _ _).2.2.1, hout]
  · rw [rate_init_fifos_stages env _ _ _ _ (by rw [hlev0]; norm_num), hin, hout,
      if_pos (by decide), hst0]
    rfl
  · rw [rate_init_fifos_stages env _ _ _ _ (by rw [hlev0]; norm_num), hin, hout,
      if_pos (by decide), hst1]
    rfl

theorem quick_inv_init (env : Env) (shared : rate_shared_t) (factor : ℚ)
    (interp_order : Int) (phase bandwidth : ℚ) (allow_aliasing : Bool) :
    quick_inv (trunc (factor * MULT32 + 1 / 2))
      (max 3 (integer (trunc (factor * MULT32 + 1 / 2))))
      (rate_init env rate_zero shared factor Quick interp_order phase bandwidth
        allow_aliasing).1 [] 0 := by
  obtain ⟨h1, h2, h3, h4⟩ := rate_init_quick_stages env shared factor interp_order phase
    bandwidth allow_aliasing
  constructor
  · exact h1
  · exact h2
  · rw [h3]
  · rw [h3]
  · rw [h3]
  · rw [h3]
  · rw [h3]
  · constructor
    · intro k hk; omega
    · simp only [List.length_nil, Nat.cast_zero, zero_add, zero_mul]
      rw [lt_max_iff]
      have : (3 : Int) ≤ max 3 (integer (trunc (factor * MULT32 + 1 / 2))) := le_max_left _ _
      unfold integer at *
      omega
  · rw [h3]
    simp [integer]
  · rw [h3]
    simp [fraction, stage_zero]
  · rw [h4]
    simp

theorem quick_inv_stream (env : Env) (shared : rate_shared_t) (st pp : Int) (hs : 0 < st)
    (hpp : 3 ≤ pp) (hip : integer st ≤ pp) :
    ∀ (chunks : List (List sample_t)) (q : rate_t) (xs : List sample_t) (n : Nat),
      quick_inv st pp q xs n →
      ∃ (q' : rate_t) (n' : Nat), rate_stream env shared q chunks = some q'
        ∧ quick_inv st pp q' (xs ++ chunks.flatten) n' := by
  intro chunks
  induction chunks with
  | nil =>
    intro q xs n hinv
    exact ⟨q, n, rfl, by simpa using hinv⟩
  | cons c cs ih =>
    intro q xs n hinv
    obtain ⟨q1, n1, hproc, hinv1⟩ := quick_inv_step env shared st pp q xs c n hs hpp hip hinv
    obtain ⟨q2, n2, hstream, hinv2⟩ := ih q1 (xs ++ c) n1 hinv1
    refine ⟨q2, n2, ?_, by simpa using hinv2⟩
    rw [rate_stream, hproc]
    exact hstream

theorem quick_inv_unique (st pp : Int) (q q' : rate_t) (xs : List sample_t) (n n' : Nat)
    (h : quick_inv st pp q xs n) (h' : quick_inv st pp q' xs n') :
    n = n' ∧ (q.stages 1).fifo = (q'.stages 1).fifo ∧ (q.stages 0).fifo = (q'.stages 0).fifo
      ∧ (q.stages 0).at_all = (q'.stages 0).at_all := by
  have hn := spline_passes_unique _ _ _ n n' h.passes h'.passes
  subst hn
  exact ⟨rfl, by rw [h.out, h'.out], by rw [h.fifo, h'.fifo], by rw [h.at_all, h'.at_all]⟩

theorem spline_at_integer (G : fifo_t) (j : Nat) :
    spline_at G ((j : Int) * 4294967296) = G.getD (1 + j) 0 := by
  have hi : integer ((j : Int) * 4294967296) = j := by unfold integer; omega
  have hf : fraction ((j : Int) * 4294967296) = 0 := by unfold fraction; omega
  rw [spline_at, cubic_spline_sample]
  simp only [hi, hf, Int.cast_zero, zero_mul, mul_zero, zero_add, add_zero]
  rw [stage_read_p, fifo_read_ptr, if_pos (by simp only; omega)]
  simp only
  congr 1

/-- C7: after rate_init on a zero-initialised pipeline, for every factor > 0, quality and
interp_order, input_stage_num <= 0 <= level <= output_stage_num; and rate_input,
rate_process, rate_output and rate_flush leave level and the two stage indices as they
are. -/
theorem stage_indices_invariant (env : Env) (shared : rate_shared_t) (factor : ℚ)
    (quality interp_order : Int) (phase bandwidth : ℚ) (allow_aliasing : Bool)
    (hfactor : 0 < factor) :
    ((rate_init env rate_zero shared factor quality interp_order phase bandwidth
        allow_aliasing).1.input_stage_num ≤ 0
      ∧ 0 ≤ (rate_init env rate_zero shared factor quality interp_order phase bandwidth
        allow_aliasing).1.level
      ∧ (rate_init env rate_zero shared factor quality interp_order phase bandwidth
        allow_aliasing).1.level
        ≤ (rate_init env rate_zero shared factor quality interp_order phase bandwidth
        allow_aliasing).1.output_stage_num)
    ∧ (∀ (p : rate_t) (samples : List sample_t), same_plan p (rate_input p samples))
    ∧ (∀ (sh : rate_shared_t) (p q : rate_t), rate_process env sh p = some q → same_plan p q)
    ∧ (∀ (p : rate_t) (n : Nat), same_plan p (rate_output p n).1)
    ∧ (∀ (sh : rate_shared_t) (fuel : Nat) (p q : rate_t),
        rate_flush env sh fuel p = some q → same_plan p q) := by
  have _ := hfactor
  exact ⟨rate_init_indices env rate_zero shared factor quality interp_order phase bandwidth
      allow_aliasing (le_refl 0),
    rate_input_same_plan, rate_process_same_plan env, rate_output_same_plan,
    rate_flush_same_plan env⟩

/-- Instance of the stage index invariant: factor 2, quality High, where the plan has level 1 and output stage 1. -/
theorem stage_indices_invariant_witness :
    (0 : ℚ) < 2
    ∧ ((rate_init env_small rate_zero shared_zero 2 High (-1) 50 0 false).1.input_stage_num ≤ 0
      ∧ 0 ≤ (rate_init env_small rate_zero shared_zero 2 High (-1) 50 0 false).1.level
      ∧ (rate_init env_small rate_zero shared_zero 2 High (-1) 50 0 false).1.level
        ≤ (rate_init env_small rate_zero shared_zero 2 High (-1) 50 0 false).1.output_stage_num)
    ∧ (rate_init env_small rate_zero shared_zero 2 High (-1) 50 0 false).1.output_stage_num = 1 :=
  ⟨by norm_num,
   (stage_indices_invariant env_small shared_zero 2 High (-1) 50 0 false (by norm_num)).1,
   by decide!⟩

/-- C8: when the slot which of the shared block already has num_taps set (non-zero), a
further half_band_filter_init on that slot, whatever its other arguments, returns the
shared block unchanged. -/
theorem half_band_filter_init_idempotent (env : Env) (p : rate_shared_t) (which : Fin 2)
    (num_taps : Int) (h : Option (List sample_t)) (Fp att : ℚ) (multiplier : Int) (phase : ℚ)
    (allow_aliasing : Bool) (hset : (p.half_band which).num_taps ≠ 0) :
    half_band_filter_init env p which num_taps h Fp att multiplier phase allow_aliasing = p := by
  unfold half_band_filter_init
  simp [hset]

/-- Instance of the idempotence of half_band_filter_init: slot 0 of shared_set is set, and a call with other taps and parameters returns shared_set. -/
theorem half_band_filter_init_idempotent_witness :
    (shared_set.half_band 0).num_taps ≠ 0
    ∧ half_band_filter_init env_small shared_set 0 5 (some [1, 2, 3]) (1 / 2) 100 2 25 true
        = shared_set :=
  ⟨by decide,
   half_band_filter_init_idempotent env_small shared_set 0 5 (some [1, 2, 3]) (1 / 2) 100 2 25
     true (by decide)⟩

/-- C9, as stated, fails: after four samples went through the identity pipeline and were
read, target equals samples_out, rate_flush skips its guarded block and samples_in is
still 4. -/
theorem rate_flush_keeps_samples_in :
    identity_drained.samples_in = 4 ∧ identity_drained.samples_out = 4
    ∧ (rate_flush env_small shared_zero 8 identity_drained).map (fun q => q.samples_in)
        = some 4 := by
  decide!

/-- C9, amended: a call of rate_flush that finds (int)remaining > 0 and returns leaves
samples_in = 0; a call that finds (int)remaining <= 0 returns the pipeline unchanged. -/
theorem rate_flush_samples_in (env : Env) (shared : rate_shared_t) (fuel : Nat) (p : rate_t) :
    (0 < to_int (flush_remaining p) → (rate_flush env shared fuel p).isSome = true →
      (rate_flush env shared fuel p).map (fun q => q.samples_in) = some 0)
    ∧ (to_int (flush_remaining p) ≤ 0 → rate_flush env shared fuel p = some p) := by
  constructor
  · intro hpos hsome
    rw [rate_flush] at hsome ⊢
    dsimp only at hsome ⊢
    rw [if_pos hpos] at hsome ⊢
    cases hloop : rate_flush_loop env shared (flush_remaining p) fuel p with
    | none => rw [hloop] at hsome; simp at hsome
    | some r => rfl
  · intro hle
    rw [rate_flush]
    dsimp only
    rw [if_neg (by omega)]

/-- Instances of both branches of rate_flush: identity_fed has four samples due and is reset, identity_drained has none due and is returned as it is. -/
theorem rate_flush_samples_in_witness :
    (0 < to_int (flush_remaining identity_fed)
      ∧ (rate_flush env_small shared_zero 0 identity_fed).isSome = true
      ∧ (rate_flush env_small shared_zero 0 identity_fed).map (fun q => q.samples_in) = some 0)
    ∧ (to_int (flush_remaining identity_drained) ≤ 0
      ∧ rate_flush env_small shared_zero 0 identity_drained = some identity_drained) :=
  ⟨⟨by decide!, by decide!,
    (rate_flush_samples_in env_small shared_zero 0 identity_fed).1 (by decide!) (by decide!)⟩,
   ⟨by decide!,
    (rate_flush_samples_in env_small shared_zero 0 identity_drained).2 (by decide!)⟩⟩

/-- C10: for factor >= 1 with floor(factor) < 2^30 the shift loop of rate_init leaves
level = k with 2^k <= factor < 2^(k+1), and the residual that enters the rational search is
factor / 2^(k+1), in [1/2, 1); for factor in (0, 1) it leaves level = 0, upsample = true
and the residual equal to factor.  With a non-Quick quality this level is the one
rate_init returns. -/
theorem plan_level_residual (factor : ℚ) :
    (1 ≤ factor → trunc factor < 2 ^ 30 →
      ∃ k : Nat, plan_level factor = k ∧ (2 : ℚ) ^ k ≤ factor ∧ factor < 2 ^ (k + 1)
        ∧ plan_residual factor = factor / 2 ^ (k + 1)
        ∧ 1 / 2 ≤ plan_residual factor ∧ plan_residual factor < 1)
    ∧ (0 < factor → factor < 1 →
      plan_level factor = 0 ∧ plan_upsample factor = true ∧ plan_residual factor = factor)
    ∧ (∀ (env : Env) (p : rate_t) (shared : rate_shared_t) (quality interp_order : Int)
        (phase bandwidth : ℚ) (allow_aliasing : Bool), clamp_quality quality ≠ Quick →
        (rate_init env p shared factor quality interp_order phase bandwidth
          allow_aliasing).1.level = plan_level factor) := by
  refine ⟨?_, ?_, ?_⟩
  · intro h1 _
    obtain ⟨k, hk, hlo, hhi⟩ := plan_level_spec factor h1
    have hres := plan_residual_ge_one factor h1 k hk
    have hpos : (0 : ℚ) < 2 ^ (k + 1) := by positivity
    refine ⟨k, hk, hlo, hhi, hres, ?_, ?_⟩
    · rw [hres, le_div_iff₀ hpos]
      have : (2 : ℚ) ^ (k + 1) = 2 * 2 ^ k := by ring
      rw [this]; linarith
    · rw [hres, div_lt_one hpos]
      exact hhi
  · intro h0 h1
    exact ⟨plan_level_lt_one factor h0 h1, by simp [plan_upsample, h1],
      plan_residual_lt_one factor h0 h1⟩
  · intro env p shared quality interp_order phase bandwidth allow_aliasing hq
    exact rate_init_level_eq env p shared factor quality interp_order phase bandwidth
      allow_aliasing hq

/-- Instances of the shift loop: factor 5 gives level 2 and residual 5/8, factor 3/4 gives level 0, upsample and residual 3/4. -/
theorem plan_level_residual_witness :
    ((1 : ℚ) ≤ 5 ∧ trunc 5 < 2 ^ 30
      ∧ ∃ k : Nat, plan_level 5 = k ∧ (2 : ℚ) ^ k ≤ 5 ∧ (5 : ℚ) < 2 ^ (k + 1)
        ∧ plan_residual 5 = 5 / 2 ^ (k + 1)
        ∧ 1 / 2 ≤ plan_residual 5 ∧ plan_residual 5 < 1)
    ∧ ((0 : ℚ) < 3 / 4 ∧ (3 / 4 : ℚ) < 1
      ∧ plan_level (3 / 4) = 0 ∧ plan_upsample (3 / 4) = true
      ∧ plan_residual (3 / 4) = 3 / 4)
    ∧ plan_level 5 = 2 :=
  ⟨⟨by norm_num, by decide!, (plan_level_residual 5).1 (by norm_num) (by decide!)⟩,
   ⟨by norm_num, by norm_num, (plan_level_residual (3 / 4)).2.1 (by norm_num) (by norm_num)⟩,
   by decide!⟩

theorem clamp_quality_ne_quick (quality : Int) (hq : quality ≠ Quick) :
    clamp_quality quality ≠ Quick := by
  rw [clamp_quality]
  split_ifs
  · decide
  · exact hq

theorem rate_init_step_last (p : rate_t) (shared : rate_shared_t) (factor : ℚ) (divisor : Int) :
    (rate_init_step p shared factor divisor).p.stages p.level
      = { stage_zero with
          step_all := trunc (factor * MULT32 + 1 / 2),
          out_in_ratio := MULT32 * divisor / ((trunc (factor * MULT32 + 1 / 2) : Int) : ℚ) } := by
  simp [rate_init_step, set_stage]

/-- C2: for factor = 1 and a quality other than Quick, rate_init plans the identity:
input_stage_num = output_stage_num = 0, and stage 0 has preload 0 and an empty FIFO; on
such a pipeline rate_process runs no kernel, rate_input appends to the FIFO that
rate_output reads from the front, so the samples returned are the samples passed in, in
order. -/
theorem unity_plan_is_identity (env : Env) (p : rate_t) (shared : rate_shared_t)
    (quality interp_order : Int) (phase bandwidth : ℚ) (allow_aliasing : Bool)
    (hq : quality ≠ Quick) :
    (rate_init env p shared 1 quality interp_order phase bandwidth
        allow_aliasing).1.input_stage_num = 0
    ∧ (rate_init env p shared 1 quality interp_order phase bandwidth
        allow_aliasing).1.output_stage_num = 0
    ∧ ((rate_init env p shared 1 quality interp_order phase bandwidth
        allow_aliasing).1.stages 0).preload = 0
    ∧ ((rate_init env p shared 1 quality interp_order phase bandwidth
        allow_aliasing).1.stages 0).fifo = []
    ∧ (∀ (sh : rate_shared_t) (q : rate_t), q.output_stage_num = q.input_stage_num →
        rate_process env sh q = some q)
    ∧ (∀ (samples : List sample_t) (n : Nat), samples.length ≤ n →
        (rate_output (rate_input (rate_init env p shared 1 quality interp_order phase
          bandwidth allow_aliasing).1 samples) n).2.1 = samples
        ∧ (rate_output (rate_input (rate_init env p shared 1 quality interp_order phase
          bandwidth allow_aliasing).1 samples) n).2.2 = samples.length)
    ∧ (∀ (q : rate_t) (samples : List sample_t) (n : Nat),
        q.output_stage_num = q.input_stage_num →
        (rate_output (rate_input q samples) n).2.1
          = ((q.stages q.input_stage_num).fifo ++ samples).take n
        ∧ ((rate_output (rate_input q samples) n).1.stages q.input_stage_num).fifo
          = ((q.stages q.input_stage_num).fifo ++ samples).drop n) := by
  obtain ⟨h1, h2, h3⟩ := rate_init_one env p shared quality interp_order phase bandwidth
    allow_aliasing (clamp_quality_ne_quick quality hq)
  have hqueue : ∀ (q : rate_t) (samples : List sample_t) (n : Nat),
      q.output_stage_num = q.input_stage_num →
      (rate_output (rate_input q samples) n).2.1
        = ((q.stages q.input_stage_num).fifo ++ samples).take n
      ∧ ((rate_output (rate_input q samples) n).1.stages q.input_stage_num).fifo
        = ((q.stages q.input_stage_num).fifo ++ samples).drop n := by
    intro q samples n hio
    obtain ⟨a, -, c⟩ := rate_output_samples (rate_input q samples) n
    have ho : (rate_input q samples).output_stage_num = q.input_stage_num := by
      rw [(rate_input_same_plan q samples).2.2.1, hio]
    rw [ho, rate_input_fifo] at a c
    exact ⟨a, c⟩
  refine ⟨h1, h2, by rw [h3]; rfl, by rw [h3]; rfl,
    fun sh q h => rate_process_no_stage env sh q h, ?_, hqueue⟩
  intro samples n hn
  obtain ⟨a, b, -⟩ := rate_output_samples (rate_input (rate_init env p shared 1 quality
    interp_order phase bandwidth allow_aliasing).1 samples) n
  have ho : (rate_input (rate_init env p shared 1 quality interp_order phase bandwidth
      allow_aliasing).1 samples).output_stage_num
      = (rate_init env p shared 1 quality interp_order phase bandwidth
      allow_aliasing).1.input_stage_num := by
    rw [(rate_input_same_plan _ samples).2.2.1, h1, h2]
  rw [ho, rate_input_fifo, h1, h3] at a b
  rw [a, b]
  simp [stage_zero, List.take_of_length_le hn, hn]

/-- Instance of the identity plan: factor 1, quality High, five samples in and the same five out. -/
theorem unity_plan_is_identity_witness :
    High ≠ Quick
    ∧ (rate_init env_small rate_zero shared_zero 1 High (-1) 50 0 false).1.input_stage_num = 0
    ∧ (rate_init env_small rate_zero shared_zero 1 High (-1) 50 0 false).1.output_stage_num = 0
    ∧ (rate_output (rate_input (rate_init env_small rate_zero shared_zero 1 High (-1) 50 0
        false).1 [3, 1, 4, 1, 5]) 8).2.1 = [3, 1, 4, 1, 5] :=
  ⟨by decide,
   (unity_plan_is_identity env_small rate_zero shared_zero High (-1) 50 0 false (by decide)).1,
   (unity_plan_is_identity env_small rate_zero shared_zero High (-1) 50 0 false
     (by decide)).2.1,
   ((unity_plan_is_identity env_small rate_zero shared_zero High (-1) 50 0 false
     (by decide)).2.2.2.2.2.1 [3, 1, 4, 1, 5] 8 (by decide)).1⟩

/-- C4, as stated, fails: for factor = 44100/48000 the planner ends with divisor 160, not
147 (147 is the integer factor). -/
theorem rational_snap_divisor_not_147 :
    (rate_init_plan (44100 / 48000)).divisor ≠ 147
    ∧ ((rate_init env_small rate_zero shared_zero (44100 / 48000) High (-1) 50 0
        false).1.stages 0).divisor ≠ 147 := by
  decide!

/-- C4, amended: for factor = 44100/48000 and a non-Quick quality the planner ends with
divisor = 160 and the integer factor 147, so that the last stage (level 0) has divisor
160, step = 147 * 2^32 and out_in_ratio = 2^32 * 160 / step = 48000/44100 exactly. -/
theorem rational_snap_441_480 (env : Env) (p : rate_t) (shared : rate_shared_t)
    (quality interp_order : Int) (phase bandwidth : ℚ) (allow_aliasing : Bool)
    (hq : quality ≠ Quick) :
    (rate_init_plan (44100 / 48000)).divisor = 160
    ∧ (rate_init_plan (44100 / 48000)).factor = 147
    ∧ (rate_init env p shared (44100 / 48000) quality interp_order phase bandwidth
        allow_aliasing).1.level = 0
    ∧ ((rate_init env p shared (44100 / 48000) quality interp_order phase bandwidth
        allow_aliasing).1.stages 0).divisor = 160
    ∧ ((rate_init env p shared (44100 / 48000) quality interp_order phase bandwidth
        allow_aliasing).1.stages 0).step_all = 147 * 4294967296
    ∧ ((rate_init env p shared (44100 / 48000) quality interp_order phase bandwidth
        allow_aliasing).1.stages 0).out_in_ratio = 48000 / 44100
    ∧ MULT32 * 160 / ((147 * 4294967296 : Int) : ℚ) = 48000 / 44100 := by
  obtain ⟨a, b, c, d⟩ := rate_init_441_480 env p shared quality interp_order phase bandwidth
    allow_aliasing (clamp_quality_ne_quick quality hq)
  refine ⟨by rw [rate_init_plan_441_480], by rw [rate_init_plan_441_480], a, b, c, d, ?_⟩
  decide!

/-- Instance of the rational snap: quality Very, divisor 160 and out_in_ratio 48000/44100 in the last stage. -/
theorem rational_snap_441_480_witness :
    Very ≠ Quick
    ∧ ((rate_init env_small rate_zero shared_zero (44100 / 48000) Very (-1) 50 0
        false).1.stages 0).divisor = 160
    ∧ ((rate_init env_small rate_zero shared_zero (44100 / 48000) Very (-1) 50 0
        false).1.stages 0).out_in_ratio = 48000 / 44100 :=
  ⟨by decide,
   (rational_snap_441_480 env_small rate_zero shared_zero Very (-1) 50 0 false
     (by decide)).2.2.2.1,
   (rational_snap_441_480 env_small rate_zero shared_zero Very (-1) 50 0 false
     (by decide)).2.2.2.2.2.1⟩

/-- C6: for every factor > 0 with floor(factor) < 2^30 and every non-Quick quality, at
the point of the two step assertions of rate_init, in exact arithmetic: when divisor is 1
the step of the last stage lies in [0, 2^32), so its integer part is 0, and when divisor
is not 1 the step is a positive multiple of 2^32, so its fraction part is 0; hence
neither assertion fails. -/
theorem step_assertions_hold (p : rate_t) (shared : rate_shared_t) (factor : ℚ)
    (quality : Int) (h0 : 0 < factor) (hfl : trunc factor < 2 ^ 30) (hq : quality ≠ Quick) :
    step_assert (clamp_quality quality) (rate_init_entry p shared factor quality).divisor
      ((rate_init_entry p shared factor quality).p.stages
        (rate_init_entry p shared factor quality).p.level).step_all
    ∧ ((rate_init_entry p shared factor quality).divisor = 1 →
        integer ((rate_init_entry p shared factor quality).p.stages
          (rate_init_entry p shared factor quality).p.level).step_all = 0
        ∧ ((rate_init_entry p shared factor quality).p.stages
          (rate_init_entry p shared factor quality).p.level).step_all
            = trunc (plan_residual factor * MULT32 + 1 / 2)
        ∧ ((rate_init_entry p shared factor quality).p.stages
          (rate_init_entry p shared factor quality).p.level).step_all < 4294967296)
    ∧ ((rate_init_entry p shared factor quality).divisor ≠ 1 →
        fraction ((rate_init_entry p shared factor quality).p.stages
          (rate_init_entry p shared factor quality).p.level).step_all = 0) := by
  have _ := hfl
  have hq' := clamp_quality_ne_quick quality hq
  have hplan : rate_init_planned p factor (clamp_quality quality) = rate_init_plan factor := by
    rw [rate_init_planned, if_pos hq']
  obtain ⟨l1, -⟩ := rate_init_entry_p p shared factor quality
  have hdiv : (rate_init_entry p shared factor quality).divisor
      = (rate_init_plan factor).divisor := by
    rw [rate_init_entry, hplan]; rfl
  have hstep : ((rate_init_entry p shared factor quality).p.stages
      (rate_init_entry p shared factor quality).p.level).step_all
      = trunc ((rate_init_plan factor).factor * MULT32 + 1 / 2) := by
    rw [l1]
    rw [rate_init_entry, hplan]
    rw [rate_init_step_last]
  obtain ⟨ha, hb⟩ := plan_step_assert factor h0
  rw [hdiv, hstep]
  have hint : (rate_init_plan factor).divisor = 1 →
      integer (trunc ((rate_init_plan factor).factor * MULT32 + 1 / 2)) = 0 := by
    intro hd
    obtain ⟨h1, h2⟩ := ha hd
    rw [integer]
    omega
  have hfrac : (rate_init_plan factor).divisor ≠ 1 →
      fraction (trunc ((rate_init_plan factor).factor * MULT32 + 1 / 2)) = 0 := by
    intro hd
    obtain ⟨n, -, hn⟩ := hb hd
    rw [hn, fraction]
    omega
  refine ⟨?_, ?_, hfrac⟩
  · rw [step_assert]
    split_ifs with h1
    · exact hfrac h1
    · exact hint (not_not.mp h1)
  · intro hd
    refine ⟨hint hd, ?_, (ha hd).2⟩
    have hg := search_loop_start_good (plan_residual factor) (plan_upsample factor)
    rw [rate_init_plan] at hd ⊢
    dsimp only at hd ⊢
    rcases hg with ⟨-, hf, -⟩ | ⟨hne, -⟩
    · rw [hf]
    · exact absurd hd hne

/-- Instances of the step assertions: 44100/48000 takes divisor 160, 3/7 takes divisor 7, and 1/3 + 10^-6 keeps divisor 1. -/
theorem step_assertions_hold_witness :
    ((0 : ℚ) < 44100 / 48000 ∧ trunc (44100 / 48000) < 2 ^ 30 ∧ High ≠ Quick
      ∧ step_assert (clamp_quality High)
          (rate_init_entry rate_zero shared_zero (44100 / 48000) High).divisor
          ((rate_init_entry rate_zero shared_zero (44100 / 48000) High).p.stages
            (rate_init_entry rate_zero shared_zero (44100 / 48000) High).p.level).step_all)
    ∧ (rate_init_entry rate_zero shared_zero (44100 / 48000) High).divisor = 160
    ∧ (rate_init_entry rate_zero shared_zero (3 / 7) High).divisor = 7
    ∧ (rate_init_entry rate_zero shared_zero (1 / 3 + 1 / 1000000) High).divisor = 1 :=
  ⟨⟨by norm_num, by decide!, by decide,
    (step_assertions_hold rate_zero shared_zero (44100 / 48000) High (by norm_num)
      (by decide!) (by decide)).1⟩,
   by decide!, by decide!, by decide!⟩

theorem quick_flush_returns (env : Env) (shared : rate_shared_t) (st pp : Int) (q : rate_t)
    (xs : List sample_t) (n n2 R : Nat) (hs : 0 < st) (hpp : 3 ≤ pp) (hip : integer st ≤ pp)
    (hinv : quick_inv st pp q xs n) (hrem : flush_remaining q = R) (hn : n < R)
    (hR : R < 2147483648)
    (hpass : spline_passes st (max 0 (((xs.length + 1024 : Nat) : Int) + 1 - pp)) 0 n2)
    (hn2 : R ≤ n2) :
    ∃ r : rate_t, rate_flush env shared 1 q = some r
      ∧ fifo_occupancy (r.stages r.output_stage_num).fifo = R := by
  obtain ⟨q2, m, hp2, hinv2⟩ := quick_inv_step env shared st pp q xs (List.replicate 1024 0) n
    hs hpp hip hinv
  have hpass2 := hinv2.passes
  rw [List.length_append, List.length_replicate] at hpass2
  have hm : m = n2 := spline_passes_unique _ _ _ _ _ hpass2 hpass
  subst hm
  have hocc1 : (fifo_occupancy (q.stages q.output_stage_num).fifo).toNat = n := by
    rw [hinv.output, hinv.out, fifo_occupancy, List.length_map, List.length_range,
      Int.toNat_ofNat]
  have hlen2 : (q2.stages q2.output_stage_num).fifo.length = m := by
    rw [hinv2.output, hinv2.out, List.length_map, List.length_range]
  have hocc2 : (fifo_occupancy (q2.stages q2.output_stage_num).fifo).toNat = m := by
    rw [fifo_occupancy, hlen2, Int.toNat_ofNat]
  have hloop : rate_flush_loop env shared R 1 q = some q2 := by
    rw [rate_flush_loop, if_pos (by rw [hocc1]; exact hn), hp2]
    dsimp only
    rw [rate_flush_loop, if_neg (by rw [hocc2]; omega)]
  have hto := to_int_small R hR
  have hpos : to_int R > 0 := by
    rw [hto]
    exact_mod_cast (Nat.zero_lt_of_lt hn)
  rw [rate_flush]
  dsimp only
  rw [hrem, if_pos hpos, hloop]
  refine ⟨_, rfl, ?_⟩
  simp only [set_stage_output_stage_num, set_stage_stages_same, fifo_trim_to,
    fifo_occupancy, hto, Int.toNat_ofNat, List.length_take, hlen2]
  rw [min_eq_left hn2]

theorem quick_ramp_flush :
    ∃ r : rate_t, rate_flush env_small shared_zero 1 quick_ramp_processed = some r
      ∧ fifo_occupancy (r.stages r.output_stage_num).fifo = (8 : Nat) := by
  have hinit := quick_inv_init env_small shared_zero 2 (-1) 50 0 false
  have hst : trunc ((2 : ℚ) * MULT32 + 1 / 2) = 8589934592 := by decide!
  have hpp : max 3 (integer 8589934592) = 3 := by decide
  rw [hst, hpp] at hinit
  obtain ⟨q1, n1, hp1, hinv1⟩ := quick_inv_step env_small shared_zero 8589934592 3 _ []
    [0, 1, 2, 3, 4, 5, 6, 7, 8, 9, 10, 11, 12, 13, 14, 15] 0 (by decide) (by decide)
    (by decide) hinit
  rw [List.nil_append] at hinv1
  have hq : quick_ramp_processed = q1 := by
    rw [quick_ramp_processed, hp1]
    rfl
  have hn1 : n1 = 7 := spline_passes_unique _ _ _ _ _ hinv1.passes
    (spline_passes_of_bounds 8589934592 _ 0 7 (by decide) (by decide) (by decide))
  subst hn1
  rw [hq]
  exact quick_flush_returns env_small shared_zero 8589934592 3 q1 _ 7 519 8 (by decide)
    (by decide) (by decide) hinv1 (by rw [← hq]; decide!) (by decide) (by decide)
    (spline_passes_of_bounds 8589934592 _ 0 519 (by decide) (by decide) (by decide))
    (by decide)

theorem quick_ramp_flush_returns :
    (rate_flush env_small shared_zero 1 quick_ramp_processed).isSome = true := by
  obtain ⟨r, hr, -⟩ := quick_ramp_flush
  rw [hr]
  rfl

theorem quick_round_flush :
    ∃ r : rate_t, rate_flush env_small shared_zero 1 quick_round_processed = some r
      ∧ fifo_occupancy (r.stages r.output_stage_num).fifo = (3 : Nat) := by
  have hinit := quick_inv_init env_small shared_zero (3602879701896397 / 562949953421312)
    (-1) 50 0 false
  have hst : trunc ((3602879701896397 / 562949953421312 : ℚ) * MULT32 + 1 / 2)
      = 27487790694 := by decide!
  have hpp : max 3 (integer 27487790694) = 6 := by decide
  rw [hst, hpp] at hinit
  obtain ⟨q1, n1, hp1, hinv1⟩ := quick_inv_step env_small shared_zero 27487790694 6 _ []
    [1, 1, 1, 1, 1, 1, 1, 1, 1, 1, 1, 1, 1, 1, 1, 1] 0 (by decide) (by decide)
    (by decide) hinit
  rw [List.nil_append] at hinv1
  have hq : quick_round_processed = q1 := by
    rw [quick_round_processed, hp1]
    rfl
  have hn1 : n1 = 2 := spline_passes_unique _ _ _ _ _ hinv1.passes
    (spline_passes_of_bounds 27487790694 _ 0 2 (by decide) (by decide) (by decide))
  subst hn1
  rw [hq]
  exact quick_flush_returns env_small shared_zero 27487790694 6 q1 _ 2 162 3 (by decide)
    (by decide) (by decide) hinv1 (by rw [← hq]; decide!) (by decide) (by decide)
    (spline_passes_of_bounds 27487790694 _ 0 162 (by decide) (by decide) (by decide))
    (by decide)

/-- C1, as stated, fails, in two ways.  In a Quick pipeline for factor 2^-31 that was fed
one sample, target = 2^31 exceeds samples_out = 0 and rate_flush returns, but the cast
(int)remaining is negative, the guarded block is skipped and the output FIFO holds 0
samples, not 2^31.  In a Quick pipeline for the double factor 6.4 that was fed 16 samples
and processed, the output FIFO holds 2 samples and floor(samples_in / factor + 1/2) = 2,
but the quotient rounds up to 2.5 in doubles, the sum is 3.0, rate_flush feeds zeros and
leaves 3 samples in the output FIFO, not 2. -/
theorem rate_flush_int_cast_skips :
    (flush_round quick_tiny_fed = 2147483648 ∧ quick_tiny_fed.samples_out = 0
      ∧ (rate_flush env_small shared_zero 4 quick_tiny_fed).map
          (fun q => fifo_occupancy (q.stages q.output_stage_num).fifo) = some 0)
    ∧ (flush_round quick_round_processed = 2 ∧ quick_round_processed.samples_out = 0
      ∧ quick_round_processed.samples_in = 16
      ∧ fifo_occupancy (quick_round_processed.stages 1).fifo = 2
      ∧ flush_target quick_round_processed = 3
      ∧ (rate_flush env_small shared_zero 1 quick_round_processed).map
          (fun q => fifo_occupancy (q.stages q.output_stage_num).fifo) = some 3) := by
  refine ⟨by decide!, by decide!, by decide!, by decide!, by decide!, by decide!, ?_⟩
  obtain ⟨r, hr, hocc⟩ := quick_round_flush
  rw [hr, Option.map_some', hocc]
  rfl

/-- C1, amended: target is the value that rate_flush computes for its local samples_out,
samples_in / factor + .5 evaluated in doubles and converted to size_t (flush_target).
When target exceeds samples_out by less than 2^31 and rate_flush returns, the FIFO of the
output stage holds exactly target - samples_out samples; a following rate_output asking
for at least that many returns exactly that many and leaves samples_out = target.
Whenever the conversion of samples_in, the quotient and the sum are exact in doubles (and
the sum fits a size_t), target is floor(samples_in / factor + 1/2). -/
theorem rate_flush_fills_target (env : Env) (shared : rate_shared_t) (fuel : Nat) (p : rate_t)
    (hret : (rate_flush env shared fuel p).isSome = true)
    (hgt : p.samples_out < flush_target p)
    (hint : (flush_target p : Int) - p.samples_out < 2147483648) :
    (∃ q : rate_t, rate_flush env shared fuel p = some q
      ∧ fifo_occupancy (q.stages q.output_stage_num).fifo
          = (flush_target p : Int) - p.samples_out
      ∧ ∀ n : Nat, (flush_target p : Int) - p.samples_out ≤ n →
          ((rate_output q n).2.2 : Int) = (flush_target p : Int) - p.samples_out
          ∧ ((rate_output q n).2.1.length : Int) = (flush_target p : Int) - p.samples_out
          ∧ (rate_output q n).1.samples_out = flush_target p)
    ∧ (round_double (p.samples_in : ℚ) = p.samples_in →
        round_double ((p.samples_in : ℚ) / p.factor) = (p.samples_in : ℚ) / p.factor →
        round_double ((p.samples_in : ℚ) / p.factor + 1 / 2)
          = (p.samples_in : ℚ) / p.factor + 1 / 2 →
        flush_round p < 18446744073709551616 →
        (flush_target p : Int) = flush_round p) := by
  refine ⟨?_, ?_⟩
  swap
  · intro h1 h2 h3 hsize
    have h0 : 0 ≤ flush_round p := by
      by_contra hneg
      have hx : (p.samples_in : ℚ) / p.factor + 1 / 2 < 0 := by
        have : flush_round p < 0 := by omega
        rw [flush_round, Int.floor_lt] at this
        push_cast at this
        linarith
      have hz : flush_target p = 0 := by
        rw [flush_target, h1, h2, h3, trunc, if_neg (by linarith)]
        have : ⌈(p.samples_in : ℚ) / p.factor + 1 / 2⌉ ≤ 0 := by
          rw [Int.ceil_le]
          push_cast
          linarith
        have e : ⌈(p.samples_in : ℚ) / p.factor + 1 / 2⌉.toNat = 0 := by omega
        rw [e]
        rfl
      omega
    exact flush_target_exact p h1 h2 h3 h0 hsize
  have hrem := flush_remaining_eq p hgt
  have hlt := flush_target_lt p
  have hsmall : flush_remaining p < 2147483648 := by omega
  have hto := to_int_small _ hsmall
  rw [rate_flush] at hret ⊢
  dsimp only at hret ⊢
  rw [if_pos (by rw [hto]; omega)] at hret ⊢
  cases hloop : rate_flush_loop env shared (flush_remaining p) fuel p with
  | none => rw [hloop] at hret; simp at hret
  | some r =>
    obtain ⟨hso, hlen⟩ := rate_flush_loop_exit env shared _ _ _ _ hloop
    refine ⟨_, rfl, ?_, ?_⟩
    · simp only [set_stage_output_stage_num, set_stage_stages_same, fifo_trim_to,
        fifo_occupancy, hto, Int.toNat_ofNat, List.length_take]
      omega
    · intro n hn
      have hfifo : ∀ q : rate_t, q.output_stage_num = r.output_stage_num →
          (q.stages r.output_stage_num).fifo
            = (r.stages r.output_stage_num).fifo.take (flush_remaining p) →
          q.samples_out = p.samples_out →
          ((rate_output q n).2.2 : Int) = (flush_target p : Int) - p.samples_out
          ∧ ((rate_output q n).2.1.length : Int) = (flush_target p : Int) - p.samples_out
          ∧ (rate_output q n).1.samples_out = flush_target p := by
        intro q ho hf hs
        obtain ⟨a, b, -⟩ := rate_output_samples q n
        rw [ho, hf] at a b
        have hb : (rate_output q n).2.2 = flush_remaining p := by
          rw [b, List.length_take]; omega
        refine ⟨by rw [hb, hrem], by rw [a, List.length_take, List.length_take]; omega, ?_⟩
        have hout : (rate_output q n).1.samples_out
            = (q.samples_out + (rate_output q n).2.2) % SIZE_MOD := by
          rw [rate_output]
          simp only [set_stage_samples_out]
        have : SIZE_MOD = 18446744073709551616 := by norm_num [SIZE_MOD]
        rw [hout, hb, hs, this]
        omega
      apply hfifo
      · simp only [set_stage_output_stage_num]
      · simp only [set_stage_stages_same, fifo_trim_to, hto, Int.toNat_ofNat]
      · simp only [set_stage_samples_out, hso]

/-- Instance of a flush that feeds zeros: the Quick pipeline for factor 2 holds 7 of the
8 samples due for a 16-sample ramp; after rate_flush it holds 8.  Here the three double
operations are exact and the target is floor(16 / 2 + 1/2) = 8. -/
theorem rate_flush_fills_target_witness :
    (rate_flush env_small shared_zero 1 quick_ramp_processed).isSome = true
    ∧ quick_ramp_processed.samples_out < flush_target quick_ramp_processed
    ∧ flush_target quick_ramp_processed = 8
    ∧ flush_round quick_ramp_processed = 8
    ∧ fifo_occupancy (quick_ramp_processed.stages 1).fifo = 7
    ∧ ∃ q : rate_t, rate_flush env_small shared_zero 1 quick_ramp_processed = some q
      ∧ fifo_occupancy (q.stages q.output_stage_num).fifo
          = (flush_target quick_ramp_processed : Int) - quick_ramp_processed.samples_out
      ∧ ∀ n : Nat,
          (flush_target quick_ramp_processed : Int) - quick_ramp_processed.samples_out ≤ n →
          ((rate_output q n).2.2 : Int)
            = (flush_target quick_ramp_processed : Int) - quick_ramp_processed.samples_out
          ∧ ((rate_output q n).2.1.length : Int)
            = (flush_target quick_ramp_processed : Int) - quick_ramp_processed.samples_out
          ∧ (rate_output q n).1.samples_out = flush_target quick_ramp_processed :=
  ⟨quick_ramp_flush_returns, by decide!, by decide!, by decide!, by decide!,
   (rate_flush_fills_target env_small shared_zero 1 quick_ramp_processed
     quick_ramp_flush_returns (by decide!) (by decide!)).1⟩

/-- The state transformers of a chunked and of a single-call run of a Quick pipeline
agree.  For every factor whose step round(factor * 2^32) is at least 1, every input and
every split of it into chunks, the rounds rate_input + rate_process per chunk leave in
the FIFO of the output stage the samples that one rate_input of the whole input followed
by one rate_process leaves there; the FIFO and the phase of the spline stage agree as
well.  The transformers do not check the assertion of cubic_spline, so this is the
behaviour of the code in the runs in which that assertion holds in every call. -/
theorem quick_runs_agree (env : Env) (shared sh : rate_shared_t) (factor : ℚ)
    (interp_order : Int) (phase bandwidth : ℚ) (allow_aliasing : Bool)
    (chunks : List (List sample_t))
    (hstep : 0 < trunc (factor * MULT32 + 1 / 2)) :
    ∃ q1 q2 : rate_t,
      rate_stream env sh (rate_init env rate_zero shared factor Quick interp_order phase
        bandwidth allow_aliasing).1 chunks = some q1
      ∧ rate_process env sh (rate_input (rate_init env rate_zero shared factor Quick
          interp_order phase bandwidth allow_aliasing).1 chunks.flatten) = some q2
      ∧ q1.output_stage_num = 1 ∧ q2.output_stage_num = 1
      ∧ (q1.stages q1.output_stage_num).fifo = (q2.stages q2.output_stage_num).fifo
      ∧ (q1.stages 0).fifo = (q2.stages 0).fifo
      ∧ (q1.stages 0).at_all = (q2.stages 0).at_all := by
  have hpp : (3 : Int) ≤ max 3 (integer (trunc (factor * MULT32 + 1 / 2))) := le_max_left _ _
  have hip : integer (trunc (factor * MULT32 + 1 / 2))
      ≤ max 3 (integer (trunc (factor * MULT32 + 1 / 2))) := le_max_right _ _
  have hinit := quick_inv_init env shared factor interp_order phase bandwidth allow_aliasing
  obtain ⟨q1, n1, hs1, hinv1⟩ := quick_inv_stream env sh _ _ hstep hpp hip chunks _ _ _ hinit
  obtain ⟨q2, n2, hs2, hinv2⟩ := quick_inv_step env sh _ _ _ [] chunks.flatten 0 hstep hpp hip
    hinit
  obtain ⟨-, ho, hf, ha⟩ := quick_inv_unique _ _ q1 q2 _ n1 n2 hinv1 hinv2
  refine ⟨q1, q2, hs1, hs2, hinv1.output, hinv2.output, ?_, hf, ha⟩
  rw [hinv1.output, hinv2.output]
  exact ho

theorem trunc_nat_step (k : Nat) : trunc ((k : ℚ) * MULT32 + 1 / 2) = (k : Int) * 4294967296 := by
  have := trunc_int_add_half (k : Int) (Int.ofNat_nonneg k)
  simpa using this

theorem integer_mul_step (m k : Nat) :
    integer (0 + (m : Int) * ((k : Int) * 4294967296)) = ((m * k : Nat) : Int) := by
  unfold integer
  push_cast
  have e : (0 : Int) + (m : Int) * ((k : Int) * 4294967296) = ((m : Int) * k) * 4294967296 := by
    ring
  rw [e]
  omega

/-- C5: in Quick mode with an integer factor k >= 1 the step is k * 2^32 and, over any
number of rate_input / rate_process rounds, cubic_spline emits as its m-th sample exactly
the (m*k)-th sample written by rate_input, for every m with m*k below
occupancy - pre_post = max(0, total + 1 - max(3, k)); on a ramp s[i] = i the outputs are
0, k, 2k, ... (0, 2, 4, ... for k = 2). -/
theorem quick_integer_factor_decimates (env : Env) (shared sh : rate_shared_t) (k : Nat)
    (interp_order : Int) (phase bandwidth : ℚ) (allow_aliasing : Bool)
    (chunks : List (List sample_t)) (hk : 1 ≤ k) :
    ∃ (q : rate_t) (n : Nat),
      rate_stream env sh (rate_init env rate_zero shared (k : ℚ) Quick interp_order phase
        bandwidth allow_aliasing).1 chunks = some q
      ∧ ((rate_init env rate_zero shared (k : ℚ) Quick interp_order phase bandwidth
          allow_aliasing).1.stages 0).step_all = (k : Int) * 4294967296
      ∧ q.output_stage_num = 1
      ∧ (q.stages 1).fifo = (List.range n).map (fun m : Nat => chunks.flatten.getD (m * k) 0)
      ∧ (∀ m : Nat, m < n →
          m * k < chunks.flatten.length ∧ (q.stages 1).fifo[m]? = chunks.flatten[m * k]?)
      ∧ (∀ m : Nat, m < n ↔
          ((m * k : Nat) : Int) < max 0 ((chunks.flatten.length : Int) + 1 - max 3 (k : Int)))
      ∧ (∀ L : Nat, chunks.flatten = (List.range L).map (fun i : Nat => (i : ℚ)) →
          (q.stages 1).fifo = (List.range n).map (fun m : Nat => ((m * k : Nat) : ℚ))) := by
  have hst := trunc_nat_step k
  have hint : integer ((k : Int) * 4294967296) = k := by unfold integer; omega
  have hinit := quick_inv_init env shared (k : ℚ) interp_order phase bandwidth allow_aliasing
  obtain ⟨-, -, h3, -⟩ := rate_init_quick_stages env shared (k : ℚ) interp_order phase
    bandwidth allow_aliasing
  rw [hst, hint] at hinit
  have hpos : (0 : Int) < (k : Int) * 4294967296 := by omega
  obtain ⟨q, n, hs, hinv⟩ := quick_inv_stream env sh _ _ hpos (le_max_left _ _)
    (by rw [hint]; exact le_max_right _ _) chunks _ _ _ hinit
  simp only [List.nil_append] at hinv
  have hout : (q.stages 1).fifo
      = (List.range n).map (fun m : Nat => chunks.flatten.getD (m * k) 0) := by
    rw [hinv.out]
    apply List.map_congr_left
    intro m _
    have e : (m : Int) * ((k : Int) * 4294967296) = ((m * k : Nat) : Int) * 4294967296 := by
      push_cast; ring
    rw [e, spline_at_integer, Nat.add_comm, List.getD_cons_succ]
  have hcount : ∀ m : Nat, m < n ↔
      ((m * k : Nat) : Int) < max 0 ((chunks.flatten.length : Int) + 1 - max 3 (k : Int)) := by
    intro m
    constructor
    · intro hm
      have := hinv.passes.1 m hm
      rw [integer_mul_step] at this
      exact this
    · intro hm
      by_contra hcon
      have hnm : n ≤ m := not_lt.mp hcon
      have h2 := hinv.passes.2
      rw [integer_mul_step] at h2
      have : n * k ≤ m * k := Nat.mul_le_mul_right k hnm
      have : ((n * k : Nat) : Int) ≤ ((m * k : Nat) : Int) := by exact_mod_cast this
      omega
  have hreal : ∀ m : Nat, m < n → m * k < chunks.flatten.length := by
    intro m hm
    have := (hcount m).mp hm
    rw [lt_max_iff] at this
    have h3' : (3 : Int) ≤ max 3 (k : Int) := le_max_left _ _
    omega
  refine ⟨q, n, hs, by rw [h3]; exact hst, hinv.output, hout, ?_, hcount, ?_⟩
  · intro m hm
    refine ⟨hreal m hm, ?_⟩
    rw [hout, List.getElem?_map, List.getElem?_range hm]
    simp only [Option.map_some']
    rw [List.getD_eq_getElem?_getD, List.getElem?_eq_getElem (hreal m hm)]
    rfl
  · intro L hL
    rw [hout]
    apply List.map_congr_left
    intro m hm
    rw [List.mem_range] at hm
    have hlt := hreal m hm
    rw [hL] at hlt ⊢
    simp only [List.length_map, List.length_range] at hlt
    rw [List.getD_eq_getElem?_getD, List.getElem?_map, List.getElem?_range hlt]
    rfl

/-- Instance of decimation: factor 2 and the ramp 0..15 in two chunks give 0, 2, 4, 6, 8, 10, 12. -/
theorem quick_integer_factor_decimates_witness :
    1 ≤ 2
    ∧ (∃ (q : rate_t) (n : Nat),
      rate_stream env_small shared_zero (rate_init env_small rate_zero shared_zero ((2 : Nat) : ℚ)
        Quick (-1) 50 0 false).1
        [[0, 1, 2, 3, 4, 5, 6], [7, 8, 9, 10, 11, 12, 13, 14, 15]] = some q
      ∧ ((rate_init env_small rate_zero shared_zero ((2 : Nat) : ℚ) Quick (-1) 50 0
          false).1.stages 0).step_all = ((2 : Nat) : Int) * 4294967296
      ∧ q.output_stage_num = 1
      ∧ (q.stages 1).fifo = (List.range n).map (fun m : Nat =>
          [[0, 1, 2, 3, 4, 5, 6], [7, 8, 9, 10, 11, 12, 13, 14, 15]].flatten.getD (m * 2) 0)
      ∧ (∀ m : Nat, m < n →
          m * 2 < [[0, 1, 2, 3, 4, 5, 6], [7, 8, 9, 10, 11, 12, 13, 14, 15]].flatten.length
          ∧ (q.stages 1).fifo[m]?
            = [[(0 : sample_t), 1, 2, 3, 4, 5, 6],
                [7, 8, 9, 10, 11, 12, 13, 14, 15]].flatten[m * 2]?)
      ∧ (∀ m : Nat, m < n ↔
          ((m * 2 : Nat) : Int) < max 0
            (([[(0 : sample_t), 1, 2, 3, 4, 5, 6],
                [7, 8, 9, 10, 11, 12, 13, 14, 15]].flatten.length : Int) + 1
              - max 3 ((2 : Nat) : Int)))
      ∧ (∀ L : Nat, [[0, 1, 2, 3, 4, 5, 6], [7, 8, 9, 10, 11, 12, 13, 14, 15]].flatten
            = (List.range L).map (fun i : Nat => (i : ℚ)) →
          (q.stages 1).fifo = (List.range n).map (fun m : Nat => ((m * 2 : Nat) : ℚ))))
    ∧ (rate_stream env_small shared_zero (rate_init env_small rate_zero shared_zero 2
        Quick (-1) 50 0 false).1
        [[0, 1, 2, 3, 4, 5, 6], [7, 8, 9, 10, 11, 12, 13, 14, 15]]).map
          (fun q => (q.stages 1).fifo) = some [0, 2, 4, 6, 8, 10, 12] :=
  ⟨by decide,
   quick_integer_factor_decimates env_small shared_zero shared_zero 2 (-1) 50 0 false
     [[0, 1, 2, 3, 4, 5, 6], [7, 8, 9, 10, 11, 12, 13, 14, 15]] (by decide),
   by decide!⟩

theorem cubic_spline_sample_eq_poly (p : stage_t) (at_all : Int) :
    cubic_spline_sample p at_all
      = cubic_spline_poly (stage_read_p p (integer at_all + (-1)))
          (stage_read_p p (integer at_all + 0)) (stage_read_p p (integer at_all + 1))
          (stage_read_p p (integer at_all + 2)) ((fraction at_all : ℚ) * (1 / MULT32)) := rfl

theorem phase_split (a : Int) :
    (a : ℚ) / MULT32 = (integer a : ℚ) + (fraction a : ℚ) * (1 / MULT32) := by
  have h : a = integer a * 4294967296 + fraction a := by
    unfold integer fraction; omega
  have hq : (a : ℚ) = (integer a : ℚ) * 4294967296 + (fraction a : ℚ) := by exact_mod_cast h
  rw [hq]
  norm_num [MULT32]
  ring

/-- C20: the cubic that cubic_spline evaluates passes through (-1, s[-1]), (0, s[0]),
(1, s[1]) and (2, s[2]); every polynomial of degree <= 3 through these four points is
equal to it at every x; hence, when the four taps are the values of a polynomial q of
degree <= 3 at their sample indices, the sample computed at a phase is q at the
fractional position integer + fraction / 2^32 (a ramp in particular). -/
theorem cubic_spline_interpolates (sm1 s0 s1 s2 : sample_t) :
    (cubic_spline_poly sm1 s0 s1 s2 (-1) = sm1 ∧ cubic_spline_poly sm1 s0 s1 s2 0 = s0
      ∧ cubic_spline_poly sm1 s0 s1 s2 1 = s1 ∧ cubic_spline_poly sm1 s0 s1 s2 2 = s2)
    ∧ (∀ A B C D : ℚ,
        ((A * (-1) + B) * (-1) + C) * (-1) + D = sm1 → ((A * 0 + B) * 0 + C) * 0 + D = s0 →
        ((A * 1 + B) * 1 + C) * 1 + D = s1 → ((A * 2 + B) * 2 + C) * 2 + D = s2 →
        ∀ x : ℚ, ((A * x + B) * x + C) * x + D = cubic_spline_poly sm1 s0 s1 s2 x)
    ∧ (∀ (p : stage_t) (at_all : Int) (A B C D : ℚ),
        (∀ t : Int, -1 ≤ t → t ≤ 2 →
          stage_read_p p (integer at_all + t)
            = ((A * ((integer at_all + t : Int) : ℚ) + B) * ((integer at_all + t : Int) : ℚ)
                + C) * ((integer at_all + t : Int) : ℚ) + D) →
        cubic_spline_sample p at_all
          = ((A * ((at_all : ℚ) / MULT32) + B) * ((at_all : ℚ) / MULT32) + C)
              * ((at_all : ℚ) / MULT32) + D)
    ∧ (∀ (p : stage_t) (at_all : Int) (C D : ℚ),
        (∀ t : Int, -1 ≤ t → t ≤ 2 →
          stage_read_p p (integer at_all + t) = C * ((integer at_all + t : Int) : ℚ) + D) →
        cubic_spline_sample p at_all = C * ((at_all : ℚ) / MULT32) + D) := by
  have hcubic : ∀ (p : stage_t) (at_all : Int) (A B C D : ℚ),
      (∀ t : Int, -1 ≤ t → t ≤ 2 →
        stage_read_p p (integer at_all + t)
          = ((A * ((integer at_all + t : Int) : ℚ) + B) * ((integer at_all + t : Int) : ℚ)
              + C) * ((integer at_all + t : Int) : ℚ) + D) →
      cubic_spline_sample p at_all
        = ((A * ((at_all : ℚ) / MULT32) + B) * ((at_all : ℚ) / MULT32) + C)
            * ((at_all : ℚ) / MULT32) + D := by
    intro p at_all A B C D h
    rw [cubic_spline_sample_eq_poly, h (-1) (by norm_num) (by norm_num),
      h 0 (by norm_num) (by norm_num), h 1 (by norm_num) (by norm_num),
      h 2 (by norm_num) (by norm_num), phase_split]
    unfold cubic_spline_poly
    push_cast
    ring
  refine ⟨⟨?_, ?_, ?_, ?_⟩, ?_, hcubic, ?_⟩
  · unfold cubic_spline_poly; ring
  · unfold cubic_spline_poly; ring
  · unfold cubic_spline_poly; ring
  · unfold cubic_spline_poly; ring
  · intro A B C D hm1 h0 h1 h2 x
    unfold cubic_spline_poly
    linear_combination (-(x * (x - 1) * (x - 2)) / 6) * hm1
      + ((x + 1) * (x - 1) * (x - 2) / 2) * h0
      + (-((x + 1) * x * (x - 2)) / 2) * h1 + ((x + 1) * x * (x - 1) / 6) * h2
  · intro p at_all C D h
    have := hcubic p at_all 0 0 C D (by
      intro t ht1 ht2
      rw [h t ht1 ht2]; ring)
    rw [this]; ring

/-- Instance of the interpolation property: the taps 0, 1, 5, 2 are met at -1, 0, 1, 2,
and on the ramp FIFO the sample at the phase 1 + 1/2 lies on the ramp (5/2 with the
offset of the preloaded slot). -/
theorem cubic_spline_interpolates_witness :
    (cubic_spline_poly 0 1 5 2 (-1) = 0 ∧ cubic_spline_poly 0 1 5 2 0 = 1
      ∧ cubic_spline_poly 0 1 5 2 1 = 5 ∧ cubic_spline_poly 0 1 5 2 2 = 2)
    ∧ (∀ t : Int, -1 ≤ t → t ≤ 2 →
        stage_read_p spline_stage_ramp (integer 6442450944 + t)
          = 1 * ((integer 6442450944 + t : Int) : ℚ) + 1)
    ∧ cubic_spline_sample spline_stage_ramp 6442450944
        = 1 * (((6442450944 : Int) : ℚ) / MULT32) + 1
    ∧ cubic_spline_sample spline_stage_ramp 6442450944 = 5 / 2 := by
  have hramp : ∀ t : Int, -1 ≤ t → t ≤ 2 →
      stage_read_p spline_stage_ramp (integer 6442450944 + t)
        = 1 * ((integer 6442450944 + t : Int) : ℚ) + 1 := by
    intro t h1 h2
    have ht : t = -1 ∨ t = 0 ∨ t = 1 ∨ t = 2 := by omega
    rcases ht with h | h | h | h <;> subst h <;> decide!
  exact ⟨(cubic_spline_interpolates 0 1 5 2).1, hramp,
    (cubic_spline_interpolates 0 1 5 2).2.2.2 spline_stage_ramp 6442450944 1 1 hramp,
    by decide!⟩

theorem spline_passes_consumed_gen (step pp L a : Int) (n : Nat) (hs : 0 < step)
    (hip : integer step ≤ pp) (hL : 0 ≤ L) (ha : integer a = 0)
    (h : spline_passes step (max 0 (L - pp)) a n) :
    0 ≤ integer (a + n * step) ∧ integer (a + n * step) ≤ L := by
  have hnn : (0 : Int) ≤ n * step := by positivity
  unfold integer at hip ha ⊢
  refine ⟨by omega, ?_⟩
  rcases Nat.eq_zero_or_pos n with h0 | hpos
  · subst h0; simp; omega
  · have hl := spline_passes_last _ _ _ n h hpos
    have hA : (0 : Int) ≤ ((n : Int) - 1) * step := by
      have : (0 : Int) ≤ (n : Int) - 1 := by omega
      positivity
    have e : (n : Int) * step = ((n : Int) - 1) * step + step := by ring
    rw [e]
    rcases max_cases 0 (L - pp) with ⟨hm, -⟩ | ⟨hm, -⟩
    · rw [hm] at hl; omega
    · rw [hm] at hl; omega

/-- C17: with the Quick bracket pre = 1 and pre_post = max(3, step.integer), a step > 0,
out_in_ratio = 2^32 / step and at.integer = 0 on entry, cubic_spline returns; in each of
its n passes the four taps s[-1], s[0], s[1], s[2] lie at FIFO offsets in
[0, occupancy), and the count at.integer that it finally removes from its FIFO lies in
[0, occupancy], so the removal succeeds. -/
theorem cubic_spline_reads_buffered (p : stage_t) (output_fifo : fifo_t)
    (hpre : p.pre = 1) (hpp : p.pre_post = max 3 (integer p.step_all))
    (hs : 0 < p.step_all) (hat : integer p.at_all = 0)
    (hr : p.out_in_ratio = MULT32 / (p.step_all : ℚ)) :
    ∃ n : Nat, spline_passes p.step_all (stage_occupancy p) p.at_all n
      ∧ cubic_spline p output_fifo
          = some ({ p with fifo := p.fifo.drop (integer (p.at_all + n * p.step_all)).toNat,
                           at_all := fraction (p.at_all + n * p.step_all) },
                  output_fifo ++ (List.range n).map
                    (fun k : Nat => cubic_spline_sample p (p.at_all + k * p.step_all)))
      ∧ (∀ k : Nat, k < n → ∀ off ∈ cubic_spline_taps p (p.at_all + k * p.step_all),
          0 ≤ off ∧ off < fifo_occupancy p.fifo)
      ∧ 0 ≤ integer (p.at_all + n * p.step_all)
      ∧ integer (p.at_all + n * p.step_all) ≤ fifo_occupancy p.fifo := by
  have ha : 0 ≤ p.at_all := by unfold integer at hat; omega
  have h3 : (3 : Int) ≤ p.pre_post := by rw [hpp]; exact le_max_left _ _
  have hip : integer p.step_all ≤ p.pre_post := by rw [hpp]; exact le_max_right _ _
  have hquick : quick_stage p := ⟨hpre, h3, hip, hs, by rw [hr]; simp, ha⟩
  obtain ⟨n, hn⟩ := spline_passes_exists p.step_all (stage_occupancy p) p.at_all hs ha
  have hrun := cubic_spline_eq p output_fifo n hquick hn
  have hocc : (0 : Int) ≤ fifo_occupancy p.fifo := by
    rw [fifo_occupancy]; exact Int.ofNat_nonneg _
  obtain ⟨hc0, hc⟩ := spline_passes_consumed_gen p.step_all p.pre_post
    (fifo_occupancy p.fifo) p.at_all n hs hip hocc hat hn
  refine ⟨n, hn, ?_, ?_, hc0, hc⟩
  · rw [hrun, fifo_read, if_pos hc]
  · intro k hk off hoff
    have hlt := hn.1 k hk
    rw [stage_occupancy, lt_max_iff] at hlt
    have hY : (0 : Int) ≤ (k : Int) * p.step_all := by positivity
    have hge : 0 ≤ integer (p.at_all + k * p.step_all) := by unfold integer; omega
    simp only [cubic_spline_taps, hpre, List.mem_cons, List.mem_singleton,
      List.not_mem_nil, or_false] at hoff
    rcases hoff with h | h | h | h <;> subst h <;> constructor <;> omega

/-- Instance of the read bounds: for spline_stage_small every tap offset of every pass
lies below the occupancy 8, and cubic_spline removes 5 of the 8 buffered samples. -/
theorem cubic_spline_reads_buffered_witness :
    (spline_stage_small.pre = 1
      ∧ spline_stage_small.pre_post = max 3 (integer spline_stage_small.step_all)
      ∧ 0 < spline_stage_small.step_all ∧ integer spline_stage_small.at_all = 0
      ∧ spline_stage_small.out_in_ratio = MULT32 / (spline_stage_small.step_all : ℚ))
    ∧ (∃ n : Nat,
      spline_passes spline_stage_small.step_all (stage_occupancy spline_stage_small)
        spline_stage_small.at_all n
      ∧ cubic_spline spline_stage_small [9]
          = some ({ spline_stage_small with
                      fifo := spline_stage_small.fifo.drop
                        (integer (spline_stage_small.at_all
                          + n * spline_stage_small.step_all)).toNat,
                      at_all := fraction (spline_stage_small.at_all
                          + n * spline_stage_small.step_all) },
                  [9] ++ (List.range n).map
                    (fun k : Nat => cubic_spline_sample spline_stage_small
                      (spline_stage_small.at_all + k * spline_stage_small.step_all)))
      ∧ (∀ k : Nat, k < n →
          ∀ off ∈ cubic_spline_taps spline_stage_small
              (spline_stage_small.at_all + k * spline_stage_small.step_all),
          0 ≤ off ∧ off < fifo_occupancy spline_stage_small.fifo)
      ∧ 0 ≤ integer (spline_stage_small.at_all + n * spline_stage_small.step_all)
      ∧ integer (spline_stage_small.at_all + n * spline_stage_small.step_all)
          ≤ fifo_occupancy spline_stage_small.fifo)
    ∧ (cubic_spline spline_stage_small [9]).map (fun r => r.1.fifo) = some [1, 8, 3] :=
  ⟨⟨by decide, by decide, by decide, by decide, by decide!⟩,
   cubic_spline_reads_buffered spline_stage_small [9] (by decide) (by decide) (by decide)
     (by decide) (by decide!),
   by decide!⟩

/-- C18, as stated, fails: for factor 44100/48000 and quality High the plan has level 0
and output_stage_num 2, so the active stage index 2 = level + 2 lies above level + 1. -/
theorem active_stage_above_post_stage :
    (rate_init env_small rate_zero shared_zero (44100 / 48000) High (-1) 50 0 false).1.level = 0
    ∧ (rate_init env_small rate_zero shared_zero (44100 / 48000) High (-1) 50 0
        false).1.input_stage_num = -1
    ∧ (rate_init env_small rate_zero shared_zero (44100 / 48000) High (-1) 50 0
        false).1.output_stage_num = 2
    ∧ ¬ (rate_init env_small rate_zero shared_zero (44100 / 48000) High (-1) 50 0
        false).1.output_stage_num
        ≤ (rate_init env_small rate_zero shared_zero (44100 / 48000) High (-1) 50 0
        false).1.level + 1 := by
  decide!

/-- C18, amended: after rate_init on a zero-initialised pipeline, for every factor and
quality, every active stage index i with input_stage_num <= i <= output_stage_num
satisfies -1 <= i <= level + 2, that is, it lies inside the array of level + 4 slots,
first index -1, that rate_init allocates. -/
theorem active_stages_in_array (env : Env) (shared : rate_shared_t) (factor : ℚ)
    (quality interp_order : Int) (phase bandwidth : ℚ) (allow_aliasing : Bool) (i : Int)
    (hlo : (rate_init env rate_zero shared factor quality interp_order phase bandwidth
      allow_aliasing).1.input_stage_num ≤ i)
    (hhi : i ≤ (rate_init env rate_zero shared factor quality interp_order phase bandwidth
      allow_aliasing).1.output_stage_num) :
    -1 ≤ i
    ∧ i ≤ (rate_init env rate_zero shared factor quality interp_order phase bandwidth
        allow_aliasing).1.level + 2
    ∧ i < -1 + stages_slots (rate_init env rate_zero shared factor quality interp_order
        phase bandwidth allow_aliasing).1 := by
  obtain ⟨h1, h2, h3, -⟩ := rate_init_same_plan env rate_zero shared factor quality
    interp_order phase bandwidth allow_aliasing
  obtain ⟨a, -, c, -, -, f⟩ := rate_init_last_p env
    (rate_init_entry rate_zero shared factor quality) (clamp_quality quality) interp_order
  obtain ⟨s1, -, s3, s4⟩ := rate_init_entry_p rate_zero shared factor quality
  have hb := b2i_cases (rate_init_planned rate_zero factor (clamp_quality quality)).upsample
  rw [h2] at hlo
  rw [h3] at hhi
  rw [stages_slots, h1, a, s1]
  rw [s3] at c
  rw [s4] at f
  refine ⟨by omega, by omega, by omega⟩

/-- Instance of the array bound: the output stage 2 of the plan for 44100/48000 at
quality High lies inside the 4 slots -1 .. 2. -/
theorem active_stages_in_array_witness :
    (rate_init env_small rate_zero shared_zero (44100 / 48000) High (-1) 50 0
        false).1.input_stage_num ≤ 2
    ∧ (2 : Int) ≤ (rate_init env_small rate_zero shared_zero (44100 / 48000) High (-1) 50 0
        false).1.output_stage_num
    ∧ ((-1 : Int) ≤ 2
      ∧ (2 : Int) ≤ (rate_init env_small rate_zero shared_zero (44100 / 48000) High (-1) 50 0
          false).1.level + 2
      ∧ (2 : Int) < -1 + stages_slots (rate_init env_small rate_zero shared_zero
          (44100 / 48000) High (-1) 50 0 false).1) :=
  ⟨by decide!, by decide!,
   active_stages_in_array env_small shared_zero (44100 / 48000) High (-1) 50 0 false 2
     (by decide!) (by decide!)⟩

theorem shift_one (x : Int) : x >>> (1 : Nat) = x / 2 := by
  have := Int.shiftRight_eq_div_pow x 1
  simpa using this

theorem foldl_set_length (data : List sample_t) (base : Nat) :
    ∀ (l : List Nat) (f : fifo_t),
      (l.foldl (fun acc k => acc.set (base + k) (data.getD k 0)) f).length = f.length := by
  intro l
  induction l with
  | nil => intro f; rfl
  | cons a l ih => intro f; rw [List.foldl_cons, ih]; simp

theorem foldl_set_take (data : List sample_t) (base : Nat) :
    ∀ (l : List Nat) (f : fifo_t),
      (l.foldl (fun acc k => acc.set (base + k) (data.getD k 0)) f).take base
        = f.take base := by
  intro l
  induction l with
  | nil => intro f; rfl
  | cons a l ih =>
    intro f
    rw [List.foldl_cons, ih, List.set_take]
    apply List.set_eq_of_length_le
    rw [List.length_take]
    omega

theorem fifo_store_length (f : fifo_t) (base : Nat) (data : List sample_t) :
    (fifo_store f base data).length = f.length := by
  rw [fifo_store]; exact foldl_set_length data base _ f

theorem fifo_store_take (f : fifo_t) (base : Nat) (data : List sample_t) :
    (fifo_store f base data).take base = f.take base := by
  rw [fifo_store]; exact foldl_set_take data base _ f

theorem block_append (o : fifo_t) (D t : Int) (blk : List sample_t) (h0 : 0 ≤ t) (ht : t ≤ D) :
    (fifo_trim_by (fifo_store (fifo_reserve o D) o.length blk) t).length
        = o.length + (D - t).toNat
    ∧ (fifo_trim_by (fifo_store (fifo_reserve o D) o.length blk) t).take o.length = o := by
  have hlen : (fifo_store (fifo_reserve o D) o.length blk).length = o.length + D.toNat := by
    rw [fifo_store_length, fifo_reserve]; simp
  have htake : (fifo_store (fifo_reserve o D) o.length blk).take o.length = o := by
    rw [fifo_store_take, fifo_reserve]; simp
  constructor
  · rw [fifo_trim_by, fifo_occupancy, List.length_take, hlen]
    omega
  · rw [fifo_trim_by, fifo_occupancy, hlen, List.take_take]
    have : min o.length ((↑(o.length + D.toNat) : Int) - t).toNat = o.length := by omega
    rw [this, htake]

theorem half_sample_loop_run (env : Env) (f : dft_filter_t)
    (hd : 1 ≤ f.dft_length - (f.num_taps - 1)) (hO : 0 ≤ f.num_taps - 1)
    (hev : (f.dft_length + (f.num_taps - 1)) % 2 = 0) :
    ∀ (B fuel : Nat) (fifo o : fifo_t),
      (∀ j : Nat, j < B →
        f.dft_length ≤ (fifo.length : Int) - j * (f.dft_length - (f.num_taps - 1))) →
      ¬ f.dft_length ≤ (fifo.length : Int) - B * (f.dft_length - (f.num_taps - 1)) →
      B ≤ fuel →
      ∃ o' : fifo_t, half_sample_loop env f fuel fifo.length fifo o
          = some (fifo.drop (B * (f.dft_length - (f.num_taps - 1)).toNat), o')
        ∧ (o'.length : Int) = o.length + B * ((f.dft_length - (f.num_taps - 1)) / 2)
        ∧ o'.take o.length = o := by
  intro B
  induction B with
  | zero =>
    intro fuel fifo o _ hexit _
    have hex : ¬ (fifo.length : Int) ≥ f.dft_length := by simpa using hexit
    refine ⟨o, ?_, by simp, by simp⟩
    cases fuel with
    | zero => rw [half_sample_loop, if_neg hex]; simp
    | succ fuel => rw [half_sample_loop, if_neg hex]; simp
  | succ B ih =>
    intro fuel fifo o hrun hexit hfuel
    have h0 : (fifo.length : Int) ≥ f.dft_length := by simpa using hrun 0 (Nat.succ_pos B)
    cases fuel with
    | zero => omega
    | succ fuel =>
      rw [half_sample_loop, if_pos h0]
      dsimp only
      have hread : fifo_read fifo (f.dft_length - (f.num_taps - 1))
          = fifo.drop (f.dft_length - (f.num_taps - 1)).toNat := by
        rw [fifo_read, if_pos (by rw [fifo_occupancy]; omega)]
      have hlen1 : (((fifo.drop (f.dft_length - (f.num_taps - 1)).toNat).length : Nat) : Int)
          = (fifo.length : Int) - (f.dft_length - (f.num_taps - 1)) := by
        rw [List.length_drop]; omega
      rw [hread, ← hlen1]
      obtain ⟨hbl, hbt⟩ := block_append o f.dft_length
        ((f.dft_length + (f.num_taps - 1)) >>> (1 : Nat)) (half_sample_block env f fifo)
        (by rw [shift_one]; omega) (by rw [shift_one]; omega)
      obtain ⟨o', hrec, hlen', htake'⟩ := ih fuel
        (fifo.drop (f.dft_length - (f.num_taps - 1)).toNat)
        (fifo_trim_by (fifo_store (fifo_reserve o f.dft_length) o.length
          (half_sample_block env f fifo)) ((f.dft_length + (f.num_taps - 1)) >>> (1 : Nat)))
        (by
          intro j hj
          have := hrun (j + 1) (by omega)
          rw [hlen1]
          push_cast at this
          linarith)
        (by
          rw [hlen1]
          push_cast at hexit
          intro hc
          apply hexit
          linarith)
        (by omega)
      refine ⟨o', ?_, ?_, ?_⟩
      · rw [hrec, List.drop_drop]
        congr 2
        ring_nf
      · rw [hlen', hbl, shift_one]
        push_cast
        have e : ((f.dft_length - (f.dft_length + (f.num_taps - 1)) / 2).toNat : Int)
            = (f.dft_length - (f.num_taps - 1)) / 2 := by omega
        rw [e]
        ring
      · have hle : o.length ≤ (fifo_trim_by (fifo_store (fifo_reserve o f.dft_length) o.length
            (half_sample_block env f fifo))
            ((f.dft_length + (f.num_taps - 1)) >>> (1 : Nat))).length := by
          rw [hbl]; omega
        have := congrArg (List.take o.length) htake'
        rw [List.take_take, Nat.min_eq_left hle, hbt] at this
        exact this

theorem half_sample_blocks_spec (f : dft_filter_t) (occ : Int)
    (hd : 1 ≤ f.dft_length - (f.num_taps - 1)) :
    (∀ j : Nat, j < half_sample_blocks f occ →
      f.dft_length ≤ occ - j * (f.dft_length - (f.num_taps - 1)))
    ∧ ¬ f.dft_length ≤ occ - (half_sample_blocks f occ : Nat)
        * (f.dft_length - (f.num_taps - 1))
    ∧ half_sample_blocks f occ ≤ (occ - f.dft_length + 1).toNat := by
  rw [half_sample_blocks]
  split_ifs with h
  · refine ⟨fun j hj => by omega, by simp; omega, by omega⟩
  · have hq0 : 0 ≤ (occ - f.dft_length) / (f.dft_length - (f.num_taps - 1)) :=
      Int.ediv_nonneg (by omega) (by omega)
    have hmul := Int.ediv_add_emod (occ - f.dft_length) (f.dft_length - (f.num_taps - 1))
    have hmod0 := Int.emod_nonneg (occ - f.dft_length)
      (show f.dft_length - (f.num_taps - 1) ≠ 0 by omega)
    have hmod1 := Int.emod_lt_of_pos (occ - f.dft_length)
      (show 0 < f.dft_length - (f.num_taps - 1) by omega)
    have hcast : ((((occ - f.dft_length) / (f.dft_length - (f.num_taps - 1)) + 1).toNat : Nat)
        : Int) = (occ - f.dft_length) / (f.dft_length - (f.num_taps - 1)) + 1 := by omega
    refine ⟨?_, ?_, ?_⟩
    · intro j hj
      have hj' : (j : Int) ≤ (occ - f.dft_length) / (f.dft_length - (f.num_taps - 1)) := by
        omega
      have : (j : Int) * (f.dft_length - (f.num_taps - 1))
          ≤ (occ - f.dft_length) / (f.dft_length - (f.num_taps - 1))
            * (f.dft_length - (f.num_taps - 1)) :=
        Int.mul_le_mul_of_nonneg_right hj' (by omega)
      nlinarith
    · rw [hcast]
      nlinarith
    · have : (occ - f.dft_length) / (f.dft_length - (f.num_taps - 1)) ≤ occ - f.dft_length :=
        Int.ediv_le_self _ (by omega)
      omega

/-- C11: for a half-band filter with an odd, positive num_taps and an even
dft_length >= num_taps, half_sample returns after B passes, B the largest number of
whole blocks for the occupancy; it removes exactly B * (dft_length - overlap) samples
from its FIFO, never more than are buffered, leaves fewer than dft_length, and appends
exactly B * (dft_length - overlap) / 2 samples, half of what it removed, to the output
FIFO, whose earlier samples stay. -/
theorem half_sample_counts (env : Env) (shared : rate_shared_t) (p : stage_t)
    (output_fifo : fifo_t)
    (hodd : (shared.half_band p.which).num_taps % 2 = 1)
    (hpos : 0 < (shared.half_band p.which).num_taps)
    (heven : (shared.half_band p.which).dft_length % 2 = 0)
    (hge : (shared.half_band p.which).num_taps ≤ (shared.half_band p.which).dft_length) :
    ∃ (B : Nat) (output : fifo_t),
      B = half_sample_blocks (shared.half_band p.which) (fifo_occupancy p.fifo)
      ∧ half_sample env shared p output_fifo
          = some ({ p with fifo := (p.fifo.drop (B * ((shared.half_band p.which).dft_length
                      - ((shared.half_band p.which).num_taps - 1)).toNat)) }, output)
      ∧ (∀ j : Nat, j < B → (shared.half_band p.which).dft_length
          ≤ fifo_occupancy p.fifo - j * ((shared.half_band p.which).dft_length
              - ((shared.half_band p.which).num_taps - 1)))
      ∧ (B : Int) * ((shared.half_band p.which).dft_length
            - ((shared.half_band p.which).num_taps - 1)) ≤ fifo_occupancy p.fifo
      ∧ fifo_occupancy p.fifo - B * ((shared.half_band p.which).dft_length
            - ((shared.half_band p.which).num_taps - 1))
          < (shared.half_band p.which).dft_length
      ∧ fifo_occupancy output = fifo_occupancy output_fifo
          + B * ((shared.half_band p.which).dft_length
            - ((shared.half_band p.which).num_taps - 1)) / 2
      ∧ 2 * (fifo_occupancy output - fifo_occupancy output_fifo)
          = B * ((shared.half_band p.which).dft_length
            - ((shared.half_band p.which).num_taps - 1))
      ∧ output.take output_fifo.length = output_fifo := by
  have hd : 1 ≤ (shared.half_band p.which).dft_length
      - ((shared.half_band p.which).num_taps - 1) := by omega
  obtain ⟨hrun, hexit, hfuel⟩ := half_sample_blocks_spec (shared.half_band p.which)
    (fifo_occupancy p.fifo) hd
  have hocc : max 0 (fifo_occupancy p.fifo) = (p.fifo.length : Int) := by
    rw [fifo_occupancy]; exact max_eq_right (Int.ofNat_nonneg _)
  obtain ⟨o', hloop, hlen, htake⟩ := half_sample_loop_run env (shared.half_band p.which) hd
    (by omega) (by omega) (half_sample_blocks (shared.half_band p.which)
      (fifo_occupancy p.fifo)) ((p.fifo.length : Int)
        - (shared.half_band p.which).dft_length + 1).toNat p.fifo output_fifo
    (by rw [fifo_occupancy] at hrun; exact hrun)
    (by rw [fifo_occupancy] at hexit; exact hexit)
    (by rw [fifo_occupancy] at hfuel; exact hfuel)
  have hdeven : ((shared.half_band p.which).dft_length
      - ((shared.half_band p.which).num_taps - 1)) % 2 = 0 := by omega
  have hB0 : (0 : Int) ≤ (half_sample_blocks (shared.half_band p.which)
      (fifo_occupancy p.fifo) : Nat) := Int.ofNat_nonneg _
  have hmul : ((half_sample_blocks (shared.half_band p.which) (fifo_occupancy p.fifo) : Nat)
      : Int) * ((shared.half_band p.which).dft_length
        - ((shared.half_band p.which).num_taps - 1)) / 2
      = (half_sample_blocks (shared.half_band p.which) (fifo_occupancy p.fifo) : Nat)
        * (((shared.half_band p.which).dft_length
          - ((shared.half_band p.which).num_taps - 1)) / 2) := by
    rw [Int.mul_ediv_assoc]
    exact Int.dvd_of_emod_eq_zero hdeven
  refine ⟨_, o', rfl, ?_, hrun, ?_, by omega, ?_, ?_, htake⟩
  · rw [half_sample]
    rw [hocc, hloop]
  · rcases Nat.eq_zero_or_pos (half_sample_blocks (shared.half_band p.which)
      (fifo_occupancy p.fifo)) with h0 | hpos'
    · rw [h0]; simp [fifo_occupancy]
    · have := hrun (half_sample_blocks (shared.half_band p.which)
        (fifo_occupancy p.fifo) - 1) (by omega)
      have e : (((half_sample_blocks (shared.half_band p.which)
          (fifo_occupancy p.fifo) - 1 : Nat)) : Int)
          = (half_sample_blocks (shared.half_band p.which) (fifo_occupancy p.fifo) : Nat)
            - 1 := by omega
      rw [e] at this
      nlinarith
  · rw [fifo_occupancy, fifo_occupancy, hlen, hmul]
  · rw [fifo_occupancy, fifo_occupancy, hlen]
    have h2 := Int.ediv_add_emod ((shared.half_band p.which).dft_length
      - ((shared.half_band p.which).num_taps - 1)) 2
    rw [hdeven] at h2
    nlinarith

/-- Instance of the block counts: three taps, DFT size 4 and ten buffered samples give
B = 4 blocks; eight samples are removed, two stay, four are appended to the output. -/
theorem half_sample_counts_witness :
    ((shared_taps3.half_band stage_ten.which).num_taps % 2 = 1
      ∧ 0 < (shared_taps3.half_band stage_ten.which).num_taps
      ∧ (shared_taps3.half_band stage_ten.which).dft_length % 2 = 0
      ∧ (shared_taps3.half_band stage_ten.which).num_taps
          ≤ (shared_taps3.half_band stage_ten.which).dft_length)
    ∧ (∃ (B : Nat) (output : fifo_t),
      B = half_sample_blocks (shared_taps3.half_band stage_ten.which)
            (fifo_occupancy stage_ten.fifo)
      ∧ half_sample env_small shared_taps3 stage_ten [7]
          = some ({ stage_ten with fifo := (stage_ten.fifo.drop
                      (B * ((shared_taps3.half_band stage_ten.which).dft_length
                        - ((shared_taps3.half_band stage_ten.which).num_taps - 1)).toNat)) },
                  output)
      ∧ (∀ j : Nat, j < B → (shared_taps3.half_band stage_ten.which).dft_length
          ≤ fifo_occupancy stage_ten.fifo - j
            * ((shared_taps3.half_band stage_ten.which).dft_length
              - ((shared_taps3.half_band stage_ten.which).num_taps - 1)))
      ∧ (B : Int) * ((shared_taps3.half_band stage_ten.which).dft_length
            - ((shared_taps3.half_band stage_ten.which).num_taps - 1))
          ≤ fifo_occupancy stage_ten.fifo
      ∧ fifo_occupancy stage_ten.fifo - B
            * ((shared_taps3.half_band stage_ten.which).dft_length
            - ((shared_taps3.half_band stage_ten.which).num_taps - 1))
          < (shared_taps3.half_band stage_ten.which).dft_length
      ∧ fifo_occupancy output = fifo_occupancy [7]
          + B * ((shared_taps3.half_band stage_ten.which).dft_length
            - ((shared_taps3.half_band stage_ten.which).num_taps - 1)) / 2
      ∧ 2 * (fifo_occupancy output - fifo_occupancy [7])
          = B * ((shared_taps3.half_band stage_ten.which).dft_length
            - ((shared_taps3.half_band stage_ten.which).num_taps - 1))
      ∧ output.take [(7 : sample_t)].length = [7])
    ∧ half_sample_blocks (shared_taps3.half_band stage_ten.which)
        (fifo_occupancy stage_ten.fifo) = 4
    ∧ (half_sample env_small shared_taps3 stage_ten [7]).map
        (fun r => (r.1.fifo, r.2.length)) = some ([9, 10], 5) :=
  ⟨⟨by decide, by decide, by decide, by decide⟩,
   half_sample_counts env_small shared_taps3 stage_ten [7] (by decide) (by decide)
     (by decide) (by decide),
   by decide, by decide!⟩

theorem double_sample_blocks_spec (f : dft_filter_t) (occ : Int)
    (hd : 1 ≤ (f.dft_length - (f.num_taps - 1)) / 2) :
    (∀ j : Nat, j < double_sample_blocks f occ →
      f.dft_length / 2 < occ - j * ((f.dft_length - (f.num_taps - 1)) / 2))
    ∧ ¬ f.dft_length / 2 < occ - (double_sample_blocks f occ : Nat)
        * ((f.dft_length - (f.num_taps - 1)) / 2)
    ∧ double_sample_blocks f occ ≤ (occ - f.dft_length / 2).toNat := by
  rw [double_sample_blocks]
  generalize (f.dft_length - (f.num_taps - 1)) / 2 = h at hd ⊢
  generalize f.dft_length / 2 = D2
  split_ifs with hc
  · refine ⟨fun j hj => by omega, by simp; omega, by omega⟩
  · have hq0 : 0 ≤ (occ - D2 - 1) / h := Int.ediv_nonneg (by omega) (by omega)
    have hmul := Int.ediv_add_emod (occ - D2 - 1) h
    have hmod0 := Int.emod_nonneg (occ - D2 - 1) (show h ≠ 0 by omega)
    have hmod1 := Int.emod_lt_of_pos (occ - D2 - 1) (show 0 < h by omega)
    have hcast : ((((occ - D2 - 1) / h + 1).toNat : Nat) : Int) = (occ - D2 - 1) / h + 1 := by
      omega
    refine ⟨?_, ?_, ?_⟩
    · intro j hj
      have hj' : (j : Int) ≤ (occ - D2 - 1) / h := by omega
      have : (j : Int) * h ≤ (occ - D2 - 1) / h * h :=
        Int.mul_le_mul_of_nonneg_right hj' (by omega)
      nlinarith
    · rw [hcast]
      nlinarith
    · have : (occ - D2 - 1) / h ≤ occ - D2 - 1 := Int.ediv_le_self _ (by omega)
      omega

theorem double_sample_loop_run (env : Env) (f : dft_filter_t)
    (hd : 1 ≤ (f.dft_length - (f.num_taps - 1)) / 2) (hO : 0 ≤ f.num_taps - 1)
    (hle : f.num_taps - 1 ≤ f.dft_length) :
    ∀ (B fuel : Nat) (fifo o : fifo_t),
      (∀ j : Nat, j < B →
        f.dft_length / 2 < (fifo.length : Int) - j * ((f.dft_length - (f.num_taps - 1)) / 2)) →
      ¬ f.dft_length / 2 < (fifo.length : Int) - B * ((f.dft_length - (f.num_taps - 1)) / 2) →
      B ≤ fuel →
      ∃ o' : fifo_t, double_sample_loop env f fuel fifo.length fifo o
          = some (fifo.drop (B * ((f.dft_length - (f.num_taps - 1)) / 2).toNat), o')
        ∧ (o'.length : Int) = o.length + B * (f.dft_length - (f.num_taps - 1))
        ∧ o'.take o.length = o := by
  intro B
  induction B with
  | zero =>
    intro fuel fifo o _ hexit _
    have hex : ¬ (fifo.length : Int) > f.dft_length >>> (1 : Nat) := by
      rw [shift_one]; simpa using hexit
    refine ⟨o, ?_, by simp, by simp⟩
    cases fuel with
    | zero => rw [double_sample_loop, if_neg hex]; simp
    | succ fuel => rw [double_sample_loop, if_neg hex]; simp
  | succ B ih =>
    intro fuel fifo o hrun hexit hfuel
    have h0' : f.dft_length / 2 < (fifo.length : Int) := by
      simpa using hrun 0 (Nat.succ_pos B)
    have h0 : (fifo.length : Int) > f.dft_length >>> (1 : Nat) := by
      rw [shift_one]; exact h0'
    cases fuel with
    | zero => omega
    | succ fuel =>
      rw [double_sample_loop, if_pos h0]
      dsimp only
      rw [shift_one]
      have hread : fifo_read fifo ((f.dft_length - (f.num_taps - 1)) / 2)
          = fifo.drop ((f.dft_length - (f.num_taps - 1)) / 2).toNat := by
        rw [fifo_read, if_pos (by rw [fifo_occupancy]; omega)]
      have hlen1 : (((fifo.drop ((f.dft_length - (f.num_taps - 1)) / 2).toNat).length : Nat)
          : Int) = (fifo.length : Int) - (f.dft_length - (f.num_taps - 1)) / 2 := by
        rw [List.length_drop]; omega
      rw [hread, ← hlen1]
      obtain ⟨hbl, hbt⟩ := block_append o f.dft_length (f.num_taps - 1)
        (double_sample_block env f fifo) hO hle
      obtain ⟨o', hrec, hlen', htake'⟩ := ih fuel
        (fifo.drop ((f.dft_length - (f.num_taps - 1)) / 2).toNat)
        (fifo_trim_by (fifo_store (fifo_reserve o f.dft_length) o.length
          (double_sample_block env f fifo)) (f.num_taps - 1))
        (by
          intro j hj
          have := hrun (j + 1) (by omega)
          rw [hlen1]
          push_cast at this
          linarith)
        (by
          rw [hlen1]
          push_cast at hexit
          intro hc
          apply hexit
          linarith)
        (by omega)
      refine ⟨o', ?_, ?_, ?_⟩
      · rw [hrec, List.drop_drop]
        congr 2
        ring_nf
      · rw [hlen', hbl]
        push_cast
        have e : ((f.dft_length - (f.num_taps - 1)).toNat : Int)
            = f.dft_length - (f.num_taps - 1) := by omega
        rw [e]
        ring
      · have hle' : o.length ≤ (fifo_trim_by (fifo_store (fifo_reserve o f.dft_length)
            o.length (double_sample_block env f fifo)) (f.num_taps - 1)).length := by
          rw [hbl]; omega
        have := congrArg (List.take o.length) htake'
        rw [List.take_take, Nat.min_eq_left hle', hbt] at this
        exact this

theorem double_sample_block_reads (env : Env) (f : dft_filter_t) (heven : f.dft_length % 2 = 0)
    (input input' : fifo_t)
    (h : input.take (f.dft_length / 2).toNat = input'.take (f.dft_length / 2).toNat) :
    double_sample_block env f input = double_sample_block env f input' := by
  have hget : ∀ j : Nat, j < (f.dft_length / 2).toNat → input.getD j 0 = input'.getD j 0 := by
    intro j hj
    have := congrArg (fun l => l.getD j 0) h
    simp only [List.getD_eq_getElem?_getD, List.getElem?_take, hj, if_true] at this
    simpa [List.getD_eq_getElem?_getD] using this
  have hcount : ((f.dft_length + 1) / 2).toNat = (f.dft_length / 2).toNat := by omega
  rw [double_sample_block, double_sample_block]
  congr 3
  apply List.foldl_ext
  intro out j hj
  rw [List.mem_range, hcount] at hj
  rw [hget j hj]

/-- C12: for a half-band filter (slot 1) with an odd, positive num_taps and an even
dft_length >= num_taps, double_sample returns after B passes; before each pass more than
dft_length / 2 samples are buffered, and the block it computes depends on the input
indices 0 .. dft_length/2 - 1 only; each pass removes (dft_length - overlap) / 2 input
samples and appends dft_length - overlap output samples, so the output FIFO grows by
exactly twice the number of samples removed from the input FIFO. -/
theorem double_sample_counts (env : Env) (shared : rate_shared_t) (p : stage_t)
    (output_fifo : fifo_t)
    (hodd : (shared.half_band 1).num_taps % 2 = 1)
    (hpos : 0 < (shared.half_band 1).num_taps)
    (heven : (shared.half_band 1).dft_length % 2 = 0)
    (hge : (shared.half_band 1).num_taps ≤ (shared.half_band 1).dft_length) :
    ∃ (B : Nat) (output : fifo_t),
      B = double_sample_blocks (shared.half_band 1) (fifo_occupancy p.fifo)
      ∧ double_sample env shared p output_fifo
          = some ({ p with fifo := (p.fifo.drop (B * (((shared.half_band 1).dft_length
                      - ((shared.half_band 1).num_taps - 1)) / 2).toNat)) }, output)
      ∧ (∀ j : Nat, j < B → (shared.half_band 1).dft_length / 2
          < fifo_occupancy p.fifo - j * (((shared.half_band 1).dft_length
              - ((shared.half_band 1).num_taps - 1)) / 2))
      ∧ (∀ input input' : fifo_t,
          input.take ((shared.half_band 1).dft_length / 2).toNat
            = input'.take ((shared.half_band 1).dft_length / 2).toNat →
          double_sample_block env (shared.half_band 1) input
            = double_sample_block env (shared.half_band 1) input')
      ∧ (B : Int) * (((shared.half_band 1).dft_length
            - ((shared.half_band 1).num_taps - 1)) / 2) ≤ fifo_occupancy p.fifo
      ∧ fifo_occupancy output = fifo_occupancy output_fifo
          + B * ((shared.half_band 1).dft_length - ((shared.half_band 1).num_taps - 1))
      ∧ fifo_occupancy output - fifo_occupancy output_fifo
          = 2 * ((B : Int) * (((shared.half_band 1).dft_length
            - ((shared.half_band 1).num_taps - 1)) / 2))
      ∧ output.take output_fifo.length = output_fifo := by
  have hd : 1 ≤ ((shared.half_band 1).dft_length - ((shared.half_band 1).num_taps - 1)) / 2 := by
    omega
  obtain ⟨hrun, hexit, hfuel⟩ := double_sample_blocks_spec (shared.half_band 1)
    (fifo_occupancy p.fifo) hd
  have hocc : max 0 (fifo_occupancy p.fifo) = (p.fifo.length : Int) := by
    rw [fifo_occupancy]; exact max_eq_right (Int.ofNat_nonneg _)
  obtain ⟨o', hloop, hlen, htake⟩ := double_sample_loop_run env (shared.half_band 1) hd
    (by omega) (by omega) (double_sample_blocks (shared.half_band 1)
      (fifo_occupancy p.fifo)) ((p.fifo.length : Int)
        - (shared.half_band 1).dft_length >>> (1 : Nat)).toNat p.fifo output_fifo
    (by rw [fifo_occupancy] at hrun; exact hrun)
    (by rw [fifo_occupancy] at hexit; exact hexit)
    (by rw [fifo_occupancy] at hfuel; rw [shift_one]; exact hfuel)
  have hdeven : ((shared.half_band 1).dft_length
      - ((shared.half_band 1).num_taps - 1)) % 2 = 0 := by omega
  have h2 := Int.ediv_add_emod ((shared.half_band 1).dft_length
      - ((shared.half_band 1).num_taps - 1)) 2
  rw [hdeven] at h2
  refine ⟨_, o', rfl, ?_, hrun,
    fun input input' h => double_sample_block_reads env _ heven input input' h, ?_, ?_, ?_,
    htake⟩
  · rw [double_sample]
    rw [hocc, hloop]
  · rcases Nat.eq_zero_or_pos (double_sample_blocks (shared.half_band 1)
      (fifo_occupancy p.fifo)) with h0 | hpos'
    · rw [h0]; simp [fifo_occupancy]
    · have := hrun (double_sample_blocks (shared.half_band 1)
        (fifo_occupancy p.fifo) - 1) (by omega)
      have e : (((double_sample_blocks (shared.half_band 1)
          (fifo_occupancy p.fifo) - 1 : Nat)) : Int)
          = (double_sample_blocks (shared.half_band 1) (fifo_occupancy p.fifo) : Nat)
            - 1 := by omega
      rw [e] at this
      have hle : ((shared.half_band 1).dft_length - ((shared.half_band 1).num_taps - 1)) / 2
          ≤ (shared.half_band 1).dft_length / 2 := by omega
      rw [sub_mul, one_mul] at this
      linarith
  · rw [fifo_occupancy, fifo_occupancy, hlen]
  · rw [fifo_occupancy, fifo_occupancy, hlen]
    nlinarith

/-- Instance of the doubling counts: three taps, DFT size 4 and seven buffered samples
give B = 5 passes; five samples are removed and ten appended. -/
theorem double_sample_counts_witness :
    ((shared_taps3.half_band 1).num_taps % 2 = 1 ∧ 0 < (shared_taps3.half_band 1).num_taps
      ∧ (shared_taps3.half_band 1).dft_length % 2 = 0
      ∧ (shared_taps3.half_band 1).num_taps ≤ (shared_taps3.half_band 1).dft_length)
    ∧ (∃ (B : Nat) (output : fifo_t),
      B = double_sample_blocks (shared_taps3.half_band 1) (fifo_occupancy stage_seven.fifo)
      ∧ double_sample env_small shared_taps3 stage_seven [7]
          = some ({ stage_seven with
                    fifo := (stage_seven.fifo.drop (B * (((shared_taps3.half_band 1).dft_length
                      - ((shared_taps3.half_band 1).num_taps - 1)) / 2).toNat)) }, output)
      ∧ (∀ j : Nat, j < B → (shared_taps3.half_band 1).dft_length / 2
          < fifo_occupancy stage_seven.fifo - j * (((shared_taps3.half_band 1).dft_length
              - ((shared_taps3.half_band 1).num_taps - 1)) / 2))
      ∧ (∀ input input' : fifo_t,
          input.take ((shared_taps3.half_band 1).dft_length / 2).toNat
            = input'.take ((shared_taps3.half_band 1).dft_length / 2).toNat →
          double_sample_block env_small (shared_taps3.half_band 1) input
            = double_sample_block env_small (shared_taps3.half_band 1) input')
      ∧ (B : Int) * (((shared_taps3.half_band 1).dft_length
            - ((shared_taps3.half_band 1).num_taps - 1)) / 2)
          ≤ fifo_occupancy stage_seven.fifo
      ∧ fifo_occupancy output = fifo_occupancy [7]
          + B * ((shared_taps3.half_band 1).dft_length
            - ((shared_taps3.half_band 1).num_taps - 1))
      ∧ fifo_occupancy output - fifo_occupancy [7]
          = 2 * ((B : Int) * (((shared_taps3.half_band 1).dft_length
            - ((shared_taps3.half_band 1).num_taps - 1)) / 2))
      ∧ output.take [(7 : sample_t)].length = [7])
    ∧ double_sample_blocks (shared_taps3.half_band 1) (fifo_occupancy stage_seven.fifo) = 5
    ∧ (double_sample env_small shared_taps3 stage_seven [7]).map
        (fun r => (r.1.fifo, r.2.length)) = some ([6, 7], 11) :=
  ⟨⟨by decide, by decide, by decide, by decide⟩,
   double_sample_counts env_small shared_taps3 stage_seven [7] (by decide) (by decide)
     (by decide) (by decide),
   by decide, by decide!⟩

theorem land_pow_two (x : Int) (k : Nat) (hx : 0 ≤ x) :
    Int.land x (2 ^ k - 1) = x % 2 ^ k := by
  obtain ⟨m, rfl⟩ := Int.eq_ofNat_of_zero_le hx
  have h1 : ((2 : Int) ^ k - 1) = ((2 ^ k - 1 : Nat) : Int) := by
    have := Nat.one_le_two_pow (n := k)
    push_cast [Nat.cast_sub this]
    rfl
  rw [h1]
  show ((m &&& (2 ^ k - 1) : Nat) : Int) = _
  rw [Nat.and_pow_two_sub_one_eq_mod]
  push_cast
  rfl

theorem array_set_length (a : List sample_t) (k : Int) (v : sample_t) :
    (array_set a k v).length = a.length := by
  rw [array_set]; split_ifs <;> simp

theorem array_set_getD_same (a : List sample_t) (k : Int) (v : sample_t) (h0 : 0 ≤ k)
    (hk : k < a.length) : (array_set a k v).getD k.toNat 0 = v := by
  rw [array_set, if_pos h0]
  have : k.toNat < a.length := by omega
  simp [List.getD_eq_getElem?_getD, List.getElem?_set, this]

theorem array_set_getD_ne (a : List sample_t) (k : Int) (v : sample_t) (m : Nat)
    (hne : k ≠ m) : (array_set a k v).getD m 0 = a.getD m 0 := by
  rw [array_set]
  split_ifs with h0
  · have : k.toNat ≠ m := by omega
    simp [List.getD_eq_getElem?_getD, List.getElem?_set, this]
  · rfl

/-- A loop of stores at pairwise distinct positions inside the array: every stored value
is found at its position and all other positions keep their content. -/
theorem store_loop (g : Nat → Int) (val : Nat → sample_t) (a : List sample_t) (m : Nat)
    (h0 : ∀ i, i < m → 0 ≤ g i) (hlt : ∀ i, i < m → g i < a.length)
    (hinj : ∀ i i', i < m → i' < m → g i = g i' → i = i') :
    ((List.range m).foldl (fun c (i : Nat) => array_set c (g i) (val i)) a).length
      = a.length
    ∧ (∀ i, i < m →
        ((List.range m).foldl (fun c (i : Nat) => array_set c (g i) (val i)) a).getD
          (g i).toNat 0 = val i)
    ∧ (∀ k : Nat, (∀ i, i < m → g i ≠ k) →
        ((List.range m).foldl (fun c (i : Nat) => array_set c (g i) (val i)) a).getD k 0
          = a.getD k 0) := by
  induction m with
  | zero => exact ⟨rfl, fun i hi => absurd hi (Nat.not_lt_zero _), fun k _ => rfl⟩
  | succ m ih =>
    obtain ⟨hl, hv, ho⟩ := ih (fun i hi => h0 i (by omega)) (fun i hi => hlt i (by omega))
      (fun i i' hi hi' => hinj i i' (by omega) (by omega))
    rw [List.range_succ, List.foldl_append]
    simp only [List.foldl_cons, List.foldl_nil]
    refine ⟨?_, ?_, ?_⟩
    · rw [array_set_length, hl]
    · intro i hi
      rcases Nat.lt_succ_iff_lt_or_eq.mp hi with hlt' | heq
      · have hne : g m ≠ ((g i).toNat : Int) := by
          intro hc
          have hgi := h0 i hi
          have : g m = g i := by omega
          have := hinj m i (by omega) hi this
          omega
        rw [array_set_getD_ne _ _ _ _ hne]
        exact hv i hlt'
      · subst heq
        exact array_set_getD_same _ _ _ (h0 i hi) (by rw [hl]; exact hlt i hi)
    · intro k hk
      rw [array_set_getD_ne _ _ _ _ (hk m (by omega))]
      exact ho k (fun i hi => hk i (by omega))

theorem tap_position_eq (num_taps i : Int) (k : Nat) (hi0 : 0 ≤ i)
    (hge : num_taps ≤ 2 ^ k) :
    Int.land (i + 2 ^ k - num_taps + 1) (2 ^ k - 1) = tap_position num_taps (2 ^ k) i
    ∧ (i = num_taps - 1 → tap_position num_taps (2 ^ k) i = 0)
    ∧ (i < num_taps - 1 → tap_position num_taps (2 ^ k) i = i + 2 ^ k - num_taps + 1) := by
  have hD : (0 : Int) < 2 ^ k := by positivity
  refine ⟨?_, ?_, ?_⟩
  · rw [tap_position]; exact land_pow_two _ k (by omega)
  · intro h
    rw [tap_position, h]
    have : num_taps - 1 + 2 ^ k - num_taps + 1 = (2 : Int) ^ k := by ring
    rw [this]; exact Int.emod_self
  · intro h
    rw [tap_position]
    exact Int.emod_eq_of_lt (by omega) (by omega)

theorem place_taps_spec (tap : Int → sample_t) (num_taps multiplier : Int) (k : Nat)
    (hpos : 0 < num_taps) (hge : num_taps ≤ 2 ^ k) :
    ((place_taps tap num_taps (2 ^ k) multiplier).length : Int) = 2 ^ k
    ∧ (∀ i : Int, 0 ≤ i → i < num_taps →
        (place_taps tap num_taps (2 ^ k) multiplier).getD
          (tap_position num_taps (2 ^ k) i).toNat 0 = tap i / (2 ^ k : Int) * 2 * multiplier)
    ∧ (∀ m : Nat, (∀ i : Int, 0 ≤ i → i < num_taps →
          tap_position num_taps (2 ^ k) i ≠ m) →
        (place_taps tap num_taps (2 ^ k) multiplier).getD m 0 = 0) := by
  have hD : (0 : Int) < 2 ^ k := by positivity
  have hg : ∀ i : Nat, i < num_taps.toNat →
      Int.land ((i : Int) + 2 ^ k - num_taps + 1) (2 ^ k - 1)
        = tap_position num_taps (2 ^ k) i := fun i _ =>
    (tap_position_eq num_taps i k (by omega) hge).1
  have hrange : ∀ i : Int, 0 ≤ i → i < num_taps →
      0 ≤ tap_position num_taps (2 ^ k) i ∧ tap_position num_taps (2 ^ k) i < 2 ^ k := by
    intro i _ _
    rw [tap_position]
    exact ⟨Int.emod_nonneg _ (by omega), Int.emod_lt_of_pos _ hD⟩
  have hinj : ∀ i i' : Int, 0 ≤ i → i < num_taps → 0 ≤ i' → i' < num_taps →
      tap_position num_taps (2 ^ k) i = tap_position num_taps (2 ^ k) i' → i = i' := by
    intro i i' h0 h1 h0' h1' he
    have e := tap_position_eq num_taps i k h0 hge
    have e' := tap_position_eq num_taps i' k h0' hge
    rcases (by omega : i = num_taps - 1 ∨ i < num_taps - 1) with h | h <;>
    rcases (by omega : i' = num_taps - 1 ∨ i' < num_taps - 1) with h' | h'
    · omega
    · rw [e.2.1 h, e'.2.2 h'] at he; omega
    · rw [e.2.2 h, e'.2.1 h'] at he; omega
    · rw [e.2.2 h, e'.2.2 h'] at he; omega
  have hlen0 : ((List.replicate ((2 : Int) ^ k).toNat (0 : sample_t)).length : Int)
      = 2 ^ k := by
    rw [List.length_replicate]; omega
  obtain ⟨hl, hv, ho⟩ := store_loop
    (fun i : Nat => Int.land ((i : Int) + 2 ^ k - num_taps + 1) (2 ^ k - 1))
    (fun i : Nat => tap i / ((2 ^ k : Int) : ℚ) * 2 * multiplier)
    (List.replicate ((2 : Int) ^ k).toNat 0) num_taps.toNat
    (fun i hi => by
      show 0 ≤ Int.land ((i : Int) + 2 ^ k - num_taps + 1) (2 ^ k - 1)
      rw [hg i hi]; exact (hrange i (by omega) (by omega)).1)
    (fun i hi => by
      show Int.land ((i : Int) + 2 ^ k - num_taps + 1) (2 ^ k - 1) < _
      rw [hg i hi, hlen0]; exact (hrange i (by omega) (by omega)).2)
    (fun i i' hi hi' he => by
      have he' : Int.land ((i : Int) + 2 ^ k - num_taps + 1) (2 ^ k - 1)
          = Int.land ((i' : Int) + 2 ^ k - num_taps + 1) (2 ^ k - 1) := he
      rw [hg i hi, hg i' hi'] at he'
      have := hinj i i' (by omega) (by omega) (by omega) (by omega) he'
      omega)
  refine ⟨?_, ?_, ?_⟩
  · rw [place_taps]
    rw [hl, hlen0]
  · intro i h0 h1
    rw [place_taps]
    have hi : i.toNat < num_taps.toNat := by omega
    have := hv i.toNat hi
    simp only [] at this
    rw [hg i.toNat hi, Int.toNat_of_nonneg h0] at this
    exact this
  · intro m hm
    rw [place_taps]
    rw [ho m (fun i hi => by
      show Int.land ((i : Int) + 2 ^ k - num_taps + 1) (2 ^ k - 1) ≠ _
      rw [hg i hi]; exact hm i (by omega) (by omega))]
    simp only [List.getD_eq_getElem?_getD, List.getElem?_replicate]
    split_ifs <;> rfl

/-- C15: half_band_filter_init on a fresh slot with an explicit prototype h, an odd
positive num_taps and a DFT size 2^k >= num_taps: the slot gets dft_length, num_taps,
post_peak = num_taps / 2 and the transform of a buffer of dft_length entries in which
tap i sits at position (i + dft_length - num_taps + 1) mod dft_length (the index the
code masks with dft_length - 1) with the value h[|num_taps/2 - i|] * 2 * multiplier /
dft_length; tap num_taps-1 is at index 0 and taps 0..num_taps-2 at
dft_length-num_taps+1 .. dft_length-1, the positions are pairwise distinct and inside
the buffer, all other positions are 0, and tap i equals tap num_taps-1-i. -/
theorem half_band_filter_init_tap_placement (env : Env) (p : rate_shared_t) (which : Fin 2)
    (num_taps : Int) (h : List sample_t) (Fp att : ℚ) (multiplier : Int) (phase : ℚ)
    (allow_aliasing : Bool) (k : Nat)
    (hfresh : (p.half_band which).num_taps = 0)
    (hodd : num_taps % 2 = 1) (hpos : 0 < num_taps)
    (hD : env.lsx_set_dft_length num_taps = 2 ^ k) (hge : num_taps ≤ 2 ^ k) :
    ∃ buf : List sample_t,
      (half_band_filter_init env p which num_taps (some h) Fp att multiplier phase
          allow_aliasing).half_band which
        = { dft_length := 2 ^ k, num_taps := num_taps, post_peak := num_taps / 2,
            coefs := env.lsx_safe_rdft (2 ^ k) 1 buf }
      ∧ buf = place_taps (fun i => h.getD (Int.natAbs (Int.tdiv num_taps 2 - i)) 0)
          num_taps (2 ^ k) multiplier
      ∧ (buf.length : Int) = 2 ^ k
      ∧ (∀ i : Int, 0 ≤ i → i < num_taps →
          Int.land (i + 2 ^ k - num_taps + 1) (2 ^ k - 1) = tap_position num_taps (2 ^ k) i
          ∧ 0 ≤ tap_position num_taps (2 ^ k) i
          ∧ tap_position num_taps (2 ^ k) i < 2 ^ k
          ∧ buf.getD (tap_position num_taps (2 ^ k) i).toNat 0
              = mirrored_tap h num_taps (2 ^ k) multiplier i)
      ∧ tap_position num_taps (2 ^ k) (num_taps - 1) = 0
      ∧ (∀ i : Int, 0 ≤ i → i < num_taps - 1 →
          tap_position num_taps (2 ^ k) i = i + 2 ^ k - num_taps + 1)
      ∧ (∀ i i' : Int, 0 ≤ i → i < num_taps → 0 ≤ i' → i' < num_taps →
          tap_position num_taps (2 ^ k) i = tap_position num_taps (2 ^ k) i' → i = i')
      ∧ (∀ m : Nat, (∀ i : Int, 0 ≤ i → i < num_taps →
            tap_position num_taps (2 ^ k) i ≠ m) → buf.getD m 0 = 0)
      ∧ (∀ i : Int, 0 ≤ i → i < num_taps →
          mirrored_tap h num_taps (2 ^ k) multiplier i
            = mirrored_tap h num_taps (2 ^ k) multiplier (num_taps - 1 - i)) := by
  have hD0 : (0 : Int) < 2 ^ k := by positivity
  have htdiv : Int.tdiv num_taps 2 = num_taps / 2 :=
    Int.tdiv_eq_ediv (by omega) (by omega)
  obtain ⟨hl, hv, ho⟩ := place_taps_spec
    (fun i => h.getD (Int.natAbs (Int.tdiv num_taps 2 - i)) 0) num_taps multiplier k hpos hge
  refine ⟨_, ?_, rfl, hl, ?_, ?_, ?_, ?_, ho, ?_⟩
  · rw [half_band_filter_init]
    simp only [hfresh, ne_eq, not_true_eq_false, if_false, hD, Function.update_same, htdiv]
  · intro i h0 h1
    have e := tap_position_eq num_taps i k h0 hge
    refine ⟨e.1, ?_, ?_, ?_⟩
    · rw [tap_position]; exact Int.emod_nonneg _ (by omega)
    · rw [tap_position]; exact Int.emod_lt_of_pos _ hD0
    · rw [hv i h0 h1, mirrored_tap, htdiv]
      ring
  · exact (tap_position_eq num_taps (num_taps - 1) k (by omega) hge).2.1 rfl
  · intro i h0 h1
    exact (tap_position_eq num_taps i k h0 hge).2.2 h1
  · intro i i' h0 h1 h0' h1' he
    have e := tap_position_eq num_taps i k h0 hge
    have e' := tap_position_eq num_taps i' k h0' hge
    rcases (by omega : i = num_taps - 1 ∨ i < num_taps - 1) with h | h <;>
    rcases (by omega : i' = num_taps - 1 ∨ i' < num_taps - 1) with h' | h'
    · omega
    · rw [e.2.1 h, e'.2.2 h'] at he; omega
    · rw [e.2.2 h, e'.2.1 h'] at he; omega
    · rw [e.2.2 h, e'.2.2 h'] at he; omega
  · intro i _ _
    rw [mirrored_tap, mirrored_tap]
    have : num_taps / 2 - (num_taps - 1 - i) = -(num_taps / 2 - i) := by omega
    rw [this, Int.natAbs_neg]

/-- Instance of the tap placement: three taps of the prototype [1/2, 1/4] in a buffer of
four entries give [1/8, 0, 1/8, 1/4]: tap 2 at index 0, taps 0 and 1 at indices 2 and 3,
index 1 left at 0. -/
theorem half_band_filter_init_tap_placement_witness :
    ((shared_zero.half_band 0).num_taps = 0 ∧ (3 : Int) % 2 = 1 ∧ (0 : Int) < 3
      ∧ env_small.lsx_set_dft_length 3 = 2 ^ 2 ∧ (3 : Int) ≤ 2 ^ 2)
    ∧ ∃ buf : List sample_t,
      (half_band_filter_init env_small shared_zero 0 3 (some proto_three) 0 0 1 50
          false).half_band 0
        = { dft_length := 2 ^ 2, num_taps := 3, post_peak := 3 / 2,
            coefs := env_small.lsx_safe_rdft (2 ^ 2) 1 buf }
      ∧ buf = [1 / 8, 0, 1 / 8, 1 / 4]
      ∧ tap_position 3 (2 ^ 2) 2 = 0
      ∧ mirrored_tap proto_three 3 (2 ^ 2) 1 0 = mirrored_tap proto_three 3 (2 ^ 2) 1 2 := by
  obtain ⟨buf, h1, h2, _, _, h5, _, _, _, h9⟩ :=
    half_band_filter_init_tap_placement env_small shared_zero 0 3 proto_three 0 0 1 50 false 2
      (by decide) (by decide) (by decide) (by decide!) (by decide)
  exact ⟨⟨by decide, by decide, by decide, by decide!, by decide⟩,
    buf, h1, h2.trans (by decide!), h5, h9 0 (by decide) (by decide)⟩

theorem euclid_unique (a q r q' r' : Int) (h : a * q + r = a * q' + r')
    (h0 : 0 ≤ r) (h1 : r < a) (h0' : 0 ≤ r') (h1' : r' < a) : q = q' ∧ r = r' := by
  have hq : q = q' := by
    rcases lt_trichotomy q q' with hlt | heq | hgt
    · exfalso
      have : a * (q + 1) ≤ a * q' := mul_le_mul_of_nonneg_left (by omega) (by omega)
      rw [mul_add, mul_one] at this
      omega
    · exact heq
    · exfalso
      have : a * (q' + 1) ≤ a * q := mul_le_mul_of_nonneg_left (by omega) (by omega)
      rw [mul_add, mul_one] at this
      omega
  subst hq
  exact ⟨rfl, by omega⟩

theorem coef_split (io nc j x k : Int) :
    coef io nc j x k = (io + 1) * (nc * j + k) + (io - x) := by
  rw [coef]; ring

theorem coef_shift (io nc j x k : Int) : coef io nc j x k = coef io nc j 0 k - x := by
  rw [coef, coef]; ring

theorem coef_inj (io nc j k x j' k' x' : Int)
    (hk0 : 0 ≤ k) (hk1 : k < nc) (hk0' : 0 ≤ k') (hk1' : k' < nc)
    (hx0 : 0 ≤ x) (hx1 : x ≤ io) (hx0' : 0 ≤ x') (hx1' : x' ≤ io)
    (h : coef io nc j x k = coef io nc j' x' k') : j = j' ∧ k = k' ∧ x = x' := by
  rw [coef_split, coef_split] at h
  obtain ⟨h1, h2⟩ := euclid_unique _ _ _ _ _ h (by omega) (by omega) (by omega) (by omega)
  obtain ⟨h3, h4⟩ := euclid_unique _ _ _ _ _ h1 hk0 hk1 hk0' hk1'
  exact ⟨h3, h4, by omega⟩

theorem coef_bounds (io nc np j k x : Int) (hj0 : 0 ≤ j) (hj1 : j < np)
    (hk0 : 0 ≤ k) (hk1 : k < nc) (hx0 : 0 ≤ x) (hx1 : x ≤ io) :
    0 ≤ coef io nc j x k ∧ coef io nc j x k < nc * np * (io + 1) := by
  rw [coef_split]
  have hq0 : 0 ≤ nc * j + k := add_nonneg (mul_nonneg (by omega) hj0) hk0
  have hq1 : nc * j + k + 1 ≤ nc * np := by
    have : nc * (j + 1) ≤ nc * np := mul_le_mul_of_nonneg_left (by omega) (by omega)
    rw [mul_add, mul_one] at this
    omega
  have h1 : 0 ≤ (io + 1) * (nc * j + k) := mul_nonneg (by omega) hq0
  have h2 : (io + 1) * (nc * j + k + 1) ≤ (io + 1) * (nc * np) :=
    mul_le_mul_of_nonneg_left hq1 (by omega)
  have h3 : (io + 1) * (nc * j + k + 1) = (io + 1) * (nc * j + k) + (io + 1) := by ring
  have h4 : (io + 1) * (nc * np) = nc * np * (io + 1) := by ring
  constructor
  · omega
  · omega

theorem position_lt (nc np i j : Int) (hi1 : i < nc) (hj1 : j < np) (hnp : 0 ≤ np) :
    i * np + j < nc * np := by
  have : (i + 1) * np ≤ nc * np := mul_le_mul_of_nonneg_right (by omega) hnp
  rw [add_mul, one_mul] at this
  omega

theorem position_inj (np i j i' j' : Int) (hj0 : 0 ≤ j) (hj1 : j < np) (hj0' : 0 ≤ j')
    (hj1' : j' < np) (h : i * np + j = i' * np + j') : i = i' ∧ j = j' := by
  have h' : np * i + j = np * i' + j' := by rw [mul_comm np i, mul_comm np i']; exact h
  exact euclid_unique _ _ _ _ _ h' hj0 hj1 hj0' hj1'

/-- The stores of one iteration of prepare_coefs: the interp_order + 1 entries written
hold the values stored, every other entry and the length are unchanged. -/
theorem stores_spec (R : List sample_t) (io k0 k1 k2 k3 : Int) (f0 b c d : sample_t)
    (h0 : 0 ≤ io) (h3 : io ≤ 3) (e1 : k1 = k0 - 1) (e2 : k2 = k0 - 2) (e3 : k3 = k0 - 3)
    (hlo : 0 ≤ k0 - io) (hhi : k0 < R.length) (r : List sample_t)
    (hr : r = (let r := array_set R k0 f0
               let r := if io > 0 then array_set r k1 b else r
               let r := if io > 1 then array_set r k2 c else r
               let r := if io > 2 then array_set r k3 d else r
               r)) :
    r.length = R.length
    ∧ (∀ x : Int, 0 ≤ x → x ≤ io →
        r.getD (k0 - x).toNat 0
          = if x = 0 then f0 else if x = 1 then b else if x = 2 then c else d)
    ∧ (∀ m : Nat, (∀ x : Int, 0 ≤ x → x ≤ io → k0 - x ≠ m) → r.getD m 0 = R.getD m 0) := by
  subst hr e1 e2 e3
  dsimp only
  have hio : io = 0 ∨ io = 1 ∨ io = 2 ∨ io = 3 := by omega
  rcases hio with h | h | h | h
  · have g0 : ¬ io > 0 := by omega
    have g1 : ¬ io > 1 := by omega
    have g2 : ¬ io > 2 := by omega
    simp only [g0, g1, g2, if_false]
    refine ⟨array_set_length _ _ _, fun x hx0 hx1 => ?_, fun m hm => ?_⟩
    · have : x = 0 := by omega
      subst this
      rw [if_pos rfl, sub_zero]
      exact array_set_getD_same _ _ _ (by omega) hhi
    · exact array_set_getD_ne _ _ _ _ (by have := hm 0 (by omega) (by omega); omega)
  · have g0 : io > 0 := by omega
    have g1 : ¬ io > 1 := by omega
    have g2 : ¬ io > 2 := by omega
    simp only [g0, g1, g2, if_false, if_true]
    refine ⟨by simp only [array_set_length], fun x hx0 hx1 => ?_, fun m hm => ?_⟩
    · have : x = 0 ∨ x = 1 := by omega
      rcases this with h | h <;> subst h
      · rw [if_pos rfl, sub_zero, array_set_getD_ne _ _ _ _ (by omega)]
        exact array_set_getD_same _ _ _ (by omega) hhi
      · rw [if_neg (by decide), if_pos rfl]
        exact array_set_getD_same _ _ _ (by omega) (by simp only [array_set_length]; omega)
    · have m0 := hm 0 (by omega) (by omega)
      have m1 := hm 1 (by omega) (by omega)
      rw [array_set_getD_ne _ _ _ _ (by omega), array_set_getD_ne _ _ _ _ (by omega)]
  · have g0 : io > 0 := by omega
    have g1 : io > 1 := by omega
    have g2 : ¬ io > 2 := by omega
    simp only [g0, g1, g2, if_false, if_true]
    refine ⟨by simp only [array_set_length], fun x hx0 hx1 => ?_, fun m hm => ?_⟩
    · have : x = 0 ∨ x = 1 ∨ x = 2 := by omega
      rcases this with h | h | h <;> subst h
      · rw [if_pos rfl, sub_zero, array_set_getD_ne _ _ _ _ (by omega),
          array_set_getD_ne _ _ _ _ (by omega)]
        exact array_set_getD_same _ _ _ (by omega) hhi
      · rw [if_neg (by decide), if_pos rfl, array_set_getD_ne _ _ _ _ (by omega)]
        exact array_set_getD_same _ _ _ (by omega) (by simp only [array_set_length]; omega)
      · rw [if_neg (by decide), if_neg (by decide), if_pos rfl]
        exact array_set_getD_same _ _ _ (by omega) (by simp only [array_set_length]; omega)
    · have m0 := hm 0 (by omega) (by omega)
      have m1 := hm 1 (by omega) (by omega)
      have m2 := hm 2 (by omega) (by omega)
      rw [array_set_getD_ne _ _ _ _ (by omega), array_set_getD_ne _ _ _ _ (by omega),
        array_set_getD_ne _ _ _ _ (by omega)]
  · have g0 : io > 0 := by omega
    have g1 : io > 1 := by omega
    have g2 : io > 2 := by omega
    simp only [g0, g1, g2, if_true]
    refine ⟨by simp only [array_set_length], fun x hx0 hx1 => ?_, fun m hm => ?_⟩
    · have : x = 0 ∨ x = 1 ∨ x = 2 ∨ x = 3 := by omega
      rcases this with h | h | h | h <;> subst h
      · rw [if_pos rfl, sub_zero, array_set_getD_ne _ _ _ _ (by omega),
          array_set_getD_ne _ _ _ _ (by omega), array_set_getD_ne _ _ _ _ (by omega)]
        exact array_set_getD_same _ _ _ (by omega) hhi
      · rw [if_neg (by decide), if_pos rfl, array_set_getD_ne _ _ _ _ (by omega),
          array_set_getD_ne _ _ _ _ (by omega)]
        exact array_set_getD_same _ _ _ (by omega) (by simp only [array_set_length]; omega)
      · rw [if_neg (by decide), if_neg (by decide), if_pos rfl,
          array_set_getD_ne _ _ _ _ (by omega)]
        exact array_set_getD_same _ _ _ (by omega) (by simp only [array_set_length]; omega)
      · rw [if_neg (by decide), if_neg (by decide), if_neg (by decide)]
        exact array_set_getD_same _ _ _ (by omega) (by simp only [array_set_length]; omega)
    · have m0 := hm 0 (by omega) (by omega)
      have m1 := hm 1 (by omega) (by omega)
      have m2 := hm 2 (by omega) (by omega)
      have m3 := hm 3 (by omega) (by omega)
      rw [array_set_getD_ne _ _ _ _ (by omega), array_set_getD_ne _ _ _ _ (by omega),
        array_set_getD_ne _ _ _ _ (by omega), array_set_getD_ne _ _ _ _ (by omega)]

theorem prepare_f0_inner (coefs : List raw_coef_t) (nc np mult t : Int)
    (ht : t < nc * np - 1) :
    prepare_f0 coefs nc np mult t
      = (if t > 0 then coefs.getD (t - 1).toNat 0 else 0) * mult := by
  rw [prepare_f0, if_neg (by omega), if_neg (by omega)]

/-- One iteration of prepare_coefs keeps the loop invariant, moving from position
i * num_phases + j + 1 to i * num_phases + j. -/
theorem prepare_body_inv (coefs : List raw_coef_t) (nc np io mult i j : Int)
    (st : prepare_state) (h0 : 0 ≤ io) (h3 : io ≤ 3)
    (hi0 : 0 ≤ i) (hi1 : i < nc) (hj0 : 0 ≤ j) (hj1 : j < np)
    (hinv : prepare_inv coefs nc np io mult (i * np + j + 1) st) :
    prepare_inv coefs nc np io mult (i * np + j)
      (prepare_coefs_body coefs nc np io mult i j st) := by
  obtain ⟨hlen, hfm1, hf1, hf2, hent⟩ := hinv
  have hb := coef_bounds io nc np
  have hpos := position_lt nc np i j hi1 hj1 (by omega)
  obtain ⟨sl, ss, so⟩ := stores_spec st.result io
    (coef io nc j 0 (nc - 1 - i)) (coef io nc j 1 (nc - 1 - i))
    (coef io nc j 2 (nc - 1 - i)) (coef io nc j 3 (nc - 1 - i))
    st.fm1 _ _ _ h0 h3 (coef_shift _ _ _ _ _) (coef_shift _ _ _ _ _) (coef_shift _ _ _ _ _)
    (by have := (hb j (nc - 1 - i) io hj0 hj1 (by omega) (by omega) h0 (le_refl _)).1
        rw [coef_shift] at this; exact this)
    (by rw [hlen]; exact (hb j (nc - 1 - i) 0 hj0 hj1 (by omega) (by omega) (le_refl _) h0).2)
    (prepare_coefs_body coefs nc np io mult i j st).result rfl
  have hnew : (prepare_coefs_body coefs nc np io mult i j st).fm1
      = prepare_f0 coefs nc np mult (i * np + j - 1) := by
    rw [prepare_f0_inner _ _ _ _ _ (by omega)]
    rfl
  have hs1 : i * np + j + 1 - 1 = i * np + j := by ring
  have hs2 : i * np + j + 1 + 1 = i * np + j + 2 := by ring
  rw [hs1] at hfm1
  rw [hs2] at hf2
  refine ⟨by rw [sl, hlen], hnew, hfm1, hf1, ?_⟩
  intro i' j' x hi0' hi1' hj0' hj1' hle hx0 hx1
  rcases eq_or_lt_of_le hle with heq | hlt
  · obtain ⟨hii, hjj⟩ := position_inj np i j i' j' hj0 hj1 hj0' hj1' heq
    subst hii hjj
    have := ss x hx0 hx1
    rw [← coef_shift] at this
    rw [this, ← hfm1, ← hf1, ← hf2, ← hnew]
    rfl
  · rw [← hent i' j' x hi0' hi1' hj0' hj1' (by omega) hx0 hx1]
    have hv := (hb j' (nc - 1 - i') x hj0' hj1' (by omega) (by omega) hx0 hx1).1
    have := so (coef io nc j' x (nc - 1 - i')).toNat (by
      intro y hy0 hy1 hc
      rw [← coef_shift, Int.toNat_of_nonneg hv] at hc
      obtain ⟨e1, e2, _⟩ := coef_inj io nc j (nc - 1 - i) y j' (nc - 1 - i') x
        (by omega) (by omega) (by omega) (by omega) hy0 hy1 hx0 hx1 hc
      have : i = i' := by omega
      subst this e1
      omega)
    exact this

theorem prepare_inner_inv (coefs : List raw_coef_t) (nc np io mult i : Int)
    (h0 : 0 ≤ io) (h3 : io ≤ 3) (hi0 : 0 ≤ i) (hi1 : i < nc) (m : Nat) (hm : (m : Int) ≤ np)
    (st : prepare_state) (hinv : prepare_inv coefs nc np io mult (i * np + m) st) :
    prepare_inv coefs nc np io mult (i * np)
      ((List.range m).reverse.foldl (fun st (j : Nat) =>
        prepare_coefs_body coefs nc np io mult i j st) st) := by
  induction m generalizing st with
  | zero =>
    simp only [List.range_zero, List.reverse_nil, List.foldl_nil]
    simpa using hinv
  | succ m ih =>
    rw [List.range_succ, List.reverse_append, List.reverse_singleton, List.singleton_append,
      List.foldl_cons]
    apply ih (by omega)
    have e : i * np + ((m + 1 : Nat) : Int) = i * np + (m : Int) + 1 := by push_cast; ring
    rw [e] at hinv
    exact prepare_body_inv coefs nc np io mult i m st h0 h3 hi0 hi1 (by omega) (by omega) hinv

theorem prepare_outer_inv (coefs : List raw_coef_t) (nc np io mult : Int)
    (h0 : 0 ≤ io) (h3 : io ≤ 3) (hnp : 0 ≤ np) (n : Nat) (hn : (n : Int) ≤ nc)
    (st : prepare_state) (hinv : prepare_inv coefs nc np io mult (n * np) st) :
    prepare_inv coefs nc np io mult 0
      ((List.range n).reverse.foldl (fun st (i : Nat) =>
        (List.range np.toNat).reverse.foldl (fun st (j : Nat) =>
          prepare_coefs_body coefs nc np io mult i j st) st) st) := by
  induction n generalizing st with
  | zero =>
    simp only [List.range_zero, List.reverse_nil, List.foldl_nil]
    simpa using hinv
  | succ n ih =>
    rw [List.range_succ, List.reverse_append, List.reverse_singleton, List.singleton_append,
      List.foldl_cons]
    apply ih (by omega)
    have e : ((n + 1 : Nat) : Int) * np = (n : Int) * np + (np.toNat : Int) := by
      rw [Int.toNat_of_nonneg hnp]; push_cast; ring
    rw [e] at hinv
    exact prepare_inner_inv coefs nc np io mult n h0 h3 (by omega) (by omega) np.toNat
      (by omega) st hinv

theorem prepare_init_inv (coefs : List raw_coef_t) (nc np io mult : Int)
    (h0 : 0 ≤ io) (hnc : 1 ≤ nc) (hnp : 1 ≤ np) :
    prepare_inv coefs nc np io mult (nc * np)
      { result := List.replicate (nc * np * (io + 1)).toNat 0,
        fm1 := coefs.getD 0 0, f1 := 0, f2 := 0 } := by
  have hL : 1 ≤ nc * np := by
    have := mul_le_mul hnc hnp (by omega) (by omega)
    omega
  refine ⟨?_, ?_, ?_, ?_, ?_⟩
  · simp only [List.length_replicate]
    have : 0 ≤ nc * np * (io + 1) := mul_nonneg (by omega) (by omega)
    omega
  · show coefs.getD 0 0 = _
    rw [prepare_f0, if_neg (by omega), if_pos rfl]
  · show (0 : ℚ) = _
    rw [prepare_f0, if_pos (le_refl _)]
  · show (0 : ℚ) = _
    rw [prepare_f0, if_pos (by omega)]
  · intro i j x _ hi1 _ hj1 hle _ _
    have := position_lt nc np i j hi1 hj1 (by omega)
    omega

theorem flatMap_single {α β : Type} (f : α → β) (l : List α) :
    (l.flatMap fun a => [f a]) = l.map f := by
  induction l with
  | nil => rfl
  | cons a l ih => simp [List.flatMap_cons, ih]
theorem bind_pure_map {α β : Type} (f : α → β) (l : List α) :
    (bind l (fun a => pure (f a)) : List β) = l.map f := by
  simp only [List.bind_eq_flatMap, List.pure_def]
  exact flatMap_single f l
theorem prepare_coefs_eq (coefs : List raw_coef_t) (nc np io mult : Int) :
    prepare_coefs coefs nc np io mult
      = ((List.range nc.toNat).reverse.foldl (fun st (i : Nat) =>
        (List.range np.toNat).reverse.foldl (fun st (j : Nat) =>
          prepare_coefs_body coefs nc np io mult i j st) st)
        { result := List.replicate (nc * np * (io + 1)).toNat 0,
          fm1 := coefs.getD 0 0, f1 := 0, f2 := 0 }).result := by
  rw [prepare_coefs]
  simp only [bind_pure_map, List.foldl_map]
/-- Every entry of the table that prepare_coefs returns: the coefficient x of
(phase j, fir_coef num_coefs - 1 - i) is the one the body computes from the stencil of f0
values around the position i * num_phases + j; the table has
num_coefs * num_phases * (interp_order + 1) entries. -/
theorem prepare_coefs_entries (coefs : List raw_coef_t) (nc np io mult : Int)
    (h0 : 0 ≤ io) (h3 : io ≤ 3) (hnc : 1 ≤ nc) (hnp : 1 ≤ np) :
    ((prepare_coefs coefs nc np io mult).length : Int) = nc * np * (io + 1)
    ∧ ∀ i j x : Int, 0 ≤ i → i < nc → 0 ≤ j → j < np → 0 ≤ x → x ≤ io →
      (prepare_coefs coefs nc np io mult).getD (coef io nc j x (nc - 1 - i)).toNat 0
        = prepare_entry io
            (prepare_f0 coefs nc np mult (i * np + j - 1))
            (prepare_f0 coefs nc np mult (i * np + j))
            (prepare_f0 coefs nc np mult (i * np + j + 1))
            (prepare_f0 coefs nc np mult (i * np + j + 2)) x := by
  have h := prepare_outer_inv coefs nc np io mult h0 h3 (by omega) nc.toNat (by omega) _
    (by rw [Int.toNat_of_nonneg (by omega)]
        exact prepare_init_inv coefs nc np io mult h0 hnc hnp)
  obtain ⟨hlen, _, _, _, hent⟩ := h
  refine ⟨?_, ?_⟩
  · rw [prepare_coefs_eq]; exact hlen
  · intro i j x hi0 hi1 hj0 hj1 hx0 hx1
    rw [prepare_coefs_eq]
    exact hent i j x hi0 hi1 hj0 hj1
      (add_nonneg (mul_nonneg hi0 (by omega)) hj0) hx0 hx1

theorem table_poly_one (T : List sample_t) (nc j k : Int) (x : ℚ) :
    table_poly T 1 nc j k x
      = T.getD (coef 1 nc j 0 k).toNat 0 + T.getD (coef 1 nc j 1 k).toNat 0 * x := by
  simp [table_poly, List.range_succ]

theorem table_poly_two (T : List sample_t) (nc j k : Int) (x : ℚ) :
    table_poly T 2 nc j k x
      = T.getD (coef 2 nc j 0 k).toNat 0 + T.getD (coef 2 nc j 1 k).toNat 0 * x
        + T.getD (coef 2 nc j 2 k).toNat 0 * x ^ 2 := by
  simp [table_poly, List.range_succ]
  ring

theorem table_poly_three (T : List sample_t) (nc j k : Int) (x : ℚ) :
    table_poly T 3 nc j k x
      = T.getD (coef 3 nc j 0 k).toNat 0 + T.getD (coef 3 nc j 1 k).toNat 0 * x
        + T.getD (coef 3 nc j 2 k).toNat 0 * x ^ 2
        + T.getD (coef 3 nc j 3 k).toNat 0 * x ^ 3 := by
  simp [table_poly, List.range_succ]
  ring

/-- The order-0 coefficient of every table entry is the f0 of its iteration. -/
theorem prepare_coefs_order0 (coefs : List raw_coef_t) (nc np io mult : Int)
    (h0 : 0 ≤ io) (h3 : io ≤ 3) (hnc : 1 ≤ nc) (hnp : 1 ≤ np) (i j : Int)
    (hi0 : 0 ≤ i) (hi1 : i < nc) (hj0 : 0 ≤ j) (hj1 : j < np) :
    (prepare_coefs coefs nc np io mult).getD (coef io nc j 0 (nc - 1 - i)).toNat 0
      = prepare_f0 coefs nc np mult (i * np + j) := by
  rw [(prepare_coefs_entries coefs nc np io mult h0 h3 hnc hnp).2 i j 0 hi0 hi1 hj0 hj1
    (le_refl _) h0]
  rfl

/-- The polynomial of a table entry at x = 0 and x = 1: the f0 of its own iteration and
the f0 of the next position. -/
theorem prepare_coefs_poly (coefs : List raw_coef_t) (nc np io mult : Int)
    (h1 : 1 ≤ io) (h3 : io ≤ 3) (hnc : 1 ≤ nc) (hnp : 1 ≤ np) (i j : Int)
    (hi0 : 0 ≤ i) (hi1 : i < nc) (hj0 : 0 ≤ j) (hj1 : j < np) :
    table_poly (prepare_coefs coefs nc np io mult) io nc j (nc - 1 - i) 0
      = prepare_f0 coefs nc np mult (i * np + j)
    ∧ table_poly (prepare_coefs coefs nc np io mult) io nc j (nc - 1 - i) 1
      = prepare_f0 coefs nc np mult (i * np + j + 1) := by
  have he := (prepare_coefs_entries coefs nc np io mult (by omega) h3 hnc hnp).2 i j
  have e0 := he 0 hi0 hi1 hj0 hj1 (le_refl _) (by omega)
  have e1 := he 1 hi0 hi1 hj0 hj1 (by omega) h1
  have hio : io = 1 ∨ io = 2 ∨ io = 3 := by omega
  rcases hio with h | h | h <;> subst h
  · rw [table_poly_one, table_poly_one, e0, e1]
    simp only [prepare_entry]
    norm_num
  · have e2 := he 2 hi0 hi1 hj0 hj1 (by omega) (by omega)
    rw [table_poly_two, table_poly_two, e0, e1, e2]
    simp only [prepare_entry]
    norm_num
  · have e2 := he 2 hi0 hi1 hj0 hj1 (by omega) (by omega)
    have e3 := he 3 hi0 hi1 hj0 hj1 (by omega) (by omega)
    rw [table_poly_three, table_poly_three, e0, e1, e2, e3]
    simp only [prepare_entry]
    norm_num
    ring

/-- C14: for interp_order 1, 2 and 3 (num_coefs, num_phases >= 1) the polynomial stored
for the entry (phase j, fir_coef num_coefs-1-i) of the table of prepare_coefs, evaluated
at x = 0, is the entry's order-0 coefficient, which is the f0 of its iteration; evaluated
at x = 1 it is the sum of the stored coefficients (f0 + b, f0 + b + c, f0 + b + c + d)
and equals f1: the order-0 coefficient of the entry at the next prototype position
(phase j + 1 of the same tap, or phase 0 of tap i + 1 after the last phase), and 0 at
the last position. -/
theorem prepare_coefs_polynomial_joins (coefs : List raw_coef_t) (num_coefs num_phases
    interp_order multiplier : Int) (h1 : 1 ≤ interp_order) (h3 : interp_order ≤ 3)
    (hnc : 1 ≤ num_coefs) (hnp : 1 ≤ num_phases) (i j : Int)
    (hi0 : 0 ≤ i) (hi1 : i < num_coefs) (hj0 : 0 ≤ j) (hj1 : j < num_phases) :
    table_poly (prepare_coefs coefs num_coefs num_phases interp_order multiplier)
        interp_order num_coefs j (num_coefs - 1 - i) 0
      = (prepare_coefs coefs num_coefs num_phases interp_order multiplier).getD
          (coef interp_order num_coefs j 0 (num_coefs - 1 - i)).toNat 0
    ∧ (prepare_coefs coefs num_coefs num_phases interp_order multiplier).getD
          (coef interp_order num_coefs j 0 (num_coefs - 1 - i)).toNat 0
      = prepare_f0 coefs num_coefs num_phases multiplier (i * num_phases + j)
    ∧ table_poly (prepare_coefs coefs num_coefs num_phases interp_order multiplier)
        interp_order num_coefs j (num_coefs - 1 - i) 1
      = ((List.range (interp_order + 1).toNat).map (fun m : Nat =>
          (prepare_coefs coefs num_coefs num_phases interp_order multiplier).getD
            (coef interp_order num_coefs j m (num_coefs - 1 - i)).toNat 0)).sum
    ∧ (j + 1 < num_phases →
        table_poly (prepare_coefs coefs num_coefs num_phases interp_order multiplier)
            interp_order num_coefs j (num_coefs - 1 - i) 1
          = (prepare_coefs coefs num_coefs num_phases interp_order multiplier).getD
              (coef interp_order num_coefs (j + 1) 0 (num_coefs - 1 - i)).toNat 0)
    ∧ (j + 1 = num_phases → i + 1 < num_coefs →
        table_poly (prepare_coefs coefs num_coefs num_phases interp_order multiplier)
            interp_order num_coefs j (num_coefs - 1 - i) 1
          = (prepare_coefs coefs num_coefs num_phases interp_order multiplier).getD
              (coef interp_order num_coefs 0 0 (num_coefs - 1 - (i + 1))).toNat 0)
    ∧ (j + 1 = num_phases → i + 1 = num_coefs →
        table_poly (prepare_coefs coefs num_coefs num_phases interp_order multiplier)
            interp_order num_coefs j (num_coefs - 1 - i) 1 = 0) := by
  obtain ⟨p0, p1⟩ := prepare_coefs_poly coefs num_coefs num_phases interp_order multiplier
    h1 h3 hnc hnp i j hi0 hi1 hj0 hj1
  have o := prepare_coefs_order0 coefs num_coefs num_phases interp_order multiplier
    (by omega) h3 hnc hnp
  refine ⟨?_, o i j hi0 hi1 hj0 hj1, ?_, ?_, ?_, ?_⟩
  · rw [p0, o i j hi0 hi1 hj0 hj1]
  · simp only [table_poly, one_pow, mul_one]
  · intro hj
    rw [p1, o i (j + 1) hi0 hi1 (by omega) hj]
    congr 1
    ring
  · intro hj hi
    rw [p1, o (i + 1) 0 (by omega) hi (le_refl _) (by omega)]
    congr 1
    rw [← hj]
    ring
  · intro hj hi
    rw [p1, prepare_f0, if_pos]
    have : i * num_phases + j + 1 = num_coefs * num_phases := by
      rw [← hi, ← hj]; ring
    omega

/-- Instance of the joining polynomials: the cubic table of the prototype [1, 2, 1] with
two taps, two phases and gain 2; the entry of tap 0, phase 1 evaluates to 2 at x = 0 and
to 4, the order-0 coefficient of tap 1, phase 0, at x = 1. -/
theorem prepare_coefs_polynomial_joins_witness :
    ((1 : Int) ≤ 3 ∧ (3 : Int) ≤ 3 ∧ (1 : Int) ≤ 2 ∧ (0 : Int) ≤ 0 ∧ (0 : Int) < 2
      ∧ (0 : Int) ≤ 1 ∧ (1 : Int) < 2)
    ∧ table_poly (prepare_coefs proto_121 2 2 3 2) 3 2 1 (2 - 1 - 0) 0 = 2
    ∧ table_poly (prepare_coefs proto_121 2 2 3 2) 3 2 1 (2 - 1 - 0) 1 = 4
    ∧ (prepare_coefs proto_121 2 2 3 2).getD (coef 3 2 0 0 (2 - 1 - (0 + 1))).toNat 0 = 4
    ∧ table_poly (prepare_coefs proto_121 2 2 3 2) 3 2 1 (2 - 1 - 0) 1
        = (prepare_coefs proto_121 2 2 3 2).getD (coef 3 2 0 0 (2 - 1 - (0 + 1))).toNat 0 := by
  obtain ⟨_, _, _, _, h5, _⟩ :=
    prepare_coefs_polynomial_joins proto_121 2 2 3 2 (by decide) (by decide) (by decide)
      (by decide) 0 1 (by decide) (by decide) (by decide) (by decide)
  exact ⟨⟨by decide, by decide, by decide, by decide, by decide, by decide, by decide⟩,
    by decide!, by decide!, by decide!, h5 (by decide) (by decide)⟩

/-- C13 (divergence): on the prototype [1, 2, 1] with num_coefs = 2, num_phases = 2,
interp_order 0 and multiplier 2, prepare_coefs returns [4, 0, 1, 2]: the entries of the
positions pos = 1, 0, -1 are multiplier * prototype[pos] (4, 2 and 0), but the entry of
tap i = 1, phase j = 1 (pos = 2), written in the first iteration from the initial
fm1 = coefs[0], is 1 and not multiplier * prototype[2] = 2. -/
theorem prepare_coefs_first_entry_unscaled :
    prepare_coefs proto_121 2 2 0 2 = [4, 0, 1, 2]
    ∧ (prepare_coefs proto_121 2 2 0 2).getD (coef 0 2 1 0 (2 - 1 - 1)).toNat 0 = 1
    ∧ (2 : ℚ) * proto_121.getD (1 * 2 + 1 - 1) 0 = 2
    ∧ (prepare_coefs proto_121 2 2 0 2).getD (coef 0 2 1 0 (2 - 1 - 1)).toNat 0
        ≠ 2 * proto_121.getD (1 * 2 + 1 - 1) 0
    ∧ (prepare_coefs proto_121 2 2 0 2).getD (coef 0 2 0 0 (2 - 1 - 1)).toNat 0
        = 2 * proto_121.getD (1 * 2 + 0 - 1) 0
    ∧ (prepare_coefs proto_121 2 2 0 2).getD (coef 0 2 1 0 (2 - 1 - 0)).toNat 0
        = 2 * proto_121.getD (0 * 2 + 1 - 1) 0
    ∧ (prepare_coefs proto_121 2 2 0 2).getD (coef 0 2 0 0 (2 - 1 - 0)).toNat 0 = 0 := by
  decide!

theorem search_body_upsample (i : Int) (st : search_state)
    (h : (search_body i st).upsample = true) : st.upsample = true := by
  rw [search_body] at h
  split_ifs at h <;> exact h

theorem search_loop_upsample : ∀ (fuel : Nat) (i : Int) (st : search_state),
    (search_loop fuel i st).upsample = true → st.upsample = true := by
  intro fuel
  induction fuel with
  | zero => intro i st h; exact h
  | succ fuel ih =>
    intro i st h
    rw [search_loop] at h
    split_ifs at h
    · exact search_body_upsample i st (ih _ _ h)
    · exact h

/-- The plan of rate_init on a zero-initialised pipeline: the level is not negative, an
upsampling plan has level 0, and Quick plans level 0 without upsampling. -/
theorem rate_init_planned_zero (factor : ℚ) (quality : Int) (hf : 0 < factor) :
    0 ≤ (rate_init_planned rate_zero factor quality).level
    ∧ ((rate_init_planned rate_zero factor quality).upsample = true →
        (rate_init_planned rate_zero factor quality).level = 0)
    ∧ (quality = Quick → (rate_init_planned rate_zero factor quality).upsample = false
        ∧ (rate_init_planned rate_zero factor quality).level = 0) := by
  refine ⟨rate_init_planned_level_nonneg rate_zero factor quality (le_refl _), ?_, ?_⟩
  · rw [rate_init_planned]
    split_ifs with hq
    · intro hu
      have h1 := search_loop_upsample _ _ _ hu
      have h2 : factor < 1 := by simpa [plan_upsample] using h1
      exact plan_level_lt_one factor hf h2
    · intro _; rfl
  · intro hq
    rw [rate_init_planned, if_neg (by simp [hq])]
    exact ⟨rfl, rfl⟩

theorem set_stage_which (p : rate_t) (i k : Int) (g : stage_t → stage_t)
    (hg : ∀ s, (g s).which = s.which) :
    ((set_stage p i g).stages k).which = (p.stages k).which := by
  by_cases h : k = i
  · subst h; rw [set_stage_stages_same, hg]
  · rw [set_stage_stages_ne _ _ _ _ h]

theorem set_stage_fn (p : rate_t) (i k : Int) (g : stage_t → stage_t)
    (hg : ∀ s, (g s).fn = s.fn) :
    ((set_stage p i g).stages k).fn = (p.stages k).fn := by
  by_cases h : k = i
  · subst h; rw [set_stage_stages_same, hg]
  · rw [set_stage_stages_ne _ _ _ _ h]

/-- The state of rate_init at the choice of the last kernel, on a zero-initialised
pipeline: every stage has which = 0 and no kernel yet, and the shared block is the one
passed in. -/
theorem rate_init_entry_zero (shared : rate_shared_t) (factor : ℚ) (quality : Int) :
    (rate_init_entry rate_zero shared factor quality).shared = shared
    ∧ ∀ k : Int,
      ((rate_init_entry rate_zero shared factor quality).p.stages k).which = 0
      ∧ ((rate_init_entry rate_zero shared factor quality).p.stages k).fn
          = stage_fn_t.null := by
  refine ⟨rfl, fun k => ?_⟩
  rw [rate_init_entry, rate_init_step]
  dsimp only
  constructor
  · rw [set_stage_which, set_stage_which]
    · rfl
    all_goals intro s; rfl
  · rw [set_stage_fn, set_stage_fn]
    · rfl
    all_goals intro s; rfl

theorem rate_init_quick_facts (st : init_state) :
    (rate_init_quick st).shared = st.shared
    ∧ (∀ k, ((rate_init_quick st).p.stages k).which = (st.p.stages k).which)
    ∧ ((rate_init_quick st).p.stages st.p.level).fn = stage_fn_t.cubic_spline := by
  rw [rate_init_quick]
  dsimp only
  refine ⟨rfl, fun k => ?_, ?_⟩
  · simp only [set_stage_level]
    rw [set_stage_which, set_stage_which, set_stage_which]
    all_goals intro s; rfl
  · simp only [set_stage_level, set_stage_stages_same]

theorem rate_init_poly_facts (env : Env) (st : init_state) (quality interp_order : Int)
    (hk : ∀ n k : Int, ∃ m : Nat, ((env.poly_firs n).interp k).fn = stage_fn_t.poly_fir m) :
    (rate_init_poly env st quality interp_order).shared.half_band = st.shared.half_band
    ∧ (∀ k, ((rate_init_poly env st quality interp_order).p.stages k).which
        = (st.p.stages k).which)
    ∧ ∃ m : Nat, ((rate_init_poly env st quality interp_order).p.stages st.p.level).fn
        = stage_fn_t.poly_fir m := by
  refine ⟨?_, fun k => ?_, ?_⟩
  · rw [rate_init_poly]
    dsimp only
    cases st.shared.poly_fir_coefs <;> rfl
  · rw [rate_init_poly]
    dsimp only
    by_cases h : (st.p.upsample && decide (quality = Low)) = true
    · simp only [set_stage_upsample, h, if_true, set_stage_level]
      rw [set_stage_which, set_stage_which, set_stage_which, set_stage_which]
      · dsimp only
        rw [set_stage_which]
        intro s; rfl
      all_goals intro s; rfl
    · simp only [set_stage_upsample, h, Bool.false_eq_true, if_false, set_stage_level]
      rw [set_stage_which, set_stage_which, set_stage_which, set_stage_which]
      · dsimp only
        rw [set_stage_which]
        intro s; rfl
      all_goals intro s; rfl
  · rw [rate_init_poly]
    dsimp only
    by_cases h : (st.p.upsample && decide (quality = Low)) = true
    · simp only [set_stage_upsample, h, if_true, set_stage_level, set_stage_stages_same]
      exact hk _ _
    · simp only [set_stage_upsample, h, Bool.false_eq_true, if_false, set_stage_level,
        set_stage_stages_same]
      exact hk _ _

/-- The choice of the last kernel: the half-band slots and every which are untouched;
when the output index moves, the last stage has a cubic_spline or polyphase kernel; an
upsampling plan of quality Low drops the pre-stage (both indices move by one), and Quick
moves the output index by one. -/
theorem rate_init_last_facts (env : Env) (st : init_state) (quality interp_order : Int)
    (hk : ∀ n k : Int, ∃ m : Nat, ((env.poly_firs n).interp k).fn = stage_fn_t.poly_fir m) :
    (rate_init_last env st quality interp_order).shared.half_band = st.shared.half_band
    ∧ (∀ k, ((rate_init_last env st quality interp_order).p.stages k).which
        = (st.p.stages k).which)
    ∧ (st.p.output_stage_num < (rate_init_last env st quality interp_order).p.output_stage_num →
        ((rate_init_last env st quality interp_order).p.stages st.p.level).fn
            = stage_fn_t.cubic_spline
        ∨ ∃ m : Nat, ((rate_init_last env st quality interp_order).p.stages st.p.level).fn
            = stage_fn_t.poly_fir m)
    ∧ (st.p.upsample = true → quality = Low →
        (rate_init_last env st quality interp_order).p.input_stage_num
            = st.p.input_stage_num + 1
        ∧ (rate_init_last env st quality interp_order).p.output_stage_num
            = st.p.output_stage_num + 1)
    ∧ (quality = Quick →
        (rate_init_last env st quality interp_order).p.output_stage_num
            = st.p.output_stage_num + 1) := by
  rw [rate_init_last]
  split_ifs with h1 h2
  · obtain ⟨a, b, c⟩ := rate_init_quick_facts st
    obtain ⟨_, _, _, d⟩ := rate_init_quick_p st
    refine ⟨by rw [a], b, fun _ => Or.inl c, ?_, fun _ => d⟩
    intro _ hq
    rw [h1] at hq
    exact absurd hq (by decide)
  · obtain ⟨a, b, c⟩ := rate_init_poly_facts env st quality interp_order hk
    obtain ⟨_, _, e, d⟩ := rate_init_poly_p env st quality interp_order
    refine ⟨a, b, fun _ => Or.inr c, ?_, fun hq => absurd hq h1⟩
    intro hu hq
    rw [e, d, if_pos ⟨hu, hq⟩, if_pos ⟨hu, hq⟩]
    exact ⟨rfl, rfl⟩
  · refine ⟨rfl, fun _ => rfl, fun h => absurd h (lt_irrefl _), ?_, fun hq => absurd hq h1⟩
    intro hu hq
    exact absurd (Or.inr ⟨hu, hq⟩) h2

theorem filters_designed (env : Env) (quality : Int) (hq : quality > Low) :
    (filters env (quality - Low)).h = none := by
  have h0 : quality - Low ≠ 0 := by
    have : Low = 1 := rfl
    omega
  rw [filters, if_neg h0]
  split_ifs <;> rfl

theorem slots_sound_zero : slots_sound shared_zero := by
  intro w h
  exact absurd rfl h

/-- A call of half_band_filter_init without a prototype leaves its slot initialised, keeps
every initialised slot ready and does not touch the other slot. -/
theorem half_band_filter_init_designed (env : Env) (henv : env_sound env)
    (p : rate_shared_t) (which : Fin 2) (num_taps : Int) (Fp att : ℚ) (multiplier : Int)
    (phase : ℚ) (allow_aliasing : Bool) (hs : slots_sound p) :
    ((half_band_filter_init env p which num_taps none Fp att multiplier phase
        allow_aliasing).half_band which).num_taps ≠ 0
    ∧ slots_sound (half_band_filter_init env p which num_taps none Fp att multiplier phase
        allow_aliasing)
    ∧ (∀ w, w ≠ which →
        (half_band_filter_init env p which num_taps none Fp att multiplier phase
          allow_aliasing).half_band w = p.half_band w) := by
  obtain ⟨hd, hp, hl, -⟩ := henv
  rw [half_band_filter_init]
  dsimp only
  by_cases h0 : (p.half_band which).num_taps ≠ 0
  · rw [if_pos h0]
    exact ⟨h0, hs, fun _ _ => rfl⟩
  · rw [if_neg h0]
    have hn : (if phase ≠ 50 then
          env.lsx_fir_to_phase (env.lsx_design_lpf Fp 1 2 allow_aliasing att num_taps 0).1
            (env.lsx_design_lpf Fp 1 2 allow_aliasing att num_taps 0).2
            (p.half_band which).post_peak phase
        else ((env.lsx_design_lpf Fp 1 2 allow_aliasing att num_taps 0).1,
          (env.lsx_design_lpf Fp 1 2 allow_aliasing att num_taps 0).2,
          Int.tdiv (env.lsx_design_lpf Fp 1 2 allow_aliasing att num_taps 0).2 2)).2.1 ≠ 0 := by
      split_ifs
      · exact hp _ _ _ _ (hd _ _ _ _ _ _ _)
      · exact hd _ _ _ _ _ _ _
    refine ⟨?_, ?_, ?_⟩
    · simp only [Function.update_same]
      exact hn
    · intro w hw
      by_cases hww : w = which
      · subst hww
        simp only [Function.update_same] at hw ⊢
        refine ⟨hn, ?_⟩
        have := hl (if phase ≠ 50 then
          env.lsx_fir_to_phase (env.lsx_design_lpf Fp 1 2 allow_aliasing att num_taps 0).1
            (env.lsx_design_lpf Fp 1 2 allow_aliasing att num_taps 0).2
            (p.half_band w).post_peak phase
        else ((env.lsx_design_lpf Fp 1 2 allow_aliasing att num_taps 0).1,
          (env.lsx_design_lpf Fp 1 2 allow_aliasing att num_taps 0).2,
          Int.tdiv (env.lsx_design_lpf Fp 1 2 allow_aliasing att num_taps 0).2 2)).2.1
        dsimp only
        omega
      · simp only [Function.update_noteq hww] at hw ⊢
        exact hs w hw
    · intro w hw
      simp only [Function.update_noteq hw]

theorem slots_sound_copy (shared : rate_shared_t) (hs : slots_sound shared) :
    slots_sound { shared with
      half_band := Function.update shared.half_band 0 (shared.half_band 1) } := by
  intro w hw
  by_cases hww : w = 0
  · subst hww
    simp only [Function.update_same] at hw ⊢
    exact hs 1 hw
  · simp only [Function.update_noteq hww] at hw ⊢
    exact hs w hw

/-- The block if (quality > Low) of rate_init: afterwards slot 0 is initialised, slot 1 too
when upsampling, every initialised slot is ready, the post-stage runs half_sample, the
pre-stage of an upsampling plan runs double_sample, and no which is changed. -/
theorem rate_init_dft_facts (env : Env) (henv : env_sound env) (st : init_state)
    (quality : Int) (phase bandwidth : ℚ) (allow_aliasing : Bool) (hq : quality > Low)
    (hs : slots_sound st.shared) (hL : 0 ≤ st.p.level) :
    slots_sound (rate_init_dft env st quality phase bandwidth allow_aliasing).shared
    ∧ ((rate_init_dft env st quality phase bandwidth allow_aliasing).shared.half_band 0).num_taps
        ≠ 0
    ∧ (st.p.upsample = true →
        ((rate_init_dft env st quality phase bandwidth allow_aliasing).shared.half_band
          1).num_taps ≠ 0)
    ∧ ((rate_init_dft env st quality phase bandwidth allow_aliasing).p.stages
        (st.p.level + 1)).fn = stage_fn_t.half_sample
    ∧ (st.p.upsample = true →
        ((rate_init_dft env st quality phase bandwidth allow_aliasing).p.stages (-1)).fn
          = stage_fn_t.double_sample)
    ∧ (∀ k, ((rate_init_dft env st quality phase bandwidth allow_aliasing).p.stages k).which
        = (st.p.stages k).which) := by
  have H : ∀ (sh : rate_shared_t) (w : Fin 2) (n : Int) (Fp att : ℚ) (mult : Int),
      slots_sound sh →
      ((half_band_filter_init env sh w n none Fp att mult phase allow_aliasing).half_band
          w).num_taps ≠ 0
      ∧ slots_sound (half_band_filter_init env sh w n none Fp att mult phase allow_aliasing)
      ∧ (∀ w', w' ≠ w →
          (half_band_filter_init env sh w n none Fp att mult phase allow_aliasing).half_band w'
            = sh.half_band w') :=
    fun sh w n Fp att mult h =>
      half_band_filter_init_designed env henv sh w n Fp att mult phase allow_aliasing h
  have hne : (-1 : Int) ≠ st.p.level + 1 := by omega
  rw [rate_init_dft]
  dsimp only
  simp only [filters_designed env quality hq]
  generalize (if bandwidth ≠ 0 then 1 - (1 - bandwidth / 100) / env.LSX_TO_3dB
    else (filters env (quality - Low)).bw) = BW
  generalize (if allow_aliasing = true then 34 / 33 * (filters env (quality - Low)).a
    else (filters env (quality - Low)).a) = ATT
  generalize (if allow_aliasing = true then env.LSX_MAX_TBW0A else env.LSX_MAX_TBW0) = MN
  by_cases hu : st.p.upsample = true
  · simp only [hu, if_true]
    split_ifs with hc
    · dsimp only
      simp only [set_stage_level]
      refine ⟨(H _ _ _ _ _ _ (H _ _ _ _ _ _ hs).2.1).2.1, (H _ _ _ _ _ _ (H _ _ _ _ _ _ hs).2.1).1,
        fun _ => ?_, ?_, fun _ => ?_, fun k => ?_⟩
      · rw [(H _ 0 _ _ _ _ (H _ _ _ _ _ _ hs).2.1).2.2 1 (by decide)]
        exact (H _ _ _ _ _ _ hs).1
      · simp only [set_stage_stages_same]
      · rw [set_stage_stages_ne _ _ _ _ hne, set_stage_stages_ne _ _ _ _ hne]
        simp only [set_stage_stages_same]
      · rw [set_stage_which, set_stage_which, set_stage_which, set_stage_which]
        all_goals intro s; rfl
    · dsimp only
      simp only [set_stage_level]
      refine ⟨slots_sound_copy _ (H _ _ _ _ _ _ hs).2.1, ?_, fun _ => ?_, ?_, fun _ => ?_,
        fun k => ?_⟩
      · simp only [Function.update_same]
        exact (H _ _ _ _ _ _ hs).1
      · rw [Function.update_noteq (by decide)]
        exact (H _ _ _ _ _ _ hs).1
      · simp only [set_stage_stages_same]
      · rw [set_stage_stages_ne _ _ _ _ hne, set_stage_stages_ne _ _ _ _ hne]
        simp only [set_stage_stages_same]
      · rw [set_stage_which, set_stage_which, set_stage_which, set_stage_which]
        all_goals intro s; rfl
  · have hu' : st.p.upsample = false := by simpa using hu
    simp only [hu', Bool.false_eq_true, if_false]
    split_ifs with hc hc2
    · dsimp only
      simp only [set_stage_level]
      refine ⟨(H _ _ _ _ _ _ (H _ _ _ _ _ _ hs).2.1).2.1, ?_, fun h => absurd h (by simp),
        ?_, fun h => absurd h (by simp), fun k => ?_⟩
      · rw [(H _ 1 _ _ _ _ (H _ _ _ _ _ _ hs).2.1).2.2 0 (by decide)]
        exact (H _ _ _ _ _ _ hs).1
      · simp only [set_stage_stages_same]
      · rw [set_stage_which, set_stage_which]
        all_goals intro s; rfl
    · dsimp only
      simp only [set_stage_level]
      refine ⟨(H _ _ _ _ _ _ hs).2.1, (H _ _ _ _ _ _ hs).1, fun h => absurd h (by simp),
        ?_, fun h => absurd h (by simp), fun k => ?_⟩
      · simp only [set_stage_stages_same]
      · rw [set_stage_which, set_stage_which]
        all_goals intro s; rfl
    · dsimp only
      simp only [set_stage_level]
      refine ⟨(H _ _ _ _ _ _ hs).2.1, (H _ _ _ _ _ _ hs).1, fun h => absurd h (by simp),
        ?_, fun h => absurd h (by simp), fun k => ?_⟩
      · simp only [set_stage_stages_same]
      · rw [set_stage_which, set_stage_which]
        all_goals intro s; rfl

theorem rate_init_low_facts (env : Env) (st : init_state) :
    (rate_init_low env st).shared = st.shared
    ∧ ((rate_init_low env st).p.stages (st.p.level + 1)).fn = stage_fn_t.half_sample_low
    ∧ (∀ k, ((rate_init_low env st).p.stages k).which = (st.p.stages k).which) := by
  rw [rate_init_low]
  dsimp only
  refine ⟨rfl, ?_, fun k => ?_⟩
  · simp only [set_stage_level, set_stage_stages_same]
  · rw [set_stage_which, set_stage_which, set_stage_which]
    all_goals intro s; rfl

theorem clamp_quality_range (quality : Int) :
    Quick ≤ clamp_quality quality ∧ clamp_quality quality ≤ Very := by
  rw [clamp_quality]
  split_ifs with h
  · exact ⟨by decide, by decide⟩
  · omega

/-- The half-band block of rate_init: every initialised slot stays ready and no which
changes; above Low the post-stage runs half_sample on the initialised slot 0 and an
upsampling pre-stage runs double_sample with slot 1 initialised; at Low without
upsampling the post-stage runs half_sample_low. -/
theorem rate_init_half_facts (env : Env) (henv : env_sound env) (st : init_state)
    (quality : Int) (phase bandwidth : ℚ) (allow_aliasing : Bool)
    (hs : slots_sound st.shared) (hL : 0 ≤ st.p.level) :
    slots_sound (rate_init_half env st quality phase bandwidth allow_aliasing).shared
    ∧ (∀ k, ((rate_init_half env st quality phase bandwidth allow_aliasing).p.stages k).which
        = (st.p.stages k).which)
    ∧ (quality > Low →
        ((rate_init_half env st quality phase bandwidth allow_aliasing).shared.half_band
          0).num_taps ≠ 0
        ∧ (st.p.upsample = true →
          ((rate_init_half env st quality phase bandwidth allow_aliasing).shared.half_band
            1).num_taps ≠ 0)
        ∧ ((rate_init_half env st quality phase bandwidth allow_aliasing).p.stages
            (st.p.level + 1)).fn = stage_fn_t.half_sample
        ∧ (st.p.upsample = true →
          ((rate_init_half env st quality phase bandwidth allow_aliasing).p.stages (-1)).fn
            = stage_fn_t.double_sample))
    ∧ (quality = Low → st.p.upsample = false →
        ((rate_init_half env st quality phase bandwidth allow_aliasing).p.stages
            (st.p.level + 1)).fn = stage_fn_t.half_sample_low) := by
  rw [rate_init_half]
  split_ifs with h1 h2
  · obtain ⟨a, b, c, d, e, f⟩ := rate_init_dft_facts env henv st quality phase bandwidth
      allow_aliasing h1 hs hL
    refine ⟨a, f, fun _ => ⟨b, c, d, e⟩, ?_⟩
    intro hq
    rw [hq] at h1
    exact absurd h1 (by decide)
  · obtain ⟨a, b, c⟩ := rate_init_low_facts env st
    refine ⟨by rw [a]; exact hs, c, fun h => absurd h h1, fun _ _ => b⟩
  · refine ⟨hs, fun _ => rfl, fun h => absurd h h1, fun hq hu => absurd ⟨hq, hu⟩ h2⟩

/-- The block if (p->level > 0) of rate_init: the shared block is untouched, only the
stage level - 1 changes, and it becomes runnable when the post-stage is. -/
theorem rate_init_level_facts (st : init_state) :
    (rate_init_level st).shared = st.shared
    ∧ (∀ k, k ≠ st.p.level - 1 → (rate_init_level st).p.stages k = st.p.stages k)
    ∧ (0 < st.p.level → slots_sound st.shared →
        stage_runnable st.shared (st.p.stages (st.p.level + 1)) →
        stage_runnable st.shared ((rate_init_level st).p.stages (st.p.level - 1))) := by
  rw [rate_init_level]
  dsimp only
  split_ifs with h1 h2
  · refine ⟨rfl, fun k hk => ?_, fun _ hs _ => ?_⟩
    · simp only [set_stage_level, set_stage_stages_ne _ _ _ _ hk]
    · simp only [set_stage_level, set_stage_stages_same]
      exact ⟨by simp, fun _ => hs 1 h2, fun h => absurd h (by simp)⟩
  · refine ⟨rfl, fun k hk => ?_, fun _ _ hr => ?_⟩
    · simp only [set_stage_stages_ne _ _ _ _ hk]
    · simp only [set_stage_stages_same]
      exact hr
  · exact ⟨rfl, fun _ _ => rfl, fun h => absurd h h1⟩

theorem stage_runnable_of_fn (shared : rate_shared_t) (s : stage_t)
    (h0 : s.fn ≠ stage_fn_t.null) (h1 : s.fn ≠ stage_fn_t.half_sample)
    (h2 : s.fn ≠ stage_fn_t.double_sample) : stage_runnable shared s :=
  ⟨h0, fun h => absurd h h1, fun h => absurd h h2⟩

/-- Before the final loop of rate_init on a zero-initialised pipeline and shared block,
every active stage outside the range 0 .. level - 2 of the half_sample_25 stages is
runnable. -/
theorem rate_init_stages_runnable (env : Env) (henv : env_sound env) (factor : ℚ)
    (quality interp_order : Int) (phase bandwidth : ℚ) (allow_aliasing : Bool)
    (hf : 0 < factor) (k : Int)
    (hlo : (rate_init_stages env rate_zero shared_zero factor quality interp_order phase
      bandwidth allow_aliasing).p.input_stage_num ≤ k)
    (hhi : k < (rate_init_stages env rate_zero shared_zero factor quality interp_order phase
      bandwidth allow_aliasing).p.output_stage_num)
    (hk : ¬ (0 ≤ k ∧ k < (rate_init_stages env rate_zero shared_zero factor quality
      interp_order phase bandwidth allow_aliasing).p.level - 1)) :
    stage_runnable
      (rate_init_stages env rate_zero shared_zero factor quality interp_order phase
        bandwidth allow_aliasing).shared
      ((rate_init_stages env rate_zero shared_zero factor quality interp_order phase
        bandwidth allow_aliasing).p.stages k) := by
  obtain ⟨pl0, pl1, pl2⟩ := rate_init_planned_zero factor (clamp_quality quality) hf
  obtain ⟨e1, e2, e3, e4⟩ := rate_init_entry_p rate_zero shared_zero factor quality
  obtain ⟨z1, z2⟩ := rate_init_entry_zero shared_zero factor quality
  obtain ⟨l1, l2, l3, l4, l5, l6⟩ := rate_init_last_p env
    (rate_init_entry rate_zero shared_zero factor quality) (clamp_quality quality) interp_order
  obtain ⟨f1, f2, f3, f4, f5⟩ := rate_init_last_facts env
    (rate_init_entry rate_zero shared_zero factor quality) (clamp_quality quality) interp_order
    henv.2.2.2
  obtain ⟨q0, q4⟩ := clamp_quality_range quality
  rw [rate_init_stages] at hlo hhi hk ⊢
  rw [← e1] at pl0 pl1 pl2
  rw [← e2] at pl1 pl2
  rw [← e2] at e3
  rw [← e1] at e4
  clear e1 e2
  generalize clamp_quality quality = q at *
  generalize rate_init_entry rate_zero shared_zero factor quality = st0 at *
  have hs1 : slots_sound (rate_init_last env st0 q interp_order).shared := by
    intro w hw
    rw [f1, z1] at hw
    exact absurd rfl hw
  have hw1 : ∀ j, ((rate_init_last env st0 q interp_order).p.stages j).which = 0 :=
    fun j => by rw [f2, (z2 j).1]
  rw [← l1] at pl0 pl1 f3
  rw [← l2] at pl1 pl2 f4 l4 e3
  have hq : Quick = 0 := rfl
  have hlow : Low = 1 := rfl
  generalize rate_init_last env st0 q interp_order = st1 at *
  obtain ⟨g1, g2, g3, g4⟩ := rate_init_half_facts env henv st1 q phase bandwidth
    allow_aliasing hs1 pl0
  obtain ⟨s1, s2, s3, s4⟩ := rate_init_half_same_plan env st1 q phase bandwidth
    allow_aliasing
  have hst := rate_init_half_stages env st1 q phase bandwidth allow_aliasing
  obtain ⟨t1, t2, t3, t4⟩ := rate_init_level_same_plan
    (rate_init_half env st1 q phase bandwidth allow_aliasing)
  obtain ⟨v1, v2, v3⟩ := rate_init_level_facts
    (rate_init_half env st1 q phase bandwidth allow_aliasing)
  have hle := rate_init_level_of_le (rate_init_half env st1 q phase bandwidth allow_aliasing)
  rw [t1, s1] at hk
  rw [t2, s2] at hlo
  rw [t3, s3] at hhi
  rw [v1]
  rw [s1] at v2 v3 hle
  have hw2 : ∀ j, ((rate_init_half env st1 q phase bandwidth allow_aliasing).p.stages
      j).which = 0 := fun j => by rw [g2, hw1]
  generalize rate_init_half env st1 q phase bandwidth allow_aliasing = st2 at *
  have hb := b2i_cases st1.p.upsample
  -- the post-stage is runnable whenever the quality is not Quick and not (Low, upsampling)
  have hpost : q ≠ Quick → ¬ (st1.p.upsample = true ∧ q = Low) →
      stage_runnable st2.shared (st2.p.stages (st1.p.level + 1)) := by
    intro hq1 hq2
    by_cases hgl : q > Low
    · obtain ⟨a, -, c, -⟩ := g3 hgl
      refine ⟨by rw [c]; simp, fun _ => ?_, fun h => ?_⟩
      · rw [hw2]
        exact g1 0 a
      · rw [c] at h
        exact absurd h (by simp)
    · have hql : q = Low := by omega
      have hu : st1.p.upsample = false := by
        cases hh : st1.p.upsample
        · rfl
        · exact absurd ⟨hh, hql⟩ hq2
      have c := g4 hql hu
      exact stage_runnable_of_fn _ _ (by rw [c]; simp) (by rw [c]; simp) (by rw [c]; simp)
  have hlast : st0.p.output_stage_num < st1.p.output_stage_num →
      stage_runnable st2.shared (st2.p.stages st1.p.level) := by
    intro h
    rw [hst _ (by omega) (by omega)]
    rcases f3 h with c | ⟨m, c⟩
    · exact stage_runnable_of_fn _ _ (by rw [c]; simp) (by rw [c]; simp) (by rw [c]; simp)
    · exact stage_runnable_of_fn _ _ (by rw [c]; simp) (by rw [c]; simp) (by rw [c]; simp)
  by_cases hL : 0 < st1.p.level
  · have hu : st1.p.upsample = false := by
      cases hh : st1.p.upsample
      · rfl
      · have := pl1 hh; omega
    have hq1 : q ≠ Quick := fun h => by have := (pl2 h).2; omega
    have hb0 : b2i st1.p.upsample = 0 := by rw [hu]; rfl
    have hk3 : k = st1.p.level - 1 ∨ k = st1.p.level ∨ k = st1.p.level + 1 := by omega
    rcases hk3 with h | h | h
    · subst h
      exact v3 hL g1 (hpost hq1 (fun h => by rw [hu] at h; exact absurd h.1 (by simp)))
    · subst h
      rw [v2 _ (by omega)]
      exact hlast (by omega)
    · subst h
      rw [v2 _ (by omega)]
      exact hpost hq1 (fun h => by rw [hu] at h; exact absurd h.1 (by simp))
  · have hL0 : st1.p.level = 0 := by omega
    rw [hle (by omega)]
    have hk3 : k = -1 ∨ k = 0 ∨ k = 1 := by omega
    rcases hk3 with h | h | h
    · subst h
      have hu : st1.p.upsample = true := by
        cases hh : st1.p.upsample
        · rw [hh] at e3 l4; simp [b2i] at e3 l4; omega
        · rfl
      have hq1 : q ≠ Quick := fun h => by
        have := (pl2 h).1; rw [hu] at this; exact absurd this (by simp)
      have hq2 : q ≠ Low := fun h => by
        have := (f4 hu h).1; rw [hu] at e3; simp [b2i] at e3; omega
      obtain ⟨-, b, -, d⟩ := g3 (by omega)
      refine ⟨by rw [d hu]; simp, fun h => ?_, fun _ => g1 1 (b hu)⟩
      rw [d hu] at h
      exact absurd h (by simp)
    · subst h
      have := hlast (by omega)
      rw [hL0] at this
      exact this
    · subst h
      have hq1 : q ≠ Quick := fun h => by have := f5 h; omega
      have hq2 : ¬ (st1.p.upsample = true ∧ q = Low) := fun h => by
        have := (f4 h.1 h.2).2; omega
      have := hpost hq1 hq2
      rw [hL0] at this
      exact this

/-- The final loop of rate_init changes no which, and a kernel only to half_sample_25. -/
theorem rate_init_fifos_fn (env : Env) : ∀ (fuel : Nat) (i : Int) (p : rate_t) (k : Int),
    ((rate_init_fifos env fuel i p).stages k).which = (p.stages k).which
    ∧ (((rate_init_fifos env fuel i p).stages k).fn = (p.stages k).fn
      ∨ ((rate_init_fifos env fuel i p).stages k).fn = stage_fn_t.half_sample_25) := by
  intro fuel
  induction fuel with
  | zero => intro i p k; exact ⟨rfl, Or.inl rfl⟩
  | succ fuel ih =>
    intro i p k
    rw [rate_init_fifos]
    dsimp only
    split_ifs with h1 h2
    · obtain ⟨a, b⟩ := ih (i + 1) _ k
      rw [a]
      constructor
      · rw [set_stage_which, set_stage_which, set_stage_which, set_stage_which,
          set_stage_which]
        all_goals intro s; rfl
      · rcases b with b | b
        · rw [b, set_stage_fn, set_stage_fn, set_stage_fn, set_stage_fn]
          · by_cases hk : k = i
            · subst hk
              right
              rw [set_stage_stages_same]
            · left
              rw [set_stage_stages_ne _ _ _ _ hk]
          all_goals intro s; rfl
        · exact Or.inr b
    · obtain ⟨a, b⟩ := ih (i + 1) _ k
      rw [a]
      constructor
      · rw [set_stage_which, set_stage_which]
        all_goals intro s; rfl
      · rcases b with b | b
        · left
          rw [b, set_stage_fn, set_stage_fn]
          all_goals intro s; rfl
        · exact Or.inr b
    · exact ⟨rfl, Or.inl rfl⟩

/-- The final loop of rate_init gives half_sample_25 to every stage 0 .. level - 2 that it
visits. -/
theorem rate_init_fifos_25 (env : Env) : ∀ (fuel : Nat) (i : Int) (p : rate_t) (k : Int),
    i ≤ k → k < i + fuel → k ≤ p.output_stage_num → 0 ≤ k → k < p.level - 1 →
    ((rate_init_fifos env fuel i p).stages k).fn = stage_fn_t.half_sample_25 := by
  intro fuel
  induction fuel with
  | zero => intro i p k h1 h2; exfalso; push_cast at h2; omega
  | succ fuel ih =>
    intro i p k hik hkf hko hk0 hkl
    rw [rate_init_fifos]
    dsimp only
    by_cases hki : k = i
    · subst hki
      rw [if_pos hko, if_pos ⟨hk0, hkl⟩]
      rcases (rate_init_fifos_fn env fuel (k + 1) _ k).2 with b | b
      · rw [b, set_stage_fn, set_stage_fn, set_stage_fn, set_stage_fn]
        · rw [set_stage_stages_same]
        all_goals intro s; rfl
      · exact b
    · have hio : i ≤ p.output_stage_num := by omega
      rw [if_pos hio]
      split_ifs with h2
      · exact ih (i + 1) _ k (by omega) (by push_cast at hkf; omega)
          (by simpa only [set_stage_output_stage_num] using hko) hk0
          (by simpa only [set_stage_level] using hkl)
      · exact ih (i + 1) _ k (by omega) (by push_cast at hkf; omega)
          (by simpa only [set_stage_output_stage_num] using hko) hk0
          (by simpa only [set_stage_level] using hkl)

/-- The loop of half_sample returns when every pass advances by at least one sample and
the fuel covers num_in - dft_length + 1 passes. -/
theorem half_sample_loop_returns (env : Env) (f : dft_filter_t)
    (hd : 1 ≤ f.dft_length - (f.num_taps - 1)) :
    ∀ (fuel : Nat) (num_in : Int) (fifo o : fifo_t),
      (num_in - f.dft_length + 1).toNat ≤ fuel →
      ∃ r, half_sample_loop env f fuel num_in fifo o = some r := by
  intro fuel
  induction fuel with
  | zero =>
    intro num_in fifo o h
    rw [half_sample_loop, if_neg (by omega)]
    exact ⟨_, rfl⟩
  | succ fuel ih =>
    intro num_in fifo o h
    rw [half_sample_loop]
    split_ifs with hc
    · exact ih _ _ _ (by omega)
    · exact ⟨_, rfl⟩

/-- The loop of double_sample returns when every pass advances by at least one sample and
the fuel covers num_in - dft_length / 2 passes. -/
theorem double_sample_loop_returns (env : Env) (f : dft_filter_t)
    (hd : 1 ≤ (f.dft_length - (f.num_taps - 1)) / 2) :
    ∀ (fuel : Nat) (num_in : Int) (fifo o : fifo_t),
      (num_in - f.dft_length / 2).toNat ≤ fuel →
      ∃ r, double_sample_loop env f fuel num_in fifo o = some r := by
  intro fuel
  induction fuel with
  | zero =>
    intro num_in fifo o h
    rw [double_sample_loop, shift_one, if_neg (by omega)]
    exact ⟨_, rfl⟩
  | succ fuel ih =>
    intro num_in fifo o h
    rw [double_sample_loop]
    simp only [shift_one]
    split_ifs with hc
    · exact ih _ _ _ (by omega)
    · exact ⟨_, rfl⟩

theorem half_sample_returns (env : Env) (shared : rate_shared_t) (s : stage_t)
    (output_fifo : fifo_t) (h : slot_ready (shared.half_band s.which)) :
    ∃ res, half_sample env shared s output_fifo = some res := by
  obtain ⟨r, hr⟩ := half_sample_loop_returns env (shared.half_band s.which)
    (by have := h.2; omega)
    (max 0 (fifo_occupancy s.fifo) - (shared.half_band s.which).dft_length + 1).toNat
    (max 0 (fifo_occupancy s.fifo)) s.fifo output_fifo (le_refl _)
  rw [half_sample, hr]
  exact ⟨_, rfl⟩

theorem double_sample_returns (env : Env) (shared : rate_shared_t) (s : stage_t)
    (output_fifo : fifo_t) (h : slot_ready (shared.half_band 1)) :
    ∃ res, double_sample env shared s output_fifo = some res := by
  obtain ⟨r, hr⟩ := double_sample_loop_returns env (shared.half_band 1)
    (by have := h.2; omega)
    (max 0 (fifo_occupancy s.fifo) - (shared.half_band 1).dft_length >>> (1 : Nat)).toNat
    (max 0 (fifo_occupancy s.fifo)) s.fifo output_fifo (by rw [shift_one])
  rw [double_sample, hr]
  exact ⟨_, rfl⟩

theorem fn_25_trivial (fn : stage_fn_t) (P Q : Prop) (h : fn = stage_fn_t.half_sample_25) :
    fn ≠ stage_fn_t.null ∧ (fn = stage_fn_t.half_sample → P)
      ∧ (fn = stage_fn_t.double_sample → Q) :=
  ⟨by rw [h]; simp, fun h' => by rw [h] at h'; exact absurd h' (by simp),
    fun h' => by rw [h] at h'; exact absurd h' (by simp)⟩

/-- C19: every planned pipeline is runnable.  With the external routines as described
(a designed filter has num_taps not 0, the DFT size exceeds num_taps, the table kernels
are polyphase FIR kernels), for every factor > 0 and every quality, after rate_init on a
zero-initialised pipeline and shared block each stage i with
input_stage_num <= i < output_stage_num has a kernel assigned; if the kernel is
half_sample, the slot half_band[which] is initialised (num_taps not 0), its dft_length
exceeds the overlap num_taps - 1, and half_sample returns on every FIFO content; if it is
double_sample the same holds of the slot half_band[1] and of double_sample. -/
theorem planned_pipeline_runnable (env : Env) (henv : env_sound env) (factor : ℚ)
    (quality interp_order : Int) (phase bandwidth : ℚ) (allow_aliasing : Bool)
    (hf : 0 < factor) (i : Int)
    (hlo : (rate_init env rate_zero shared_zero factor quality interp_order phase bandwidth
      allow_aliasing).1.input_stage_num ≤ i)
    (hhi : i < (rate_init env rate_zero shared_zero factor quality interp_order phase
      bandwidth allow_aliasing).1.output_stage_num) :
    ((rate_init env rate_zero shared_zero factor quality interp_order phase bandwidth
        allow_aliasing).1.stages i).fn ≠ stage_fn_t.null
    ∧ (((rate_init env rate_zero shared_zero factor quality interp_order phase bandwidth
        allow_aliasing).1.stages i).fn = stage_fn_t.half_sample →
      ((rate_init env rate_zero shared_zero factor quality interp_order phase bandwidth
          allow_aliasing).2.half_band
        ((rate_init env rate_zero shared_zero factor quality interp_order phase bandwidth
          allow_aliasing).1.stages i).which).num_taps ≠ 0
      ∧ ((rate_init env rate_zero shared_zero factor quality interp_order phase bandwidth
          allow_aliasing).2.half_band
        ((rate_init env rate_zero shared_zero factor quality interp_order phase bandwidth
          allow_aliasing).1.stages i).which).num_taps - 1
        < ((rate_init env rate_zero shared_zero factor quality interp_order phase bandwidth
          allow_aliasing).2.half_band
        ((rate_init env rate_zero shared_zero factor quality interp_order phase bandwidth
          allow_aliasing).1.stages i).which).dft_length
      ∧ ∀ (s : stage_t) (output_fifo : fifo_t),
          s.which = ((rate_init env rate_zero shared_zero factor quality interp_order phase
            bandwidth allow_aliasing).1.stages i).which →
          ∃ res, half_sample env (rate_init env rate_zero shared_zero factor quality
            interp_order phase bandwidth allow_aliasing).2 s output_fifo = some res)
    ∧ (((rate_init env rate_zero shared_zero factor quality interp_order phase bandwidth
        allow_aliasing).1.stages i).fn = stage_fn_t.double_sample →
      ((rate_init env rate_zero shared_zero factor quality interp_order phase bandwidth
          allow_aliasing).2.half_band 1).num_taps ≠ 0
      ∧ ((rate_init env rate_zero shared_zero factor quality interp_order phase bandwidth
          allow_aliasing).2.half_band 1).num_taps - 1
        < ((rate_init env rate_zero shared_zero factor quality interp_order phase bandwidth
          allow_aliasing).2.half_band 1).dft_length
      ∧ ∀ (s : stage_t) (output_fifo : fifo_t),
          ∃ res, double_sample env (rate_init env rate_zero shared_zero factor quality
            interp_order phase bandwidth allow_aliasing).2 s output_fifo = some res) := by
  rw [rate_init] at hlo hhi ⊢
  dsimp only at hlo hhi ⊢
  obtain ⟨p1, p2, p3, -⟩ := rate_init_fifos_same_plan env
    ((rate_init_stages env rate_zero shared_zero factor quality interp_order phase bandwidth
      allow_aliasing).p.output_stage_num
      - (rate_init_stages env rate_zero shared_zero factor quality interp_order phase
        bandwidth allow_aliasing).p.input_stage_num + 1).toNat
    (rate_init_stages env rate_zero shared_zero factor quality interp_order phase bandwidth
      allow_aliasing).p.input_stage_num
    (rate_init_stages env rate_zero shared_zero factor quality interp_order phase bandwidth
      allow_aliasing).p
  rw [p2] at hlo
  rw [p3] at hhi
  obtain ⟨a, b⟩ := rate_init_fifos_fn env
    ((rate_init_stages env rate_zero shared_zero factor quality interp_order phase bandwidth
      allow_aliasing).p.output_stage_num
      - (rate_init_stages env rate_zero shared_zero factor quality interp_order phase
        bandwidth allow_aliasing).p.input_stage_num + 1).toNat
    (rate_init_stages env rate_zero shared_zero factor quality interp_order phase bandwidth
      allow_aliasing).p.input_stage_num
    (rate_init_stages env rate_zero shared_zero factor quality interp_order phase bandwidth
      allow_aliasing).p i
  have h25 := rate_init_fifos_25 env
    ((rate_init_stages env rate_zero shared_zero factor quality interp_order phase bandwidth
      allow_aliasing).p.output_stage_num
      - (rate_init_stages env rate_zero shared_zero factor quality interp_order phase
        bandwidth allow_aliasing).p.input_stage_num + 1).toNat
    (rate_init_stages env rate_zero shared_zero factor quality interp_order phase bandwidth
      allow_aliasing).p.input_stage_num
    (rate_init_stages env rate_zero shared_zero factor quality interp_order phase bandwidth
      allow_aliasing).p i hlo (by omega) (by omega)
  have hrun := rate_init_stages_runnable env henv factor quality interp_order phase
    bandwidth allow_aliasing hf i hlo hhi
  rw [a]
  generalize rate_init_stages env rate_zero shared_zero factor quality interp_order phase
    bandwidth allow_aliasing = st at *
  by_cases hr : 0 ≤ i ∧ i < st.p.level - 1
  · exact fn_25_trivial _ _ _ (h25 hr.1 hr.2)
  · rcases b with b | b
    · rw [b]
      obtain ⟨r0, r1, r2⟩ := hrun hr
      refine ⟨r0, fun h => ?_, fun h => ?_⟩
      · have hsl := r1 h
        refine ⟨hsl.1, by have := hsl.2; omega, fun s o hw => ?_⟩
        exact half_sample_returns env st.shared s o (by rw [hw]; exact hsl)
      · have hsl := r2 h
        exact ⟨hsl.1, by have := hsl.2; omega,
          fun s o => double_sample_returns env st.shared s o hsl⟩
    · exact fn_25_trivial _ _ _ b

theorem env_wide_sound : env_sound env_wide := by
  refine ⟨fun _ _ _ _ _ _ _ => (by decide : (3 : Int) ≠ 0), fun _ _ _ _ hn => hn, fun n => ?_,
    fun _ k => ⟨k.toNat, rfl⟩⟩
  show n < 2 * max n 0 + 2
  omega

/-- Instance of the runnable pipeline: for 44100/48000 at quality High the active stage 1
is the post-stage; it runs half_sample on slot 0, which holds 3 taps with DFT size 8, and
half_sample returns on a FIFO of ten samples. -/
theorem planned_pipeline_runnable_witness :
    (env_sound env_wide ∧ (0 : ℚ) < 44100 / 48000
      ∧ (rate_init env_wide rate_zero shared_zero (44100 / 48000) High (-1) 50 0
          false).1.input_stage_num ≤ 1
      ∧ (1 : Int) < (rate_init env_wide rate_zero shared_zero (44100 / 48000) High (-1) 50 0
          false).1.output_stage_num)
    ∧ ((rate_init env_wide rate_zero shared_zero (44100 / 48000) High (-1) 50 0
        false).1.stages 1).fn ≠ stage_fn_t.null
    ∧ ((rate_init env_wide rate_zero shared_zero (44100 / 48000) High (-1) 50 0
        false).1.stages 1).fn = stage_fn_t.half_sample
    ∧ ((rate_init env_wide rate_zero shared_zero (44100 / 48000) High (-1) 50 0
          false).2.half_band
        ((rate_init env_wide rate_zero shared_zero (44100 / 48000) High (-1) 50 0
          false).1.stages 1).which).num_taps ≠ 0
    ∧ ((rate_init env_wide rate_zero shared_zero (44100 / 48000) High (-1) 50 0
          false).2.half_band 0).num_taps = 3
    ∧ ((rate_init env_wide rate_zero shared_zero (44100 / 48000) High (-1) 50 0
          false).2.half_band 0).dft_length = 8
    ∧ ∃ res, half_sample env_wide (rate_init env_wide rate_zero shared_zero
        (44100 / 48000) High (-1) 50 0 false).2 stage_ten [] = some res := by
  obtain ⟨h0, h1, -⟩ := planned_pipeline_runnable env_wide env_wide_sound (44100 / 48000)
    High (-1) 50 0 false (by norm_num) 1 (by decide!) (by decide!)
  have hfn : ((rate_init env_wide rate_zero shared_zero (44100 / 48000) High (-1) 50 0
      false).1.stages 1).fn = stage_fn_t.half_sample := by decide!
  obtain ⟨a, -, c⟩ := h1 hfn
  exact ⟨⟨env_wide_sound, by norm_num, by decide!, by decide!⟩, h0, hfn, a, by decide!,
    by decide!, c stage_ten [] (by decide!)⟩

theorem stage_occupancy_fed (s : stage_t) (ys : List sample_t) :
    stage_occupancy { s with fifo := s.fifo ++ ys }
      = max 0 (((s.fifo.length + ys.length : Nat) : Int) - s.pre_post) := by
  rw [stage_occupancy, fifo_occupancy]
  simp only [List.length_append]

theorem cubic_spline_loop_count (p : stage_t) (output_fifo : fifo_t) (n : Nat)
    (hs : 0 < p.step_all)
    (h : spline_passes p.step_all (stage_occupancy p) p.at_all n) :
    cubic_spline_loop p (stage_occupancy p) output_fifo.length
        (stage_occupancy p * 4294967296 - p.at_all).toNat 0 p.at_all
        (fifo_reserve output_fifo (cubic_spline_max_num_out p))
      = some ((n : Int), p.at_all + n * p.step_all,
          output_fifo ++ (List.range n).map
              (fun k : Nat => cubic_spline_sample p (p.at_all + k * p.step_all))
            ++ List.replicate ((cubic_spline_max_num_out p).toNat - n) 0) := by
  have hfuel := spline_passes_le_fuel _ _ _ n h hs
  have hrun := cubic_spline_loop_run p (stage_occupancy p) output_fifo
    (cubic_spline_max_num_out p).toNat n
    (stage_occupancy p * 4294967296 - p.at_all).toNat p.at_all [] h.1 h.2 hfuel
  simp only [List.length_nil, List.append_nil, Nat.sub_zero, List.nil_append, Nat.zero_add,
    Nat.cast_zero] at hrun
  rw [fifo_reserve, hrun]

theorem cubic_spline_assert_iff (p : stage_t) (output_fifo : fifo_t) (n : Nat)
    (hs : 0 < p.step_all)
    (h : spline_passes p.step_all (stage_occupancy p) p.at_all n) :
    cubic_spline_assert p output_fifo ↔ (n : Int) ≤ cubic_spline_max_num_out p := by
  rw [cubic_spline_assert, cubic_spline_loop_count p output_fifo n hs h]
  simp only
  constructor <;> intro h <;> omega

/-- In exact arithmetic the reservation is an upper bound: the number n of passes of the
loop of cubic_spline is at most 1 + floor(num_in * 2^32 / step). -/
theorem spline_passes_le_exact_bound (p : stage_t) (n : Nat) (hs : 0 < p.step_all)
    (ha : 0 ≤ p.at_all)
    (h : spline_passes p.step_all (stage_occupancy p) p.at_all n) :
    (n : Int) ≤ 1 + ⌊(stage_occupancy p : ℚ) * (MULT32 / (p.step_all : ℚ))⌋ := by
  have hN : 0 ≤ stage_occupancy p := by rw [stage_occupancy]; exact le_max_left _ _
  have hsq : (0 : ℚ) < (p.step_all : ℚ) := by exact_mod_cast hs
  have hnn : (0 : ℚ) ≤ (stage_occupancy p : ℚ) * (MULT32 / (p.step_all : ℚ)) := by
    apply mul_nonneg
    · exact_mod_cast hN
    · apply div_nonneg
      · norm_num [MULT32]
      · exact le_of_lt hsq
  rcases Nat.eq_zero_or_pos n with h0 | hpos
  · subst h0
    have : (0 : Int) ≤ ⌊(stage_occupancy p : ℚ) * (MULT32 / (p.step_all : ℚ))⌋ :=
      Int.floor_nonneg.mpr hnn
    push_cast
    omega
  · have hl := spline_passes_last _ _ _ n h hpos
    have hl2 : ((n : Int) - 1) * p.step_all < stage_occupancy p * 4294967296 := by omega
    have hq2 : (((n : Int) - 1 : Int) : ℚ) * (p.step_all : ℚ)
        < (stage_occupancy p : ℚ) * 4294967296 := by exact_mod_cast hl2
    have hdiv : (((n : Int) - 1 : Int) : ℚ)
        < (stage_occupancy p : ℚ) * 4294967296 / p.step_all := by
      rw [lt_div_iff₀ hsq]; exact hq2
    have e : (stage_occupancy p : ℚ) * (MULT32 / (p.step_all : ℚ))
        = (stage_occupancy p : ℚ) * 4294967296 / p.step_all := by
      norm_num [MULT32]; ring
    have hfl : (n : Int) - 1 ≤ ⌊(stage_occupancy p : ℚ) * (MULT32 / (p.step_all : ℚ))⌋ := by
      rw [Int.le_floor, e]
      exact le_of_lt hdiv
    omega

theorem quick_long_step :
    trunc ((4164008105 / 4294967296 : ℚ) * MULT32 + 1 / 2) = 4164008105 := by
  decide!

theorem quick_long_stages :
    quick_long.input_stage_num = 0 ∧ quick_long.output_stage_num = 1
    ∧ quick_long.stages 0
        = { stage_zero with
            fifo := [0], pre := 1, preload := 1, pre_post := 3,
            fn := stage_fn_t.cubic_spline, step_all := 4164008105,
            out_in_ratio := MULT32 * ((1 : Int) : ℚ) / ((4164008105 : Int) : ℚ) }
    ∧ (quick_long.stages 1).fifo = [] := by
  obtain ⟨h1, h2, h3, h4⟩ := rate_init_quick_stages env_small shared_zero
    (4164008105 / 4294967296) (-1) 50 0 false
  rw [quick_long_step] at h3
  exact ⟨h1, h2, h3, h4⟩

theorem quick_long_fed_stage : quick_long_fed.stages 0 = spline_stage_long := by
  obtain ⟨h1, -, h3, -⟩ := quick_long_stages
  rw [quick_long_fed, (rate_input_stage_zero quick_long _ h1).1, h3]
  rfl

theorem quick_long_fed_indices :
    quick_long_fed.input_stage_num = 0 ∧ quick_long_fed.output_stage_num = 1 := by
  obtain ⟨h1, h2, -, -⟩ := quick_long_stages
  obtain ⟨-, -, hin, hout⟩ := rate_input_stage_zero quick_long (List.replicate 7470748 0) h1
  rw [quick_long_fed]
  exact ⟨hin, by rw [hout, h2]⟩

theorem spline_stage_long_occupancy : stage_occupancy spline_stage_long = 7470746 := by
  rw [stage_occupancy, fifo_occupancy]
  show max 0 ((((List.replicate 7470749 (0 : sample_t)).length : Nat) : Int) - 3) = 7470746
  rw [List.length_replicate]
  decide

theorem spline_stage_long_max : cubic_spline_max_num_out spline_stage_long = 7705703 := by
  rw [cubic_spline_max_num_out, spline_stage_long_occupancy]
  decide!

theorem spline_stage_long_passes :
    spline_passes spline_stage_long.step_all (stage_occupancy spline_stage_long)
      spline_stage_long.at_all 7705704 := by
  rw [spline_stage_long_occupancy]
  exact spline_passes_of_bounds 4164008105 7470746 0 7705704 (by decide) (by decide)
    (by decide)

theorem spline_assert_of_values (p : stage_t) (out : fifo_t) (N a st : Int) (r : ℚ) (n : Nat)
    (M : Int) (hocc : stage_occupancy p = N) (hat : p.at_all = a) (hst : p.step_all = st)
    (hr : p.out_in_ratio = r) (hs : 0 < st)
    (h1 : a + ((n : Int) - 1) * st < N * 4294967296) (h2 : N * 4294967296 ≤ a + n * st)
    (hM : double_to_int (round_double (1 + round_double ((N : ℚ) * round_double r))) = M) :
    cubic_spline_max_num_out p = M
    ∧ spline_passes st N a n
    ∧ (cubic_spline_assert p out ↔ (n : Int) ≤ M) := by
  have hmax : cubic_spline_max_num_out p = M := by
    rw [cubic_spline_max_num_out, hocc, hr, hM]
  have hp := spline_passes_of_bounds st N a n hs h1 h2
  refine ⟨hmax, hp, ?_⟩
  have hp2 : spline_passes p.step_all (stage_occupancy p) p.at_all n := by
    rw [hst, hocc, hat]; exact hp
  rw [cubic_spline_assert_iff p out n (by rw [hst]; exact hs) hp2, hmax]

theorem rate_stream_two (env : Env) (sh : rate_shared_t) (p q1 q2 : rate_t)
    (c1 c2 : List sample_t) (h1 : rate_process env sh (rate_input p c1) = some q1)
    (h2 : rate_process env sh (rate_input q1 c2) = some q2) :
    rate_stream env sh p [c1, c2] = some q2 := by
  simp only [rate_stream, h1, h2]

theorem quick_long_inv : quick_inv 4164008105 3 quick_long [] 0 := by
  have h := quick_inv_init env_small shared_zero (4164008105 / 4294967296) (-1) 50 0 false
  rw [quick_long_step] at h
  exact h

theorem replicate_zero_halves :
    List.replicate 3735374 (0 : sample_t) ++ List.replicate 3735374 0
      = List.replicate 7470748 0 := by
  rw [← List.replicate_add]

theorem quick_long_half_values :
    stage_occupancy (quick_long_half.stages 0) = 3735372
    ∧ (quick_long_half.stages 0).at_all = 0
    ∧ (quick_long_half.stages 0).step_all = 4164008105
    ∧ (quick_long_half.stages 0).out_in_ratio
        = MULT32 * ((1 : Int) : ℚ) / ((4164008105 : Int) : ℚ) := by
  obtain ⟨h1, -, h3, -⟩ := quick_long_stages
  rw [quick_long_half, (rate_input_stage_zero quick_long _ h1).1, h3]
  refine ⟨?_, rfl, rfl, rfl⟩
  rw [stage_occupancy_fed, List.length_replicate]
  decide

theorem quick_long_first :
    cubic_spline_assert (quick_long_half.stages 0) (quick_long_half.stages 1).fifo
    ∧ ∃ q1 : rate_t, rate_process env_small shared_zero quick_long_half = some q1
        ∧ quick_inv 4164008105 3 q1 (List.replicate 3735374 0) 3852851 := by
  obtain ⟨hocc, hat, hst, hr⟩ := quick_long_half_values
  obtain ⟨-, hp, hiff⟩ := spline_assert_of_values (quick_long_half.stages 0)
    (quick_long_half.stages 1).fifo 3735372 0 4164008105 _ 3852851 3852851 hocc hat hst hr
    (by decide) (by decide) (by decide) (by decide!)
  refine ⟨hiff.mpr (le_refl _), ?_⟩
  obtain ⟨q1, n1, hp1, hinv1⟩ := quick_inv_step env_small shared_zero 4164008105 3 quick_long
    [] (List.replicate 3735374 0) 0 (by decide) (by decide) (by decide) quick_long_inv
  rw [List.nil_append] at hinv1
  have hpass := hinv1.passes
  rw [List.length_replicate] at hpass
  have e : max (0 : Int) (((3735374 : Nat) : Int) + 1 - 3) = 3735372 := by decide
  rw [e] at hpass
  have hn : n1 = 3852851 := spline_passes_unique _ _ _ _ _ hpass hp
  subst hn
  exact ⟨q1, hp1, hinv1⟩

theorem quick_long_second (q1 : rate_t)
    (hinv1 : quick_inv 4164008105 3 q1 (List.replicate 3735374 0) 3852851) :
    cubic_spline_assert ((rate_input q1 (List.replicate 3735374 0)).stages 0)
        ((rate_input q1 (List.replicate 3735374 0)).stages 1).fifo
    ∧ ∃ q2 : rate_t,
        rate_process env_small shared_zero (rate_input q1 (List.replicate 3735374 0)) = some q2
        ∧ q2.output_stage_num = 1
        ∧ fifo_occupancy (q2.stages 1).fifo = 7705704 := by
  have hs0 := (rate_input_stage_zero q1 (List.replicate 3735374 0) hinv1.input).1
  have hint : (integer (((3852851 : Nat) : Int) * 4164008105)).toNat = 3735372 := by decide
  have hfr : fraction (((3852851 : Nat) : Int) * 4164008105) = 2212963243 := by decide
  have hocc : stage_occupancy ((rate_input q1 (List.replicate 3735374 0)).stages 0)
      = 3735374 := by
    rw [hs0, stage_occupancy_fed, hinv1.pre_post, hinv1.fifo, hint, List.length_drop,
      List.length_cons, List.length_replicate]
    decide
  have hat : ((rate_input q1 (List.replicate 3735374 0)).stages 0).at_all = 2212963243 := by
    rw [hs0]
    show (q1.stages 0).at_all = 2212963243
    rw [hinv1.at_all, hfr]
  have hst : ((rate_input q1 (List.replicate 3735374 0)).stages 0).step_all = 4164008105 := by
    rw [hs0]
    exact hinv1.step
  have hr : ((rate_input q1 (List.replicate 3735374 0)).stages 0).out_in_ratio
      = MULT32 * ((1 : Int) : ℚ) / ((4164008105 : Int) : ℚ) := by
    rw [hs0]
    exact hinv1.ratio
  obtain ⟨-, -, hiff⟩ := spline_assert_of_values
    ((rate_input q1 (List.replicate 3735374 0)).stages 0)
    ((rate_input q1 (List.replicate 3735374 0)).stages 1).fifo 3735374 2212963243 4164008105 _
    3852853 3852853 hocc hat hst hr (by decide) (by decide) (by decide) (by decide!)
  refine ⟨hiff.mpr (le_refl _), ?_⟩
  obtain ⟨q2, n2, hp2, hinv2⟩ := quick_inv_step env_small shared_zero 4164008105 3 q1
    (List.replicate 3735374 0) (List.replicate 3735374 0) 3852851 (by decide) (by decide)
    (by decide) hinv1
  have hpass := hinv2.passes
  rw [List.length_append, List.length_replicate] at hpass
  have e : max (0 : Int) (((3735374 + 3735374 : Nat) : Int) + 1 - 3) = 7470746 := by decide
  rw [e] at hpass
  have hn : n2 = 7705704 := spline_passes_unique _ _ _ _ _ hpass
    (spline_passes_of_bounds 4164008105 7470746 0 7705704 (by decide) (by decide) (by decide))
  subst hn
  refine ⟨q2, hp2, hinv2.output, ?_⟩
  rw [fifo_occupancy, hinv2.out, List.length_map, List.length_range]
  rfl

/-- C16 fails in the code.  The stage spline_stage_long is what one rate_input of 7470748
samples leaves in stage 0 of the Quick pipeline for step = 4164008105: at.integer = 0,
out_in_ratio = 2^32 / step and num_in = 7470746.  In doubles max_num_out evaluates to
7705703, the loop makes 7705704 passes (i = 7705704 on exit), and
assert(max_num_out - i >= 0) is violated, although 1 + floor(num_in * 2^32 / step) in
exact arithmetic is 7705704.  For step = 2 and num_in = 1 (spline_stage_tiny) the double
1 + num_in * out_in_ratio is 2^31 + 1, beyond the range of int: the conversion delivers
-2^31, the loop makes 2^31 passes and the assertion is violated as well. -/
theorem cubic_spline_reservation_short :
    (quick_long_fed.stages 0 = spline_stage_long
      ∧ 0 < spline_stage_long.step_all ∧ integer spline_stage_long.at_all = 0
      ∧ spline_stage_long.out_in_ratio = MULT32 / (spline_stage_long.step_all : ℚ)
      ∧ stage_occupancy spline_stage_long = 7470746
      ∧ cubic_spline_max_num_out spline_stage_long = 7705703
      ∧ (∃ (at_all : Int) (output : fifo_t),
          cubic_spline_loop spline_stage_long (stage_occupancy spline_stage_long)
            ([] : fifo_t).length
            (stage_occupancy spline_stage_long * 4294967296 - spline_stage_long.at_all).toNat
            0 spline_stage_long.at_all
            (fifo_reserve [] (cubic_spline_max_num_out spline_stage_long))
          = some (7705704, at_all, output))
      ∧ ¬ cubic_spline_assert spline_stage_long []
      ∧ 1 + ⌊(stage_occupancy spline_stage_long : ℚ)
            * (MULT32 / (spline_stage_long.step_all : ℚ))⌋ = 7705704)
    ∧ (0 < spline_stage_tiny.step_all ∧ integer spline_stage_tiny.at_all = 0
      ∧ spline_stage_tiny.out_in_ratio = MULT32 / (spline_stage_tiny.step_all : ℚ)
      ∧ stage_occupancy spline_stage_tiny = 1
      ∧ round_double (1 + round_double ((stage_occupancy spline_stage_tiny : ℚ)
          * round_double spline_stage_tiny.out_in_ratio)) = 2147483649
      ∧ cubic_spline_max_num_out spline_stage_tiny = -2147483648
      ∧ spline_passes spline_stage_tiny.step_all (stage_occupancy spline_stage_tiny)
          spline_stage_tiny.at_all 2147483648
      ∧ ¬ cubic_spline_assert spline_stage_tiny []) := by
  have hs : 0 < spline_stage_long.step_all := by decide
  have ht : 0 < spline_stage_tiny.step_all := by decide
  have hocc : stage_occupancy spline_stage_tiny = 1 := by decide
  obtain ⟨hmax, hp, hiff⟩ := spline_assert_of_values spline_stage_tiny [] 1 0 2
    spline_stage_tiny.out_in_ratio 2147483648 (-2147483648) hocc rfl rfl rfl (by decide)
    (by decide) (by decide) (by decide!)
  refine ⟨⟨quick_long_fed_stage, hs, by decide, by decide!, spline_stage_long_occupancy,
    spline_stage_long_max, ⟨_, _, cubic_spline_loop_count spline_stage_long [] 7705704 hs
      spline_stage_long_passes⟩, ?_, ?_⟩,
    ht, by decide, by decide!, hocc, by decide!, hmax, ?_, ?_⟩
  · rw [cubic_spline_assert_iff spline_stage_long [] 7705704 hs spline_stage_long_passes,
      spline_stage_long_max]
    decide
  · rw [spline_stage_long_occupancy]
    decide!
  · rw [hocc]
    exact hp
  · rw [hiff]
    decide

/-- C3 fails in the code for the Quick pipeline of step = 4164008105 and an input of
7470748 samples.  Fed in one rate_input, the only kernel call of rate_process,
cubic_spline on stage 0, violates its assertion assert(max_num_out - i >= 0).  Fed in two
chunks of 3735374 samples, both calls of cubic_spline satisfy the assertion, both
rate_process return, and the output stage holds 7705704 samples. -/
theorem quick_single_call_assert_fails :
    List.replicate 3735374 (0 : sample_t) ++ List.replicate 3735374 0
      = List.replicate 7470748 0
    ∧ quick_long_fed.input_stage_num = 0 ∧ quick_long_fed.output_stage_num = 1
    ∧ (quick_long_fed.stages 0).fn = stage_fn_t.cubic_spline
    ∧ ¬ cubic_spline_assert (quick_long_fed.stages 0) (quick_long_fed.stages 1).fifo
    ∧ cubic_spline_assert (quick_long_half.stages 0) (quick_long_half.stages 1).fifo
    ∧ ∃ q1 q2 : rate_t,
        rate_process env_small shared_zero quick_long_half = some q1
        ∧ cubic_spline_assert ((rate_input q1 (List.replicate 3735374 0)).stages 0)
            ((rate_input q1 (List.replicate 3735374 0)).stages 1).fifo
        ∧ rate_process env_small shared_zero (rate_input q1 (List.replicate 3735374 0))
            = some q2
        ∧ rate_stream env_small shared_zero quick_long
            [List.replicate 3735374 0, List.replicate 3735374 0] = some q2
        ∧ q2.output_stage_num = 1
        ∧ fifo_occupancy (q2.stages 1).fifo = 7705704 := by
  obtain ⟨hin2, hout2⟩ := quick_long_fed_indices
  obtain ⟨ha1, q1, hp1, hinv1⟩ := quick_long_first
  obtain ⟨ha2, q2, hp2, ho2, hlen⟩ := quick_long_second q1 hinv1
  have hs : 0 < spline_stage_long.step_all := by decide
  refine ⟨replicate_zero_halves, hin2, hout2, ?_, ?_, ha1, q1, q2,
    hp1, ha2, hp2, ?_, ho2, hlen⟩
  · rw [quick_long_fed_stage]
    rfl
  · rw [quick_long_fed_stage,
      cubic_spline_assert_iff spline_stage_long _ 7705704 hs spline_stage_long_passes,
      spline_stage_long_max]
    decide
  · have hp1b := hp1
    rw [quick_long_half] at hp1b
    exact rate_stream_two _ _ _ _ _ _ _ hp1b hp2

end Rate
